import Mathlib

/-!
# MyInvestments: the portfolio ledger of `script.js`

A shallow embedding of the `InvestmentManager` class of `src/script.js`.

* JavaScript numbers are modelled by `JSNum`: exact rationals together with
  `NaN`, `+Infinity` and `-Infinity`.  Rounding of binary floating point and the
  sign of zero are not modelled; everything else (propagation of `NaN`,
  division by zero, comparisons with `NaN`, truthiness) follows the language.
* The manager object is the record `Manager`; each method is a function from
  the manager and the values read from the form to the new manager and the
  notification shown.  An uncaught `TypeError` is the notice `Notice.typeError`:
  the mutations done before the throw stay in the returned manager.
* `Date.now()` readings are parameters.  Rendering, charts and `localStorage`
  are not modelled: they copy the three arrays and do not feed back into them.
-/

namespace MyInvestments

/-! ## JavaScript numbers -/

/-- A JavaScript number: `NaN`, `-Infinity`, a finite value, or `+Infinity`. -/
inductive JSNum where
  | nan : JSNum
  | ninf : JSNum
  | fin (q : ℚ) : JSNum
  | pinf : JSNum
  deriving DecidableEq

namespace JSNum

/-- Unary minus. -/
def neg : JSNum → JSNum
  | nan => nan
  | ninf => pinf
  | fin q => fin (-q)
  | pinf => ninf

/-- Binary `+`. -/
def add : JSNum → JSNum → JSNum
  | nan, _ => nan
  | _, nan => nan
  | pinf, ninf => nan
  | ninf, pinf => nan
  | pinf, _ => pinf
  | _, pinf => pinf
  | ninf, _ => ninf
  | _, ninf => ninf
  | fin a, fin b => fin (a + b)

/-- Binary `-`. -/
def sub (a b : JSNum) : JSNum := add a (neg b)

/-- The infinity with the sign of `pos`. -/
def signedInf (pos : Bool) : JSNum := if pos then pinf else ninf

/-- Binary `*`. -/
def mul : JSNum → JSNum → JSNum
  | nan, _ => nan
  | _, nan => nan
  | fin a, fin b => fin (a * b)
  | fin a, pinf => if a = 0 then nan else signedInf (decide (0 < a))
  | fin a, ninf => if a = 0 then nan else signedInf (decide (a < 0))
  | pinf, fin b => if b = 0 then nan else signedInf (decide (0 < b))
  | ninf, fin b => if b = 0 then nan else signedInf (decide (b < 0))
  | pinf, pinf => pinf
  | ninf, ninf => pinf
  | pinf, ninf => ninf
  | ninf, pinf => ninf

/-- Binary `/`.  A zero divisor counts as `+0`. -/
def div : JSNum → JSNum → JSNum
  | nan, _ => nan
  | _, nan => nan
  | fin a, fin b =>
      if b = 0 then (if a = 0 then nan else signedInf (decide (0 < a))) else fin (a / b)
  | fin _, pinf => fin 0
  | fin _, ninf => fin 0
  | pinf, fin b => signedInf (decide (0 ≤ b))
  | ninf, fin b => signedInf (decide (b < 0))
  | pinf, pinf => nan
  | pinf, ninf => nan
  | ninf, pinf => nan
  | ninf, ninf => nan

/-- The comparison `a < b`; false as soon as one side is `NaN`. -/
def lt : JSNum → JSNum → Bool
  | nan, _ => false
  | _, nan => false
  | ninf, ninf => false
  | ninf, _ => true
  | fin _, ninf => false
  | fin a, fin b => decide (a < b)
  | fin _, pinf => true
  | pinf, _ => false

/-- The comparison `a <= b`; false as soon as one side is `NaN`. -/
def le : JSNum → JSNum → Bool
  | nan, _ => false
  | _, nan => false
  | ninf, _ => true
  | fin _, ninf => false
  | fin a, fin b => decide (a ≤ b)
  | fin _, pinf => true
  | pinf, pinf => true
  | pinf, _ => false

/-- The comparison `a > b`. -/
def gt (a b : JSNum) : Bool := lt b a

/-- The comparison `a >= b`. -/
def ge (a b : JSNum) : Bool := le b a

/-- Truthiness of a number: everything except `NaN` and zero. -/
def truthy : JSNum → Bool
  | nan => false
  | fin q => decide (q ≠ 0)
  | _ => true

/-- The function `isNaN` on numbers. -/
def isNaN : JSNum → Bool
  | nan => true
  | _ => false

/-- The function `Math.abs`. -/
def abs : JSNum → JSNum
  | nan => nan
  | ninf => pinf
  | fin q => fin |q|
  | pinf => pinf

/-- The function `isFinite` on numbers. -/
def isFinite : JSNum → Bool
  | fin _ => true
  | _ => false

/-- The rational value of a finite number (and `0` for the others). -/
def toRat : JSNum → ℚ
  | fin q => q
  | _ => 0

end JSNum

/-! ## The data held by the manager -/

/-- The text of the `note` of a history entry, kept as its parameters. -/
inductive UpdateNote where
  /-- Entry written by `addInvestment` in the existing-investment mode. -/
  | initialValue (performancePercent : JSNum) : UpdateNote
  /-- Entry written by `confirmDivestment` for a partial divestment. -/
  | partialDivestment (divestedAmount : JSNum) : UpdateNote
  deriving DecidableEq

/-- One element of `investment.updates`. -/
structure Update where
  date : String
  value : JSNum
  timestamp : Nat
  note : Option UpdateNote
  deriving DecidableEq

/-- One element of `this.investments`. -/
structure Investment where
  id : Nat
  name : String
  type : String
  amount : JSNum
  quantity : Option JSNum
  date : String
  notes : String
  currentValue : JSNum
  updates : List Update
  isExistingInvestment : Bool
  initialPerformance : Option JSNum
  deriving DecidableEq

/-- The object stored in `this.pendingDivestment`. -/
structure PendingDivestment where
  investmentId : Nat
  /-- The holding found at quote time; `confirmDivestment` reads only its `name`. -/
  investment : Investment
  type : String
  date : String
  divestedAmount : JSNum
  divestedCost : JSNum
  grossGain : JSNum
  taxes : JSNum
  netGain : JSNum
  totalCash : JSNum
  deriving DecidableEq

/-- One element of `this.divestments`. -/
structure Divestment where
  id : Nat
  investmentId : Nat
  investmentName : String
  type : String
  date : String
  divestedAmount : JSNum
  divestedCost : JSNum
  grossGain : JSNum
  taxes : JSNum
  netGain : JSNum
  totalCash : JSNum
  timestamp : Nat
  deriving DecidableEq

/-- One element of `this.dividends`. -/
structure Dividend where
  id : Nat
  investmentId : Nat
  investmentName : String
  date : String
  grossAmount : JSNum
  taxesWithheld : JSNum
  netAmount : JSNum
  notes : String
  timestamp : Nat
  deriving DecidableEq

/-- The mutable fields of an `InvestmentManager`. -/
structure Manager where
  investments : List Investment
  divestments : List Divestment
  dividends : List Dividend
  pendingDivestment : Option PendingDivestment
  deriving DecidableEq

/-- The messages `validateInvestmentData` can push, in the order of the source. -/
inductive ValidationError where
  /-- "Il nome deve essere di almeno 2 caratteri". -/
  | nameTooShort : ValidationError
  /-- "Seleziona un tipo di investimento". -/
  | typeMissing : ValidationError
  /-- "Seleziona una data di acquisto". -/
  | dateMissing : ValidationError
  /-- The amount must be greater than zero. -/
  | amountNotPositive : ValidationError
  /-- "Il valore attuale deve essere maggiore di zero". -/
  | currentValueNotPositive : ValidationError
  /-- "Inserisci la percentuale di variazione". -/
  | performanceMissing : ValidationError
  /-- "La percentuale di variazione sembra troppo alta (max ±1000%)". -/
  | performanceTooHigh : ValidationError
  /-- "La quantità deve essere maggiore di zero". -/
  | quantityNotPositive : ValidationError
  deriving DecidableEq

/-- What a method reports: the notification it shows, or how it ends. -/
inductive Notice where
  /-- Error: "Compila tutti i campi richiesti". -/
  | fillAllFields : Notice
  /-- Error: "Investimento non trovato". -/
  | investmentNotFound : Notice
  /-- Error: "Inserisci un importo valido per il disinvestimento parziale". -/
  | invalidPartialAmount : Notice
  /-- Error: the divestment amount cannot be greater than the current value. -/
  | amountAboveCurrentValue : Notice
  /-- The quote is stored and displayed by `displayDivestmentResults`. -/
  | quoteDisplayed : Notice
  /-- Error: "Nessun disinvestimento da confermare". -/
  | nothingToConfirm : Notice
  /-- Success: "Disinvestimento registrato con successo!". -/
  | divestmentRecorded : Notice
  /-- An uncaught `TypeError` (property read on `undefined`). -/
  | typeError : Notice
  /-- Error: the joined messages of `validateInvestmentData`. -/
  | validationErrors (errors : List ValidationError) : Notice
  /-- Success: an investment was added. -/
  | investmentAdded : Notice
  /-- Success: "Investimento aggiornato con successo!". -/
  | investmentUpdated : Notice
  /-- Error: "Compila tutti i campi richiesti con valori validi". -/
  | dividendFieldsInvalid : Notice
  /-- Error: "Le tasse non possono essere negative". -/
  | dividendTaxesNegative : Notice
  /-- Error: "Le tasse non possono essere maggiori o uguali al dividendo". -/
  | dividendTaxesTooHigh : Notice
  /-- Success: "Dividendo registrato". -/
  | dividendRecorded : Notice
  /-- Error: complete or cancel the divestment in progress before deleting from the history. -/
  | finishPendingFirst : Notice
  /-- Error: "Disinvestimento non trovato". -/
  | divestmentNotFound : Notice
  /-- Success: "Disinvestimento eliminato". -/
  | divestmentDeleted : Notice
  /-- No notification. -/
  | silent : Notice
  deriving DecidableEq

/-! ## Divestment: quote -/

/-- The values `calculateDivestment` reads from the form. -/
structure DivestmentForm where
  /-- Value of the select `selectInvestment`: `none` is the empty choice. -/
  selectInvestment : Option Nat
  divestmentType : String
  divestmentDate : String
  /-- The result of `parseFloat` on the field `divestmentAmount`. -/
  divestmentAmount : JSNum

/-- The tax rate literal `0.26`. -/
def taxRate : JSNum := JSNum.fin (26 / 100)

/-- Lines 320-338 of `calculateDivestment`: the quote for given divested amount and cost. -/
def mkPending (investmentId : Nat) (investment : Investment) (divestmentType divestmentDate : String)
    (divestedAmount divestedCost : JSNum) : PendingDivestment :=
  let grossGain := JSNum.sub divestedAmount divestedCost
  let taxes := if JSNum.gt grossGain (JSNum.fin 0) then JSNum.mul grossGain taxRate else JSNum.fin 0
  let netGain := JSNum.sub grossGain taxes
  let totalCash := JSNum.sub divestedAmount taxes
  { investmentId := investmentId
    investment := investment
    type := divestmentType
    date := divestmentDate
    divestedAmount := divestedAmount
    divestedCost := divestedCost
    grossGain := grossGain
    taxes := taxes
    netGain := netGain
    totalCash := totalCash }

/-- The method `calculateDivestment`. -/
def calculateDivestment (m : Manager) (f : DivestmentForm) : Manager × Notice :=
  match f.selectInvestment with
  | none => (m, Notice.fillAllFields)
  | some investmentId =>
    if f.divestmentType = "" ∨ f.divestmentDate = "" then (m, Notice.fillAllFields)
    else
      match m.investments.find? (fun inv => inv.id == investmentId) with
      | none => (m, Notice.investmentNotFound)
      | some investment =>
        if f.divestmentType = "total" then
          ({ m with pendingDivestment := some (mkPending investmentId investment f.divestmentType
                f.divestmentDate investment.currentValue investment.amount) },
            Notice.quoteDisplayed)
        else
          let partialAmount := f.divestmentAmount
          if !partialAmount.truthy || JSNum.le partialAmount (JSNum.fin 0) then
            (m, Notice.invalidPartialAmount)
          else if JSNum.gt partialAmount investment.currentValue then
            (m, Notice.amountAboveCurrentValue)
          else
            let percentage := JSNum.div partialAmount investment.currentValue
            ({ m with pendingDivestment := some (mkPending investmentId investment f.divestmentType
                  f.divestmentDate partialAmount (JSNum.mul investment.amount percentage)) },
              Notice.quoteDisplayed)

/-! ## Divestment: confirm and cancel -/

/-- Apply `g` to the first element satisfying `p`: the in-place mutation of the object
returned by `Array.prototype.find`. -/
def modifyFirst (p : Investment → Bool) (g : Investment → Investment) :
    List Investment → List Investment
  | [] => []
  | x :: xs => if p x then g x :: xs else x :: modifyFirst p g xs

/-- Lines 406-421 of `confirmDivestment`: the mutation of the holding found. -/
def applyPartialDivestment (pending : PendingDivestment) (tUpdate : Nat)
    (investment : Investment) : Investment :=
  let percentage := JSNum.div pending.divestedAmount investment.currentValue
  let amount := JSNum.sub investment.amount pending.divestedCost
  let currentValue := JSNum.sub investment.currentValue pending.divestedAmount
  let quantity :=
    match investment.quantity with
    | none => none
    | some q => if q.truthy then some (JSNum.mul q (JSNum.sub (JSNum.fin 1) percentage)) else some q
  { investment with
    amount := amount
    currentValue := currentValue
    quantity := quantity
    updates := investment.updates ++
      [{ date := pending.date, value := currentValue, timestamp := tUpdate,
         note := some (UpdateNote.partialDivestment pending.divestedAmount) }] }

/-- Lines 381-394 of `confirmDivestment`: the record built from the pending quote. -/
def mkDivestmentRecord (pending : PendingDivestment) (tId tStamp : Nat) : Divestment :=
  { id := tId
    investmentId := pending.investmentId
    investmentName := pending.investment.name
    type := pending.type
    date := pending.date
    divestedAmount := pending.divestedAmount
    divestedCost := pending.divestedCost
    grossGain := pending.grossGain
    taxes := pending.taxes
    netGain := pending.netGain
    totalCash := pending.totalCash
    timestamp := tStamp }

/-- The method `confirmDivestment`; `tId`, `tStamp`, `tUpdate` are its `Date.now()` readings.
On success `resetDivestmentForm` clears the pending quote. -/
def confirmDivestment (m : Manager) (tId tStamp tUpdate : Nat) : Manager × Notice :=
  match m.pendingDivestment with
  | none => (m, Notice.nothingToConfirm)
  | some pending =>
    let divestments := m.divestments ++ [mkDivestmentRecord pending tId tStamp]
    let found := m.investments.find? (fun inv => inv.id == pending.investmentId)
    if pending.type = "total" then
      ({ investments := m.investments.filter (fun inv => inv.id != pending.investmentId)
         divestments := divestments
         dividends := m.dividends
         pendingDivestment := none }, Notice.divestmentRecorded)
    else
      match found with
      | none => ({ m with divestments := divestments }, Notice.typeError)
      | some _ =>
        ({ investments := modifyFirst (fun inv => inv.id == pending.investmentId)
             (applyPartialDivestment pending tUpdate) m.investments
           divestments := divestments
           dividends := m.dividends
           pendingDivestment := none }, Notice.divestmentRecorded)

/-- The method `cancelDivestment`. -/
def cancelDivestment (m : Manager) : Manager :=
  { m with pendingDivestment := none }

/-- The method `resetDivestmentForm`, as far as the manager is concerned. -/
def resetDivestmentForm (m : Manager) : Manager :=
  { m with pendingDivestment := none }

/-! ## Revaluation -/

/-- The method `updateInvestment`: `id` is the result of `parseInt` (`none` for `NaN`),
`currentValue` the result of `parseFloat`. -/
def updateInvestment (m : Manager) (id : Option Nat) (currentValue : JSNum) (updateDate : String)
    (now : Nat) : Manager × Notice :=
  match id with
  | none => (m, Notice.silent)
  | some id =>
    match m.investments.find? (fun inv => inv.id == id) with
    | none => (m, Notice.silent)
    | some _ =>
      let revalue : Investment → Investment := fun investment =>
        { investment with
          currentValue := currentValue
          updates := investment.updates ++
            [{ date := updateDate, value := currentValue, timestamp := now, note := none }] }
      ({ m with investments := modifyFirst (fun inv => inv.id == id) revalue m.investments },
        Notice.investmentUpdated)

/-- The method `deleteInvestment`; `confirmed` is the answer to the `confirm` dialog. -/
def deleteInvestment (m : Manager) (id : Nat) (confirmed : Bool) : Manager :=
  if confirmed then { m with investments := m.investments.filter (fun inv => inv.id != id) }
  else m

/-! ## Creation -/

/-- The values `addInvestment` and `validateInvestmentData` read from the form. -/
structure InvestmentForm where
  /-- The `data-mode` of the active mode tab. -/
  mode : String
  /-- The field `investmentName` after `.trim()`. -/
  investmentName : String
  investmentType : String
  /-- The result of `parseFloat` on `investmentAmount`. -/
  investmentAmount : JSNum
  /-- The result of `parseFloat` on `investmentQuantity`. -/
  investmentQuantity : JSNum
  investmentDate : String
  /-- The field `investmentNotes` after `.trim()`. -/
  investmentNotes : String
  /-- The result of `parseFloat` on `currentValue`. -/
  currentValue : JSNum
  /-- The result of `parseFloat` on `performancePercent`. -/
  performancePercent : JSNum
  /-- The result of `parseFloat` on `existingQuantity`. -/
  existingQuantity : JSNum

/-- The expression `x || null` on a number. -/
def orNull (x : JSNum) : Option JSNum := if x.truthy then some x else none

/-- The `length` of a string: its number of UTF-16 code units. -/
def utf16Length (s : String) : Nat :=
  s.toList.foldl (fun n c => n + (if c.toNat < 65536 then 1 else 2)) 0

/-- The method `validateInvestmentData`; `currentValue` and `performancePercent` are what it
reads again from the form in the existing-investment mode.  The name held in `data` is already
trimmed, so the second `trim` is the identity. -/
def validateInvestmentData (data : Investment) (mode : String)
    (currentValue performancePercent : JSNum) : List ValidationError :=
  let errors : List ValidationError := []
  let errors := if data.name = "" ∨ utf16Length data.name < 2 then
    errors ++ [ValidationError.nameTooShort] else errors
  let errors := if data.type = "" then errors ++ [ValidationError.typeMissing] else errors
  let errors := if data.date = "" then errors ++ [ValidationError.dateMissing] else errors
  let errors :=
    if mode = "new" then
      if !data.amount.truthy || JSNum.le data.amount (JSNum.fin 0) then
        errors ++ [ValidationError.amountNotPositive] else errors
    else
      let errors := if !currentValue.truthy || JSNum.le currentValue (JSNum.fin 0) then
        errors ++ [ValidationError.currentValueNotPositive] else errors
      let errors := if performancePercent.isNaN then
        errors ++ [ValidationError.performanceMissing] else errors
      if JSNum.gt performancePercent.abs (JSNum.fin 1000) then
        errors ++ [ValidationError.performanceTooHigh] else errors
  match data.quantity with
  | none => errors
  | some q => if JSNum.le q (JSNum.fin 0) then
      errors ++ [ValidationError.quantityNotPositive] else errors

/-- Lines 169-206 of `addInvestment`: the object `formData`; `tId` and `tStamp` are the
`Date.now()` readings and `today` the ISO date of the day. -/
def mkFormData (f : InvestmentForm) (tId tStamp : Nat) (today : String) : Investment :=
  if f.mode = "new" then
    { id := tId
      name := f.investmentName
      type := f.investmentType
      amount := f.investmentAmount
      quantity := orNull f.investmentQuantity
      date := f.investmentDate
      notes := f.investmentNotes
      currentValue := f.investmentAmount
      updates := []
      isExistingInvestment := false
      initialPerformance := none }
  else
    let currentValue := f.currentValue
    let performancePercent := f.performancePercent
    let originalAmount :=
      JSNum.div currentValue (JSNum.add (JSNum.fin 1) (JSNum.div performancePercent (JSNum.fin 100)))
    { id := tId
      name := f.investmentName
      type := f.investmentType
      amount := originalAmount
      quantity := orNull f.existingQuantity
      date := f.investmentDate
      notes := f.investmentNotes
      currentValue := currentValue
      updates := [{ date := today, value := currentValue, timestamp := tStamp,
                    note := some (UpdateNote.initialValue performancePercent) }]
      isExistingInvestment := true
      initialPerformance := some performancePercent }

/-- The method `addInvestment`. -/
def addInvestment (m : Manager) (f : InvestmentForm) (tId tStamp : Nat) (today : String) :
    Manager × Notice :=
  let formData := mkFormData f tId tStamp today
  let errors := validateInvestmentData formData f.mode f.currentValue f.performancePercent
  if errors.length > 0 then (m, Notice.validationErrors errors)
  else ({ m with investments := m.investments ++ [formData] }, Notice.investmentAdded)

/-! ## The validation contract, as the specification words it -/

/-- The quantity field read in the given mode. -/
def quantityField (f : InvestmentForm) : JSNum :=
  if f.mode = "new" then f.investmentQuantity else f.existingQuantity

/-- The rules of the validation contract in the order of the specification, each with
whether the form violates it and the reason reported: name of at least 2 characters after
trimming, category present, acquisition date present, cost basis `> 0` (direct mode) or
current value `> 0`, performance numeric and `|performance| <= 1000` (derived mode), quantity
`> 0` if present. -/
def ruleViolations (f : InvestmentForm) : List (Bool × ValidationError) :=
  [(decide (utf16Length f.investmentName < 2), ValidationError.nameTooShort),
   (decide (f.investmentType = ""), ValidationError.typeMissing),
   (decide (f.investmentDate = ""), ValidationError.dateMissing)] ++
  (if f.mode = "new" then
    [(!JSNum.gt f.investmentAmount (JSNum.fin 0), ValidationError.amountNotPositive)]
   else
    [(!JSNum.gt f.currentValue (JSNum.fin 0), ValidationError.currentValueNotPositive),
     (f.performancePercent.isNaN, ValidationError.performanceMissing),
     (JSNum.gt f.performancePercent.abs (JSNum.fin 1000), ValidationError.performanceTooHigh)]) ++
  [(match orNull (quantityField f) with
    | none => false
    | some q => !JSNum.gt q (JSNum.fin 0), ValidationError.quantityNotPositive)]

/-- The reasons of the violated rules. -/
def violatedRules (f : InvestmentForm) : List ValidationError :=
  ((ruleViolations f).filter (fun r => r.1)).map (fun r => r.2)

/-- The enumerated set of categories: the `enum` of `type` in `backend/models/Investment.js`,
which is also the key set of `getTypeLabel`. -/
def categories : List String :=
  ["fondo", "azione", "azione-dividendi", "etf", "etf-dividendi", "obbligazione", "reit"]

/-! ## Performance of a holding -/

/-- The virtual `performance` of `backend/models/Investment.js`. -/
def performance (inv : Investment) : JSNum :=
  if inv.amount = JSNum.fin 0 then JSNum.fin 0
  else JSNum.mul (JSNum.div (JSNum.sub inv.currentValue inv.amount) inv.amount) (JSNum.fin 100)

/-! ## Dividends -/

/-- The method `isDividendInvestment`. -/
def isDividendInvestment (type : String) : Bool :=
  ["azione-dividendi", "etf-dividendi", "reit"].contains type

/-- The values `addDividend` reads from the form. -/
structure DividendForm where
  /-- The result of `parseInt` on the select `selectDividendInvestment`: `none` is `NaN`. -/
  selectDividendInvestment : Option Nat
  dividendDate : String
  /-- The result of `parseFloat` on `dividendAmount`. -/
  dividendAmount : JSNum
  /-- The result of `parseFloat` on `dividendTaxes`, before `|| 0`. -/
  dividendTaxes : JSNum
  /-- The field `dividendNotes` after `.trim()`. -/
  dividendNotes : String

/-- The expression `x || 0` on a number. -/
def orZero (x : JSNum) : JSNum := if x.truthy then x else JSNum.fin 0

/-- The method `addDividend`; `tId` and `tStamp` are its `Date.now()` readings. -/
def addDividend (m : Manager) (f : DividendForm) (tId tStamp : Nat) : Manager × Notice :=
  let dividendAmount := f.dividendAmount
  let dividendTaxes := orZero f.dividendTaxes
  match f.selectDividendInvestment with
  | none => (m, Notice.dividendFieldsInvalid)
  | some investmentId =>
    if investmentId = 0 ∨ f.dividendDate = "" ∨ dividendAmount.truthy = false ∨
        JSNum.le dividendAmount (JSNum.fin 0) = true then
      (m, Notice.dividendFieldsInvalid)
    else if JSNum.lt dividendTaxes (JSNum.fin 0) then (m, Notice.dividendTaxesNegative)
    else if JSNum.ge dividendTaxes dividendAmount then (m, Notice.dividendTaxesTooHigh)
    else
      match m.investments.find? (fun inv => inv.id == investmentId) with
      | none => (m, Notice.investmentNotFound)
      | some investment =>
        let dividend : Dividend :=
          { id := tId
            investmentId := investmentId
            investmentName := investment.name
            date := f.dividendDate
            grossAmount := dividendAmount
            taxesWithheld := dividendTaxes
            netAmount := JSNum.sub dividendAmount dividendTaxes
            notes := f.dividendNotes
            timestamp := tStamp }
        ({ m with dividends := m.dividends ++ [dividend] }, Notice.dividendRecorded)

/-- The holdings `populateDividendInvestmentSelect` offers as options of the select. -/
def dividendInvestments (m : Manager) : List Investment :=
  m.investments.filter (fun inv => isDividendInvestment inv.type)

/-! ## Deleting a divestment record -/

/-- The method `deleteDivestment`; `confirmed` is the answer to the `confirm` dialog. -/
def deleteDivestment (m : Manager) (divestmentId : Nat) (confirmed : Bool) : Manager × Notice :=
  match m.pendingDivestment with
  | some _ => (m, Notice.finishPendingFirst)
  | none =>
    match m.divestments.find? (fun div => div.id == divestmentId) with
    | none => (m, Notice.divestmentNotFound)
    | some _ =>
      if confirmed then
        ({ m with divestments := m.divestments.filter (fun div => div.id != divestmentId) },
          Notice.divestmentDeleted)
      else (m, Notice.silent)

/-! ## Dashboard and dividend statistics -/

/-- The sum of a list of numbers, added from the left starting at `0`. -/
def jsSum (xs : List JSNum) : JSNum := xs.foldl JSNum.add (JSNum.fin 0)

/-- The exact sum of the values of one numeric field over a list. -/
def ratSum {α : Type} (g : α → JSNum) (l : List α) : ℚ := (l.map (fun x => (g x).toRat)).sum

/-- The tax on a finite gross gain, in exact arithmetic: 26% of a positive gain. -/
def taxOf (g : ℚ) : ℚ := if 0 < g then g * (26 / 100) else 0

/-- All the figures the dashboard adds up are finite numbers. -/
def finiteFigures (m : Manager) : Bool :=
  m.investments.all (fun inv => inv.amount.isFinite && inv.currentValue.isFinite) &&
  m.divestments.all (fun div =>
    div.totalCash.isFinite && div.divestedCost.isFinite && div.netGain.isFinite) &&
  m.dividends.all (fun div => div.netAmount.isFinite)

/-- The three identities between the figures of a divestment record. -/
def recordIdentities (div : Divestment) : Bool :=
  decide (div.netGain = JSNum.sub div.grossGain div.taxes) &&
  decide (div.grossGain = JSNum.sub div.divestedAmount div.divestedCost) &&
  decide (div.totalCash = JSNum.sub div.divestedAmount div.taxes)

/-- The values computed by `updateDashboard`, under the names of its constants. -/
structure Dashboard where
  totalInvested : JSNum
  totalPortfolio : JSNum
  totalGainLoss : JSNum
  totalReturn : JSNum
  totalCashFromSales : JSNum
  totalDivestedCost : JSNum
  realizedGains : JSNum
  totalDividendsReceived : JSNum
  totalPatrimony : JSNum
  totalOriginalInvestment : JSNum
  totalRealizedAndUnrealizedGains : JSNum
  totalReturnCalculated : JSNum

/-- The method `updateDashboard`, up to the writing of the values into the page. -/
def updateDashboard (m : Manager) : Dashboard :=
  let totalInvested := m.investments.foldl (fun sum inv => JSNum.add sum inv.amount) (JSNum.fin 0)
  let totalPortfolio :=
    m.investments.foldl (fun sum inv => JSNum.add sum inv.currentValue) (JSNum.fin 0)
  let totalGainLoss := JSNum.sub totalPortfolio totalInvested
  let totalReturn :=
    if JSNum.gt totalInvested (JSNum.fin 0) then
      JSNum.mul (JSNum.div totalGainLoss totalInvested) (JSNum.fin 100)
    else JSNum.fin 0
  let totalCashFromSales :=
    m.divestments.foldl (fun sum div => JSNum.add sum div.totalCash) (JSNum.fin 0)
  let totalDivestedCost :=
    m.divestments.foldl (fun sum div => JSNum.add sum div.divestedCost) (JSNum.fin 0)
  let realizedGains :=
    m.divestments.foldl (fun sum div => JSNum.add sum div.netGain) (JSNum.fin 0)
  let totalDividendsReceived :=
    m.dividends.foldl (fun sum div => JSNum.add sum div.netAmount) (JSNum.fin 0)
  let totalPatrimony := JSNum.add (JSNum.add totalPortfolio totalCashFromSales) totalDividendsReceived
  let totalOriginalInvestment := JSNum.add totalInvested totalDivestedCost
  let totalRealizedAndUnrealizedGains :=
    JSNum.add (JSNum.add totalGainLoss realizedGains) totalDividendsReceived
  let totalReturnCalculated :=
    if JSNum.gt totalOriginalInvestment (JSNum.fin 0) then
      JSNum.mul (JSNum.div totalRealizedAndUnrealizedGains totalOriginalInvestment) (JSNum.fin 100)
    else JSNum.fin 0
  { totalInvested := totalInvested
    totalPortfolio := totalPortfolio
    totalGainLoss := totalGainLoss
    totalReturn := totalReturn
    totalCashFromSales := totalCashFromSales
    totalDivestedCost := totalDivestedCost
    realizedGains := realizedGains
    totalDividendsReceived := totalDividendsReceived
    totalPatrimony := totalPatrimony
    totalOriginalInvestment := totalOriginalInvestment
    totalRealizedAndUnrealizedGains := totalRealizedAndUnrealizedGains
    totalReturnCalculated := totalReturnCalculated }

/-- The values computed by `updateDividendStats`. -/
structure DividendStats where
  totalGross : JSNum
  totalNet : JSNum
  totalTaxes : JSNum
  averageYield : JSNum

/-- The method `updateDividendStats`, up to the writing of the values into the page. -/
def updateDividendStats (m : Manager) : DividendStats :=
  let totalGross := m.dividends.foldl (fun sum div => JSNum.add sum div.grossAmount) (JSNum.fin 0)
  let totalNet := m.dividends.foldl (fun sum div => JSNum.add sum div.netAmount) (JSNum.fin 0)
  let totalTaxes :=
    m.dividends.foldl (fun sum div => JSNum.add sum div.taxesWithheld) (JSNum.fin 0)
  let dividendInvestments := m.investments.filter (fun inv => isDividendInvestment inv.type)
  let averageYield :=
    if dividendInvestments.length > 0 then
      let totalInvestedInDividendStocks :=
        dividendInvestments.foldl (fun sum inv => JSNum.add sum inv.amount) (JSNum.fin 0)
      if JSNum.gt totalInvestedInDividendStocks (JSNum.fin 0) then
        JSNum.mul (JSNum.div totalGross totalInvestedInDividendStocks) (JSNum.fin 100)
      else JSNum.fin 0
    else JSNum.fin 0
  { totalGross := totalGross, totalNet := totalNet, totalTaxes := totalTaxes,
    averageYield := averageYield }

/-! ## The backend: documents and routes

The three collections of `backend/models` are lists of documents; `find` with a filter is
`List.filter`, `findOne` is `List.find?`.  Failures of the database (the `catch` branches
answering 500) are not modelled. -/

/-- A document of `models/Investment.js`; `id` is its `_id`. -/
structure InvestmentDoc where
  id : Nat
  userId : Nat
  name : String
  type : String
  amount : JSNum
  currentValue : JSNum
  date : String
  deriving DecidableEq

/-- A document of `models/Dividend.js`; `id` is its `_id`, `year` the value of
`new Date(date).getFullYear()` (`none` for `NaN`). -/
structure DividendDoc where
  id : Nat
  userId : Nat
  investmentId : Nat
  investmentName : String
  year : Option Int
  grossAmount : JSNum
  taxesWithheld : JSNum
  netAmount : JSNum
  deriving DecidableEq

/-- A document of `models/Divestment.js`; `id` is its `_id`, `year` the value of
`new Date(date).getFullYear()` (`none` for `NaN`). -/
structure DivestmentDoc where
  id : Nat
  userId : Nat
  investmentId : Nat
  investmentName : String
  year : Option Int
  amount : JSNum
  reason : String
  deriving DecidableEq

/-- The three collections. -/
structure Store where
  investments : List InvestmentDoc
  dividends : List DividendDoc
  divestments : List DivestmentDoc
  deriving DecidableEq

/-- The answers of the delete route. -/
inductive DeleteResponse where
  /-- Status 404, "Investment not found". -/
  | notFound : DeleteResponse
  /-- Status 200, "Investment and related data deleted successfully". -/
  | deleted : DeleteResponse
  deriving DecidableEq

/-- The handler of `router.delete('/:id')` in `routes/investments.js`: `findOne` on
`_id` and `userId`, both `deleteMany` on `investmentId` and `userId`, then
`findByIdAndDelete`, which removes the first document of that `_id`. -/
def deleteInvestmentRoute (s : Store) (userId id : Nat) : Store × DeleteResponse :=
  match s.investments.find? (fun inv => inv.id == id && inv.userId == userId) with
  | none => (s, DeleteResponse.notFound)
  | some _ =>
    let dividends := s.dividends.filter (fun d => !(d.investmentId == id && d.userId == userId))
    let divestments :=
      s.divestments.filter (fun d => !(d.investmentId == id && d.userId == userId))
    let investments := s.investments.eraseP (fun inv => inv.id == id)
    ({ investments := investments, dividends := dividends, divestments := divestments },
      DeleteResponse.deleted)

/-- The read `inv.initialAmount` in the summary route.  The schema of `models/Investment.js`
declares no path `initialAmount` (the cost basis is `amount`), so the read gives `undefined`
on every document. -/
def InvestmentDoc.initialAmount (_inv : InvestmentDoc) : Option JSNum := none

/-- The expression `sum + x` where `x` may be `undefined`: `undefined` converts to `NaN`. -/
def addMaybe (sum : JSNum) (x : Option JSNum) : JSNum :=
  match x with
  | none => JSNum.nan
  | some v => JSNum.add sum v

/-- The body of the answer of the summary route. -/
structure Summary where
  totalInvested : JSNum
  currentValue : JSNum
  gainLoss : JSNum
  gainLossPercentage : JSNum
  totalDividends : JSNum
  totalDivested : JSNum
  taxOnGains : JSNum
  investmentCount : Nat
  deriving DecidableEq

/-- The handler of `router.get('/stats/summary')` in `routes/investments.js`. -/
def summaryRoute (s : Store) (userId : Nat) : Summary :=
  let investments := s.investments.filter (fun inv => inv.userId == userId)
  let dividends := s.dividends.filter (fun d => d.userId == userId)
  let divestments := s.divestments.filter (fun d => d.userId == userId)
  let totalInvested := investments.foldl (fun sum inv => addMaybe sum inv.initialAmount) (JSNum.fin 0)
  let currentValue := investments.foldl (fun sum inv => JSNum.add sum inv.currentValue) (JSNum.fin 0)
  let totalDividends := dividends.foldl (fun sum div => JSNum.add sum div.netAmount) (JSNum.fin 0)
  let totalDivested := divestments.foldl (fun sum div => JSNum.add sum div.amount) (JSNum.fin 0)
  let gainLoss := JSNum.sub currentValue totalInvested
  let gainLossPercentage :=
    if JSNum.gt totalInvested (JSNum.fin 0) then
      JSNum.mul (JSNum.div gainLoss totalInvested) (JSNum.fin 100)
    else JSNum.fin 0
  let taxOnGains :=
    if JSNum.gt gainLoss (JSNum.fin 0) then JSNum.mul gainLoss (JSNum.fin (26 / 100))
    else JSNum.fin 0
  { totalInvested := totalInvested
    currentValue := currentValue
    gainLoss := gainLoss
    gainLossPercentage := gainLossPercentage
    totalDividends := totalDividends
    totalDivested := totalDivested
    taxOnGains := taxOnGains
    investmentCount := investments.length }

/-- The property names every object literal inherits from `Object.prototype`.  For such a
key `acc[key]` is the inherited member, which is truthy, whatever the own properties. -/
def objectPrototypeKeys : List String :=
  ["constructor", "__proto__", "hasOwnProperty", "isPrototypeOf", "propertyIsEnumerable",
   "toLocaleString", "toString", "valueOf", "__defineGetter__", "__defineSetter__",
   "__lookupGetter__", "__lookupSetter__"]

/-- The grouping `reduce` of the statistics routes.  The accumulator, an object literal, is
the list of its own properties in order of creation.  For a record of key `k`: when `acc[k]`
is falsy (no own property, and `k` not inherited) the entry is created from `init`; then the
counters of `acc[k]` are bumped.  When `k` is inherited, `acc[k]` is the inherited member and
the bumps land on it: the own properties do not change. -/
def groupStep {κ ρ γ : Type} [BEq κ] (inherited : κ → Bool) (key : ρ → κ) (init : γ)
    (bump : γ → ρ → γ) (acc : List (κ × γ)) (r : ρ) : List (κ × γ) :=
  if inherited (key r) then acc
  else
    match acc.lookup (key r) with
    | none => acc ++ [(key r, bump init r)]
    | some _ => acc.map (fun e => if e.1 == key r then (e.1, bump e.2 r) else e)

/-- The whole `reduce`, started from the empty object. -/
def groupBy {κ ρ γ : Type} [BEq κ] (inherited : κ → Bool) (key : ρ → κ) (init : γ)
    (bump : γ → ρ → γ) (records : List ρ) : List (κ × γ) :=
  records.foldl (groupStep inherited key init bump) []

/-- An entry `{ count, totalAmount }` of the divestment statistics. -/
structure AmountGroup where
  count : Nat
  totalAmount : JSNum
  deriving DecidableEq

/-- An entry `{ count, totalGross, totalNet, totalTaxes }` of the dividend statistics. -/
structure DividendGroup where
  count : Nat
  totalGross : JSNum
  totalNet : JSNum
  totalTaxes : JSNum
  deriving DecidableEq

/-- The two statements `acc[k].count++; acc[k].totalAmount += div.amount`. -/
def bumpAmount (g : AmountGroup) (div : DivestmentDoc) : AmountGroup :=
  { count := g.count + 1, totalAmount := JSNum.add g.totalAmount div.amount }

/-- The four statements bumping an entry of the dividend statistics. -/
def bumpDividend (g : DividendGroup) (div : DividendDoc) : DividendGroup :=
  { count := g.count + 1
    totalGross := JSNum.add g.totalGross div.grossAmount
    totalNet := JSNum.add g.totalNet div.netAmount
    totalTaxes := JSNum.add g.totalTaxes div.taxesWithheld }

/-- Whether a string key is an inherited property name. -/
def inheritedName (k : String) : Bool := objectPrototypeKeys.contains k

/-- A year used as key is a numeral or `NaN`, never an inherited property name. -/
def inheritedYear (_k : Option Int) : Bool := false

/-- The body of the answer of the divestment statistics route. -/
structure DivestmentStats where
  totalCount : Nat
  totalAmount : JSNum
  byInvestment : List (String × AmountGroup)
  byReason : List (String × AmountGroup)
  byYear : List (Option Int × AmountGroup)

/-- The handler of `router.get('/stats')` in `routes/divestments.js`. -/
def divestmentStatsRoute (s : Store) (userId : Nat) : DivestmentStats :=
  let divestments := s.divestments.filter (fun d => d.userId == userId)
  { totalCount := divestments.length
    totalAmount := divestments.foldl (fun sum div => JSNum.add sum div.amount) (JSNum.fin 0)
    byInvestment := groupBy inheritedName (fun div => div.investmentName)
      { count := 0, totalAmount := JSNum.fin 0 } bumpAmount divestments
    byReason := groupBy inheritedName (fun div => div.reason)
      { count := 0, totalAmount := JSNum.fin 0 } bumpAmount divestments
    byYear := groupBy inheritedYear (fun div => div.year)
      { count := 0, totalAmount := JSNum.fin 0 } bumpAmount divestments }

/-- The body of the answer of the dividend statistics route. -/
structure DividendStatsBody where
  totalCount : Nat
  totalGross : JSNum
  totalNet : JSNum
  totalTaxes : JSNum
  byInvestment : List (String × DividendGroup)
  byYear : List (Option Int × DividendGroup)

/-- The handler of `router.get('/stats')` in `routes/dividends.js`. -/
def dividendStatsRoute (s : Store) (userId : Nat) : DividendStatsBody :=
  let dividends := s.dividends.filter (fun d => d.userId == userId)
  { totalCount := dividends.length
    totalGross := dividends.foldl (fun sum div => JSNum.add sum div.grossAmount) (JSNum.fin 0)
    totalNet := dividends.foldl (fun sum div => JSNum.add sum div.netAmount) (JSNum.fin 0)
    totalTaxes := dividends.foldl (fun sum div => JSNum.add sum div.taxesWithheld) (JSNum.fin 0)
    byInvestment := groupBy inheritedName (fun div => div.investmentName)
      { count := 0, totalGross := JSNum.fin 0, totalNet := JSNum.fin 0,
        totalTaxes := JSNum.fin 0 } bumpDividend dividends
    byYear := groupBy inheritedYear (fun div => div.year)
      { count := 0, totalGross := JSNum.fin 0, totalNet := JSNum.fin 0,
        totalTaxes := JSNum.fin 0 } bumpDividend dividends }

/-! ## Concrete data used to instantiate the theorems -/

/-- A holding bought for 1000 and now worth 1500. -/
def holdingA : Investment :=
  { id := 1, name := "Fondo A", type := "fondo", amount := JSNum.fin 1000, quantity := none,
    date := "2024-01-10", notes := "", currentValue := JSNum.fin 1500, updates := [],
    isExistingInvestment := false, initialPerformance := none }

/-- A second holding, with a quantity, bought for 500 and now worth 400. -/
def holdingB : Investment :=
  { id := 2, name := "Azione B", type := "azione", amount := JSNum.fin 500,
    quantity := some (JSNum.fin 10), date := "2024-02-15", notes := "",
    currentValue := JSNum.fin 400, updates := [],
    isExistingInvestment := false, initialPerformance := none }

/-- A manager holding `holdingA` and `holdingB`, with nothing pending. -/
def managerAB : Manager :=
  { investments := [holdingA, holdingB], divestments := [], dividends := [],
    pendingDivestment := none }

/-- The form of a partial divestment of 600 out of `holdingA`. -/
def formPartialA : DivestmentForm :=
  { selectInvestment := some 1, divestmentType := "partial", divestmentDate := "2024-06-01",
    divestmentAmount := JSNum.fin 600 }

/-- The form of a total divestment of `holdingA`. -/
def formTotalA : DivestmentForm :=
  { selectInvestment := some 1, divestmentType := "total", divestmentDate := "2024-06-01",
    divestmentAmount := JSNum.nan }

/-- The quote for 600 out of `holdingA`: cost 400, gain 200, tax 52, net cash 548. -/
def pendingPartialA : PendingDivestment :=
  { investmentId := 1, investment := holdingA, type := "partial", date := "2024-06-01",
    divestedAmount := JSNum.fin 600, divestedCost := JSNum.fin 400, grossGain := JSNum.fin 200,
    taxes := JSNum.fin 52, netGain := JSNum.fin 148, totalCash := JSNum.fin 548 }

/-- The quote for all of `holdingA`: cost 1000, gain 500, tax 130, net cash 1370. -/
def pendingTotalA : PendingDivestment :=
  { investmentId := 1, investment := holdingA, type := "total", date := "2024-06-01",
    divestedAmount := JSNum.fin 1500, divestedCost := JSNum.fin 1000, grossGain := JSNum.fin 500,
    taxes := JSNum.fin 130, netGain := JSNum.fin 370, totalCash := JSNum.fin 1370 }

/-- The holding `holdingA` after the partial divestment of 600 confirmed at time 9. -/
def holdingAReduced : Investment :=
  { id := 1, name := "Fondo A", type := "fondo", amount := JSNum.fin 600, quantity := none,
    date := "2024-01-10", notes := "", currentValue := JSNum.fin 900,
    updates := [{ date := "2024-06-01", value := JSNum.fin 900, timestamp := 9,
                  note := some (UpdateNote.partialDivestment (JSNum.fin 600)) }],
    isExistingInvestment := false, initialPerformance := none }

/-- The form of a partial divestment of 1500, the whole current value of `holdingA`. -/
def formPartialAllA : DivestmentForm :=
  { selectInvestment := some 1, divestmentType := "partial", divestmentDate := "2024-06-01",
    divestmentAmount := JSNum.fin 1500 }

/-- The manager after quoting 600 out of `holdingA` and then deleting `holdingA`. -/
def managerVanishedPartial : Manager :=
  deleteInvestment (calculateDivestment managerAB formPartialA).1 1 true

/-- The manager after quoting all of `holdingA` and then deleting `holdingA`. -/
def managerVanishedTotal : Manager :=
  deleteInvestment (calculateDivestment managerAB formTotalA).1 1 true

/-- The manager after quoting 600 out of `holdingA` and then revaluing `holdingA` to 500. -/
def managerRevalued : Manager :=
  (updateInvestment (calculateDivestment managerAB formPartialA).1 (some 1) (JSNum.fin 500)
    "2024-06-02" 5).1

/-- The holding `holdingA` after revaluation to 500 at time 5. -/
def holdingARevalued : Investment :=
  { id := 1, name := "Fondo A", type := "fondo", amount := JSNum.fin 1000, quantity := none,
    date := "2024-01-10", notes := "", currentValue := JSNum.fin 500,
    updates := [{ date := "2024-06-02", value := JSNum.fin 500, timestamp := 5, note := none }],
    isExistingInvestment := false, initialPerformance := none }

/-- The holding `holdingA` after revaluation to 500 and confirmation of the quote of 600. -/
def holdingANegative : Investment :=
  { id := 1, name := "Fondo A", type := "fondo", amount := JSNum.fin 600, quantity := none,
    date := "2024-01-10", notes := "", currentValue := JSNum.fin (-100),
    updates := [{ date := "2024-06-02", value := JSNum.fin 500, timestamp := 5, note := none },
                { date := "2024-06-01", value := JSNum.fin (-100), timestamp := 9,
                  note := some (UpdateNote.partialDivestment (JSNum.fin 600)) }],
    isExistingInvestment := false, initialPerformance := none }

/-- The form of an existing investment worth 1260 after a performance of +26%. -/
def formDerived : InvestmentForm :=
  { mode := "existing", investmentName := "ETF C", investmentType := "etf",
    investmentAmount := JSNum.nan, investmentQuantity := JSNum.nan,
    investmentDate := "2024-03-01", investmentNotes := "",
    currentValue := JSNum.fin 1260, performancePercent := JSNum.fin 26,
    existingQuantity := JSNum.nan }

/-- The form of a new investment of 750. -/
def formDirect : InvestmentForm :=
  { mode := "new", investmentName := "Fondo D", investmentType := "fondo",
    investmentAmount := JSNum.fin 750, investmentQuantity := JSNum.nan,
    investmentDate := "2024-03-01", investmentNotes := "",
    currentValue := JSNum.nan, performancePercent := JSNum.nan,
    existingQuantity := JSNum.nan }

/-- The holding created from `formDerived` at times 3 and 4 on 2024-03-02. -/
def holdingDerived : Investment :=
  { id := 3, name := "ETF C", type := "etf", amount := JSNum.fin 1000, quantity := none,
    date := "2024-03-01", notes := "", currentValue := JSNum.fin 1260,
    updates := [{ date := "2024-03-02", value := JSNum.fin 1260, timestamp := 4,
                  note := some (UpdateNote.initialValue (JSNum.fin 26)) }],
    isExistingInvestment := true, initialPerformance := some (JSNum.fin 26) }

/-- The form of an existing investment worth 1260 with a performance of -100%. -/
def formDegenerate : InvestmentForm :=
  { mode := "existing", investmentName := "ETF C", investmentType := "etf",
    investmentAmount := JSNum.nan, investmentQuantity := JSNum.nan,
    investmentDate := "2024-03-01", investmentNotes := "",
    currentValue := JSNum.fin 1260, performancePercent := JSNum.fin (-100),
    existingQuantity := JSNum.nan }

/-- The holding created from `formDegenerate`: its amount is `Infinity`. -/
def holdingDegenerate : Investment :=
  { id := 3, name := "ETF C", type := "etf", amount := JSNum.pinf, quantity := none,
    date := "2024-03-01", notes := "", currentValue := JSNum.fin 1260,
    updates := [{ date := "2024-03-02", value := JSNum.fin 1260, timestamp := 4,
                  note := some (UpdateNote.initialValue (JSNum.fin (-100))) }],
    isExistingInvestment := true, initialPerformance := some (JSNum.fin (-100)) }

/-- The form of an existing investment worth 100 with a performance of -200%. -/
def formNegative : InvestmentForm :=
  { mode := "existing", investmentName := "ETF C", investmentType := "etf",
    investmentAmount := JSNum.nan, investmentQuantity := JSNum.nan,
    investmentDate := "2024-03-01", investmentNotes := "",
    currentValue := JSNum.fin 100, performancePercent := JSNum.fin (-200),
    existingQuantity := JSNum.nan }

/-- The holding created from `formNegative`: its amount is `-100`. -/
def holdingNegative : Investment :=
  { id := 3, name := "ETF C", type := "etf", amount := JSNum.fin (-100), quantity := none,
    date := "2024-03-01", notes := "", currentValue := JSNum.fin 100,
    updates := [{ date := "2024-03-02", value := JSNum.fin 100, timestamp := 4,
                  note := some (UpdateNote.initialValue (JSNum.fin (-200))) }],
    isExistingInvestment := true, initialPerformance := some (JSNum.fin (-200)) }

/-- A manager holding only `holdingDerived`. -/
def managerC : Manager :=
  { investments := [holdingDerived], divestments := [], dividends := [],
    pendingDivestment := none }

/-- The form of a total divestment of `holdingDerived`. -/
def formTotalC : DivestmentForm :=
  { selectInvestment := some 3, divestmentType := "total", divestmentDate := "2024-06-01",
    divestmentAmount := JSNum.nan }

/-- The quote for all of `holdingDerived`: gain 260, tax 67.60, net cash 1192.40. -/
def pendingTotalC : PendingDivestment :=
  { investmentId := 3, investment := holdingDerived, type := "total", date := "2024-06-01",
    divestedAmount := JSNum.fin 1260, divestedCost := JSNum.fin 1000,
    grossGain := JSNum.fin 260, taxes := JSNum.fin (6760 / 100),
    netGain := JSNum.fin (19240 / 100), totalCash := JSNum.fin (119240 / 100) }

/-- A form in the mode `new` violating five rules at once. -/
def formBad : InvestmentForm :=
  { mode := "new", investmentName := "", investmentType := "", investmentAmount := JSNum.nan,
    investmentQuantity := JSNum.fin (-1), investmentDate := "", investmentNotes := "",
    currentValue := JSNum.nan, performancePercent := JSNum.nan, existingQuantity := JSNum.nan }

/-- A valid form in the mode `new` whose category is outside the enumerated set. -/
def formCrypto : InvestmentForm :=
  { mode := "new", investmentName := "Moneta E", investmentType := "crypto",
    investmentAmount := JSNum.fin 300, investmentQuantity := JSNum.nan,
    investmentDate := "2024-03-01", investmentNotes := "",
    currentValue := JSNum.nan, performancePercent := JSNum.nan,
    existingQuantity := JSNum.nan }

/-- The holding created from `formCrypto` at time 3. -/
def holdingCrypto : Investment :=
  { id := 3, name := "Moneta E", type := "crypto", amount := JSNum.fin 300, quantity := none,
    date := "2024-03-01", notes := "", currentValue := JSNum.fin 300, updates := [],
    isExistingInvestment := false, initialPerformance := none }

/-- The form of a partial divestment of 400, the whole current value of `holdingB`. -/
def formPartialAllB : DivestmentForm :=
  { selectInvestment := some 2, divestmentType := "partial", divestmentDate := "2024-06-01",
    divestmentAmount := JSNum.fin 400 }

/-- The form of a partial divestment of 100 out of `holdingB`. -/
def formPartialB : DivestmentForm :=
  { selectInvestment := some 2, divestmentType := "partial", divestmentDate := "2024-06-01",
    divestmentAmount := JSNum.fin 100 }

/-- The holding `holdingB` after the partial divestment of its whole value, confirmed at
time 9: amount, current value and quantity are all zero. -/
def holdingBEmptied : Investment :=
  { id := 2, name := "Azione B", type := "azione", amount := JSNum.fin 0,
    quantity := some (JSNum.fin 0), date := "2024-02-15", notes := "",
    currentValue := JSNum.fin 0,
    updates := [{ date := "2024-06-01", value := JSNum.fin 0, timestamp := 9,
                  note := some (UpdateNote.partialDivestment (JSNum.fin 400)) }],
    isExistingInvestment := false, initialPerformance := none }

/-- A dividend-paying holding. -/
def holdingE : Investment :=
  { id := 5, name := "Azione E", type := "azione-dividendi", amount := JSNum.fin 2000,
    quantity := none, date := "2024-01-20", notes := "", currentValue := JSNum.fin 2100,
    updates := [], isExistingInvestment := false, initialPerformance := none }

/-- A manager holding `holdingA` (a fund) and `holdingE` (dividend-paying). -/
def managerAE : Manager :=
  { investments := [holdingA, holdingE], divestments := [], dividends := [],
    pendingDivestment := none }

/-- The form of a dividend of 100 gross with 26 withheld, on `holdingE`. -/
def formDividend : DividendForm :=
  { selectDividendInvestment := some 5, dividendDate := "2024-07-01",
    dividendAmount := JSNum.fin 100, dividendTaxes := JSNum.fin 26, dividendNotes := "" }

/-- The form of a dividend of 100 gross with 150 withheld, on `holdingE`. -/
def formDividendOvertaxed : DividendForm :=
  { selectDividendInvestment := some 5, dividendDate := "2024-07-01",
    dividendAmount := JSNum.fin 100, dividendTaxes := JSNum.fin 150, dividendNotes := "" }

/-- The form of a dividend of 100 gross with 26 withheld, on the fund `holdingA`. -/
def formDividendOnFund : DividendForm :=
  { selectDividendInvestment := some 1, dividendDate := "2024-07-01",
    dividendAmount := JSNum.fin 100, dividendTaxes := JSNum.fin 26, dividendNotes := "" }

/-- The record of the dividend of `formDividend` registered at times 7 and 8. -/
def dividendE : Dividend :=
  { id := 7, investmentId := 5, investmentName := "Azione E", date := "2024-07-01",
    grossAmount := JSNum.fin 100, taxesWithheld := JSNum.fin 26, netAmount := JSNum.fin 74,
    notes := "", timestamp := 8 }

/-- The record of the dividend of `formDividendOnFund` registered at times 7 and 8. -/
def dividendOnFund : Dividend :=
  { id := 7, investmentId := 1, investmentName := "Fondo A", date := "2024-07-01",
    grossAmount := JSNum.fin 100, taxesWithheld := JSNum.fin 26, netAmount := JSNum.fin 74,
    notes := "", timestamp := 8 }

/-- The record of the partial divestment of 600 out of `holdingA`, confirmed at times 7, 8. -/
def recordPartialA : Divestment := mkDivestmentRecord pendingPartialA 7 8

/-- The record of a total divestment of `holdingDerived`, confirmed at times 17, 18. -/
def recordTotalC : Divestment := mkDivestmentRecord pendingTotalC 17 18

/-- A manager after the two divestments above and the dividend `dividendE`. -/
def managerHistory : Manager :=
  { investments := [holdingAReduced, holdingB, holdingE],
    divestments := [recordPartialA, recordTotalC], dividends := [dividendE],
    pendingDivestment := none }

/-- A manager with nothing in it. -/
def managerEmpty : Manager :=
  { investments := [], divestments := [], dividends := [], pendingDivestment := none }

/-- The manager `managerAE` after the dividend `dividendE` (100 gross) on `holdingE`. -/
def managerAEDividend : Manager :=
  { investments := [holdingA, holdingE], divestments := [], dividends := [dividendE],
    pendingDivestment := none }

/-- The forms of partial divestments of 200, 400 and 600 out of `holdingA`. -/
def formPartialA200 : DivestmentForm :=
  { selectInvestment := some 1, divestmentType := "partial", divestmentDate := "2024-06-01",
    divestmentAmount := JSNum.fin 200 }

def formPartialA400 : DivestmentForm :=
  { selectInvestment := some 1, divestmentType := "partial", divestmentDate := "2024-06-03",
    divestmentAmount := JSNum.fin 400 }

/-- A store: user 1 owns the documents 1 and 2, user 2 the document 3; document 1 has two
dividends and one divestment. -/
def storeExample : Store :=
  { investments :=
      [{ id := 1, userId := 1, name := "Azione E", type := "azione-dividendi",
         amount := JSNum.fin 1000, currentValue := JSNum.fin 1500, date := "2024-01-20" },
       { id := 2, userId := 1, name := "Fondo A", type := "fondo",
         amount := JSNum.fin 500, currentValue := JSNum.fin 400, date := "2024-02-15" },
       { id := 3, userId := 2, name := "ETF C", type := "etf",
         amount := JSNum.fin 300, currentValue := JSNum.fin 300, date := "2024-03-01" }],
    dividends :=
      [{ id := 11, userId := 1, investmentId := 1, investmentName := "Azione E",
         year := some 2023, grossAmount := JSNum.fin 100, taxesWithheld := JSNum.fin 26,
         netAmount := JSNum.fin 74 },
       { id := 12, userId := 1, investmentId := 1, investmentName := "Azione E",
         year := some 2024, grossAmount := JSNum.fin 50, taxesWithheld := JSNum.fin 13,
         netAmount := JSNum.fin 37 },
       { id := 13, userId := 1, investmentId := 2, investmentName := "Fondo A",
         year := some 2024, grossAmount := JSNum.fin 10, taxesWithheld := JSNum.fin 0,
         netAmount := JSNum.fin 10 }],
    divestments :=
      [{ id := 21, userId := 1, investmentId := 1, investmentName := "Azione E",
         year := some 2024, amount := JSNum.fin 200, reason := "liquidity" },
       { id := 22, userId := 2, investmentId := 3, investmentName := "ETF C",
         year := some 2024, amount := JSNum.fin 100, reason := "rebalance" }] }

/-- The store `storeExample` after user 1 deleted the document 1. -/
def storeAfterDelete : Store :=
  { investments :=
      [{ id := 2, userId := 1, name := "Fondo A", type := "fondo",
         amount := JSNum.fin 500, currentValue := JSNum.fin 400, date := "2024-02-15" },
       { id := 3, userId := 2, name := "ETF C", type := "etf",
         amount := JSNum.fin 300, currentValue := JSNum.fin 300, date := "2024-03-01" }],
    dividends :=
      [{ id := 13, userId := 1, investmentId := 2, investmentName := "Fondo A",
         year := some 2024, grossAmount := JSNum.fin 10, taxesWithheld := JSNum.fin 0,
         netAmount := JSNum.fin 10 }],
    divestments :=
      [{ id := 22, userId := 2, investmentId := 3, investmentName := "ETF C",
         year := some 2024, amount := JSNum.fin 100, reason := "rebalance" }] }

/-- A store whose only divestment has the reason `constructor` and whose only dividend
belongs to a holding named `toString`. -/
def storeInherited : Store :=
  { investments :=
      [{ id := 1, userId := 1, name := "toString", type := "azione-dividendi",
         amount := JSNum.fin 1000, currentValue := JSNum.fin 1500, date := "2024-01-20" }],
    dividends :=
      [{ id := 11, userId := 1, investmentId := 1, investmentName := "toString",
         year := some 2024, grossAmount := JSNum.fin 100, taxesWithheld := JSNum.fin 26,
         netAmount := JSNum.fin 74 }],
    divestments :=
      [{ id := 21, userId := 1, investmentId := 1, investmentName := "toString",
         year := some 2024, amount := JSNum.fin 200, reason := "constructor" }] }

/-! ## Arithmetic of finite numbers -/

namespace JSNum

@[simp] theorem neg_fin (a : ℚ) : neg (fin a) = fin (-a) := rfl

@[simp] theorem add_fin (a b : ℚ) : add (fin a) (fin b) = fin (a + b) := rfl

@[simp] theorem sub_fin (a b : ℚ) : sub (fin a) (fin b) = fin (a - b) := by
  simp [sub, sub_eq_add_neg]

@[simp] theorem mul_fin (a b : ℚ) : mul (fin a) (fin b) = fin (a * b) := rfl

theorem div_fin (a b : ℚ) (hb : b ≠ 0) : div (fin a) (fin b) = fin (a / b) := by
  simp [div, hb]

@[simp] theorem lt_fin (a b : ℚ) : lt (fin a) (fin b) = decide (a < b) := rfl

@[simp] theorem le_fin (a b : ℚ) : le (fin a) (fin b) = decide (a ≤ b) := rfl

@[simp] theorem gt_fin (a b : ℚ) : gt (fin a) (fin b) = decide (b < a) := rfl

@[simp] theorem truthy_fin (a : ℚ) : truthy (fin a) = decide (a ≠ 0) := rfl

theorem mul_swap (a b : JSNum) : mul a b = mul b a := by
  cases a <;> cases b <;> simp [mul, Rat.mul_comm]

/-- A partial amount that passes the two guards of `calculateDivestment` against a finite
current value is a finite number in `(0, currentValue]`. -/
theorem accepted_amount_fin (d : JSNum) (c : ℚ)
    (h1 : (!d.truthy || le d (fin 0)) = false) (h2 : gt d (fin c) = false) :
    ∃ q : ℚ, d = fin q ∧ 0 < q ∧ q ≤ c := by
  cases d with
  | nan => simp [truthy] at h1
  | ninf => simp [truthy, le] at h1
  | pinf => simp [gt, lt] at h2
  | fin q =>
    simp at h1 h2
    exact ⟨q, rfl, h1.2, h2⟩

end JSNum

/-! ## The quote -/

/-- What `calculateDivestment` has done when it displays a quote: the holding was found by
its id and the pending quote is `mkPending` of the total or of the accepted partial amount. -/
theorem calculateDivestment_quoteDisplayed (m : Manager) (f : DivestmentForm)
    (hq : (calculateDivestment m f).2 = Notice.quoteDisplayed) :
    ∃ id investment dA dC,
      f.selectInvestment = some id ∧
      m.investments.find? (fun inv => inv.id == id) = some investment ∧
      (calculateDivestment m f).1 =
        { m with pendingDivestment := some (mkPending id investment f.divestmentType
                                                  f.divestmentDate dA dC) } ∧
      ((f.divestmentType = "total" ∧ dA = investment.currentValue ∧ dC = investment.amount) ∨
       (f.divestmentType ≠ "total" ∧ dA = f.divestmentAmount ∧
        dC = JSNum.mul investment.amount (JSNum.div f.divestmentAmount investment.currentValue) ∧
        (!f.divestmentAmount.truthy || JSNum.le f.divestmentAmount (JSNum.fin 0)) = false ∧
        JSNum.gt f.divestmentAmount investment.currentValue = false)) := by
  unfold calculateDivestment at hq ⊢
  cases hsel : f.selectInvestment with
  | none => simp [hsel] at hq
  | some id =>
    simp only [hsel] at hq ⊢
    by_cases hempty : f.divestmentType = "" ∨ f.divestmentDate = ""
    · simp [hempty] at hq
    · simp only [hempty, if_false] at hq ⊢
      cases hfind : m.investments.find? (fun inv => inv.id == id) with
      | none => simp [hfind] at hq
      | some investment =>
        simp only [hfind] at hq ⊢
        by_cases htot : f.divestmentType = "total"
        · simp only [htot, if_true]
          exact ⟨id, investment, investment.currentValue, investment.amount, rfl, hfind, rfl,
            Or.inl ⟨trivial, rfl, rfl⟩⟩
        · simp only [htot, if_false] at hq ⊢
          by_cases h1 : (!f.divestmentAmount.truthy || JSNum.le f.divestmentAmount (JSNum.fin 0)) = true
          · simp [h1] at hq
          · by_cases h2 : JSNum.gt f.divestmentAmount investment.currentValue = true
            · simp [h1, h2] at hq
            · simp only [h1, h2, if_false]
              refine ⟨id, investment, f.divestmentAmount, _, rfl, hfind, rfl,
                Or.inr ⟨htot, rfl, rfl, ?_, ?_⟩⟩
              all_goals first
                | trivial
                | exact Bool.eq_false_iff.mpr h1
                | exact Bool.eq_false_iff.mpr h2

/-- The two example quotes, evaluated. -/
theorem calculateDivestment_partialA :
    calculateDivestment managerAB formPartialA =
      ({ managerAB with pendingDivestment := some pendingPartialA }, Notice.quoteDisplayed) := by
  simp [calculateDivestment, managerAB, formPartialA, pendingPartialA, mkPending, holdingA,
    holdingB, taxRate, JSNum.div_fin]
  norm_num

theorem calculateDivestment_totalA :
    calculateDivestment managerAB formTotalA =
      ({ managerAB with pendingDivestment := some pendingTotalA }, Notice.quoteDisplayed) := by
  simp [calculateDivestment, managerAB, formTotalA, pendingTotalA, mkPending, holdingA,
    holdingB, taxRate]
  norm_num

/-- The tax line of `mkPending`, by cases on the sign test. -/
theorem mkPending_taxes (id : Nat) (inv : Investment) (ty dt : String) (dA dC : JSNum) :
    (mkPending id inv ty dt dA dC).grossGain = JSNum.sub dA dC ∧
    (JSNum.gt (JSNum.sub dA dC) (JSNum.fin 0) = true →
      (mkPending id inv ty dt dA dC).taxes = JSNum.mul (JSNum.sub dA dC) taxRate) ∧
    (JSNum.gt (JSNum.sub dA dC) (JSNum.fin 0) = false →
      (mkPending id inv ty dt dA dC).taxes = JSNum.fin 0) := by
  refine ⟨rfl, ?_, ?_⟩ <;> intro h <;> simp [mkPending, h]

/-- A value that is `<= 0` is not `> 0`. -/
theorem JSNum.gt_zero_of_le_zero (g : JSNum) (h : JSNum.le g (JSNum.fin 0) = true) :
    JSNum.gt g (JSNum.fin 0) = false := by
  cases g with
  | nan => rfl
  | ninf => rfl
  | pinf => simp [JSNum.le] at h
  | fin q =>
    simp at h ⊢
    exact h

/-- C1: in every quote displayed by `calculateDivestment` (total or partial) the gross gain
is `divestedAmount - divestedCost`, the tax is `0.26 * grossGain` when `grossGain > 0` and
`0` when `grossGain <= 0` (and also whenever the test `grossGain > 0` fails), so a loss
never carries a tax. -/
theorem calculateDivestment_tax_rule (m : Manager) (f : DivestmentForm) (p : PendingDivestment)
    (hq : (calculateDivestment m f).2 = Notice.quoteDisplayed)
    (hp : (calculateDivestment m f).1.pendingDivestment = some p) :
    p.grossGain = JSNum.sub p.divestedAmount p.divestedCost ∧
    (JSNum.gt p.grossGain (JSNum.fin 0) = true →
      p.taxes = JSNum.mul (JSNum.fin (26 / 100)) p.grossGain) ∧
    (JSNum.le p.grossGain (JSNum.fin 0) = true → p.taxes = JSNum.fin 0) ∧
    (JSNum.gt p.grossGain (JSNum.fin 0) = false → p.taxes = JSNum.fin 0) := by
  obtain ⟨id, inv, dA, dC, -, -, hst, -⟩ := calculateDivestment_quoteDisplayed m f hq
  rw [hst] at hp
  have hp2 : mkPending id inv f.divestmentType f.divestmentDate dA dC = p := by
    simpa using hp
  subst hp2
  obtain ⟨hg, hpos, hneg⟩ := mkPending_taxes id inv f.divestmentType f.divestmentDate dA dC
  refine ⟨rfl, ?_, ?_, ?_⟩
  · intro h
    rw [JSNum.mul_swap]
    exact hpos h
  · intro h
    exact hneg (JSNum.gt_zero_of_le_zero _ h)
  · intro h
    exact hneg h

/-- C1 at the partial divestment of 600 out of the holding (1000, 1500): tax 52 on a gain
of 200. -/
theorem calculateDivestment_tax_rule_witness :
    (calculateDivestment managerAB formPartialA).2 = Notice.quoteDisplayed ∧
    (calculateDivestment managerAB formPartialA).1.pendingDivestment = some pendingPartialA ∧
    (pendingPartialA.grossGain = JSNum.sub pendingPartialA.divestedAmount
        pendingPartialA.divestedCost ∧
      (JSNum.gt pendingPartialA.grossGain (JSNum.fin 0) = true →
        pendingPartialA.taxes = JSNum.mul (JSNum.fin (26 / 100)) pendingPartialA.grossGain) ∧
      (JSNum.le pendingPartialA.grossGain (JSNum.fin 0) = true →
        pendingPartialA.taxes = JSNum.fin 0) ∧
      (JSNum.gt pendingPartialA.grossGain (JSNum.fin 0) = false →
        pendingPartialA.taxes = JSNum.fin 0)) :=
  ⟨by rw [calculateDivestment_partialA], by rw [calculateDivestment_partialA],
    calculateDivestment_tax_rule managerAB formPartialA pendingPartialA
      (by rw [calculateDivestment_partialA]) (by rw [calculateDivestment_partialA])⟩

/-- A quote on a holding whose amount and current value are finite has finite figures. -/
theorem calculateDivestment_finite (m : Manager) (f : DivestmentForm) (p : PendingDivestment)
    (a c : ℚ)
    (hq : (calculateDivestment m f).2 = Notice.quoteDisplayed)
    (hp : (calculateDivestment m f).1.pendingDivestment = some p)
    (ha : p.investment.amount = JSNum.fin a) (hc : p.investment.currentValue = JSNum.fin c) :
    ∃ dA dC : ℚ, p = mkPending p.investmentId p.investment p.type p.date (JSNum.fin dA)
      (JSNum.fin dC) := by
  obtain ⟨id, inv, dA, dC, -, -, hst, hkind⟩ := calculateDivestment_quoteDisplayed m f hq
  rw [hst] at hp
  have hp2 : mkPending id inv f.divestmentType f.divestmentDate dA dC = p := by
    simpa using hp
  subst hp2
  have ha2 : inv.amount = JSNum.fin a := ha
  have hc2 : inv.currentValue = JSNum.fin c := hc
  rcases hkind with ⟨-, hA, hC⟩ | ⟨-, hA, hC, h1, h2⟩
  · exact ⟨c, a, by rw [hA, hC, ha2, hc2]; rfl⟩
  · rw [hc2] at h2 hC
    obtain ⟨q, hq1, hq0, hqc⟩ := JSNum.accepted_amount_fin _ c h1 h2
    have hcne : c ≠ 0 := by linarith
    rw [hq1, ha2, JSNum.div_fin q c hcne, JSNum.mul_fin] at hC
    exact ⟨q, a * (q / c), by rw [hA, hC, hq1]; rfl⟩

/-- C2: in every quote displayed by `calculateDivestment` on a holding whose amount and
current value are finite numbers, `totalCash + taxes = divestedAmount` and
`netGain = grossGain - taxes`. -/
theorem calculateDivestment_cash_identity (m : Manager) (f : DivestmentForm)
    (p : PendingDivestment) (a c : ℚ)
    (hq : (calculateDivestment m f).2 = Notice.quoteDisplayed)
    (hp : (calculateDivestment m f).1.pendingDivestment = some p)
    (ha : p.investment.amount = JSNum.fin a) (hc : p.investment.currentValue = JSNum.fin c) :
    JSNum.add p.totalCash p.taxes = p.divestedAmount ∧
    p.netGain = JSNum.sub p.grossGain p.taxes := by
  obtain ⟨dA, dC, hp2⟩ := calculateDivestment_finite m f p a c hq hp ha hc
  rw [hp2]
  by_cases hg : dC < dA
  · simp [mkPending, taxRate, hg]
  · simp [mkPending, taxRate, hg]

/-- C2 at the partial divestment of 600 out of the holding (1000, 1500): 548 + 52 = 600. -/
theorem calculateDivestment_cash_identity_witness :
    (calculateDivestment managerAB formPartialA).2 = Notice.quoteDisplayed ∧
    (calculateDivestment managerAB formPartialA).1.pendingDivestment = some pendingPartialA ∧
    pendingPartialA.investment.amount = JSNum.fin 1000 ∧
    pendingPartialA.investment.currentValue = JSNum.fin 1500 ∧
    (JSNum.add pendingPartialA.totalCash pendingPartialA.taxes = pendingPartialA.divestedAmount ∧
      pendingPartialA.netGain = JSNum.sub pendingPartialA.grossGain pendingPartialA.taxes) :=
  ⟨by rw [calculateDivestment_partialA], by rw [calculateDivestment_partialA], rfl, rfl,
    calculateDivestment_cash_identity managerAB formPartialA pendingPartialA 1000 1500
      (by rw [calculateDivestment_partialA]) (by rw [calculateDivestment_partialA]) rfl rfl⟩

/-! ## Total divestment -/

/-- In a ledger with unique ids, looking a holding up by its id returns that holding. -/
theorem find_of_mem_of_nodup (l : List Investment) (h : Investment) (hmem : h ∈ l)
    (huniq : (l.map (fun inv => inv.id)).Nodup) :
    l.find? (fun inv => inv.id == h.id) = some h := by
  induction l with
  | nil => simp at hmem
  | cons x xs ih =>
    simp only [List.map_cons, List.nodup_cons] at huniq
    by_cases hx : x.id = h.id
    · rcases List.mem_cons.mp hmem with heq | hin
      · subst heq
        simp [List.find?]
      · exact absurd (List.mem_map.mpr ⟨h, hin, hx.symm⟩) huniq.1
    · rcases List.mem_cons.mp hmem with heq | hin
      · exact absurd (by rw [heq]) hx
      · have hb : (x.id == h.id) = false := by simpa using hx
        simp only [List.find?, hb]
        exact ih hin huniq.2

/-- The quote of a total divestment. -/
theorem calculateDivestment_total (m : Manager) (f : DivestmentForm) (h : Investment)
    (hsel : f.selectInvestment = some h.id) (hty : f.divestmentType = "total")
    (hdate : f.divestmentDate ≠ "")
    (hfind : m.investments.find? (fun inv => inv.id == h.id) = some h) :
    calculateDivestment m f =
      ({ m with pendingDivestment := some (mkPending h.id h f.divestmentType f.divestmentDate
                                            h.currentValue h.amount) },
        Notice.quoteDisplayed) := by
  simp [calculateDivestment, hsel, hty, hdate, hfind]

/-- Confirming a pending total quote: the record is appended, the holdings whose id is the
quoted one are filtered out, and the pending quote is cleared. -/
theorem confirmDivestment_total (m : Manager) (p : PendingDivestment) (tId tStamp tUpdate : Nat)
    (hp : m.pendingDivestment = some p) (hty : p.type = "total") :
    confirmDivestment m tId tStamp tUpdate =
      ({ investments := m.investments.filter (fun inv => inv.id != p.investmentId)
         divestments := m.divestments ++ [mkDivestmentRecord p tId tStamp]
         dividends := m.dividends
         pendingDivestment := none }, Notice.divestmentRecorded) := by
  simp [confirmDivestment, hp, hty]

/-- C3: for a holding `h` of the ledger selected by its id (every holding of a ledger with
unique ids, see `find_of_mem_of_nodup`), the total quote has `divestedAmount = h.currentValue`
and `divestedCost = h.amount`; after `confirmDivestment` of that quote the ledger is the old
one without the holdings of id `h.id`: none with that id remains, and every holding with
another id is still there, unchanged and in the same order. -/
theorem total_divestment_removes_holding (m : Manager) (f : DivestmentForm) (h : Investment)
    (tId tStamp tUpdate : Nat)
    (hsel : f.selectInvestment = some h.id) (hty : f.divestmentType = "total")
    (hdate : f.divestmentDate ≠ "")
    (hfind : m.investments.find? (fun inv => inv.id == h.id) = some h) :
    ∃ p : PendingDivestment,
      calculateDivestment m f = ({ m with pendingDivestment := some p }, Notice.quoteDisplayed) ∧
      p.divestedAmount = h.currentValue ∧ p.divestedCost = h.amount ∧
      (confirmDivestment (calculateDivestment m f).1 tId tStamp tUpdate).2 =
        Notice.divestmentRecorded ∧
      (confirmDivestment (calculateDivestment m f).1 tId tStamp tUpdate).1.investments =
        m.investments.filter (fun inv => inv.id != h.id) ∧
      (∀ x ∈ (confirmDivestment (calculateDivestment m f).1 tId tStamp tUpdate).1.investments,
        x.id ≠ h.id) ∧
      (∀ x ∈ m.investments, x.id ≠ h.id →
        x ∈ (confirmDivestment (calculateDivestment m f).1 tId tStamp tUpdate).1.investments) := by
  have hcalc := calculateDivestment_total m f h hsel hty hdate hfind
  have hconf := confirmDivestment_total
    { m with pendingDivestment := some (mkPending h.id h f.divestmentType f.divestmentDate
                                          h.currentValue h.amount) }
    (mkPending h.id h f.divestmentType f.divestmentDate h.currentValue h.amount)
    tId tStamp tUpdate rfl hty
  refine ⟨_, hcalc, rfl, rfl, ?_, ?_, ?_, ?_⟩
  · rw [hcalc, hconf]
  · rw [hcalc, hconf]
    rfl
  · rw [hcalc, hconf]
    intro x hx
    have hx2 : x ∈ m.investments.filter (fun inv => inv.id != h.id) := hx
    simpa using (List.mem_filter.mp hx2).2
  · rw [hcalc, hconf]
    intro x hx hne
    show x ∈ m.investments.filter (fun inv => inv.id != h.id)
    exact List.mem_filter.mpr ⟨hx, by simpa using hne⟩

/-- C3 at the total divestment of `holdingA` out of the ledger `[holdingA, holdingB]`. -/
theorem total_divestment_removes_holding_witness :
    formTotalA.selectInvestment = some holdingA.id ∧ formTotalA.divestmentType = "total" ∧
    formTotalA.divestmentDate ≠ "" ∧
    managerAB.investments.find? (fun inv => inv.id == holdingA.id) = some holdingA ∧
    (confirmDivestment (calculateDivestment managerAB formTotalA).1 7 8 9).1.investments =
      [holdingB] ∧
    ∃ p : PendingDivestment,
      calculateDivestment managerAB formTotalA =
        ({ managerAB with pendingDivestment := some p }, Notice.quoteDisplayed) ∧
      p.divestedAmount = holdingA.currentValue ∧ p.divestedCost = holdingA.amount ∧
      (confirmDivestment (calculateDivestment managerAB formTotalA).1 7 8 9).2 =
        Notice.divestmentRecorded ∧
      (confirmDivestment (calculateDivestment managerAB formTotalA).1 7 8 9).1.investments =
        managerAB.investments.filter (fun inv => inv.id != holdingA.id) ∧
      (∀ x ∈ (confirmDivestment (calculateDivestment managerAB formTotalA).1 7 8 9).1.investments,
        x.id ≠ holdingA.id) ∧
      (∀ x ∈ managerAB.investments, x.id ≠ holdingA.id →
        x ∈ (confirmDivestment (calculateDivestment managerAB formTotalA).1 7 8 9).1.investments) :=
  ⟨rfl, rfl, by decide, by simp [managerAB, holdingA],
    by rw [calculateDivestment_totalA]
       simp [confirmDivestment, pendingTotalA, managerAB, holdingA, holdingB],
    total_divestment_removes_holding managerAB formTotalA holdingA 7 8 9 rfl rfl (by decide)
      (by simp [managerAB, holdingA])⟩

/-! ## Partial divestment: the quote -/

/-- Against a current value that is a number, the two guards of the partial branch let through
exactly the amounts with `0 < d` and `d <= currentValue`. -/
theorem JSNum.guards_iff (d cv : JSNum) (hcv : cv.isNaN = false) :
    ((!d.truthy || JSNum.le d (JSNum.fin 0)) = false ∧ JSNum.gt d cv = false) ↔
      (JSNum.lt (JSNum.fin 0) d = true ∧ JSNum.le d cv = true) := by
  cases d with
  | nan => simp [JSNum.truthy, JSNum.lt]
  | ninf => simp [JSNum.truthy, JSNum.le, JSNum.lt]
  | pinf =>
    cases cv with
    | nan => simp [JSNum.isNaN] at hcv
    | ninf => simp [JSNum.truthy, JSNum.le, JSNum.lt, JSNum.gt]
    | pinf => simp [JSNum.truthy, JSNum.le, JSNum.lt, JSNum.gt]
    | fin c => simp [JSNum.truthy, JSNum.le, JSNum.lt, JSNum.gt]
  | fin q =>
    cases cv with
    | nan => simp [JSNum.isNaN] at hcv
    | ninf => simp [JSNum.le, JSNum.lt, JSNum.gt]
    | pinf =>
      simp [JSNum.le, JSNum.lt, JSNum.gt]
      intro hq
      exact ne_of_gt hq
    | fin c =>
      simp
      intro _ hq
      exact ne_of_gt hq

/-- The partial branch of `calculateDivestment`, by cases on its two guards. -/
theorem calculateDivestment_partial (m : Manager) (f : DivestmentForm) (h : Investment) (id : Nat)
    (hsel : f.selectInvestment = some id) (hty : f.divestmentType ≠ "")
    (hnt : f.divestmentType ≠ "total") (hdate : f.divestmentDate ≠ "")
    (hfind : m.investments.find? (fun inv => inv.id == id) = some h) :
    calculateDivestment m f =
      if (!f.divestmentAmount.truthy || JSNum.le f.divestmentAmount (JSNum.fin 0)) = true then
        (m, Notice.invalidPartialAmount)
      else if JSNum.gt f.divestmentAmount h.currentValue = true then
        (m, Notice.amountAboveCurrentValue)
      else
        ({ m with pendingDivestment := some (mkPending id h f.divestmentType f.divestmentDate
            f.divestmentAmount
            (JSNum.mul h.amount (JSNum.div f.divestmentAmount h.currentValue))) },
          Notice.quoteDisplayed) := by
  simp [calculateDivestment, hsel, hty, hnt, hdate, hfind]

/-- C4: for a holding `h` found by its id whose current value is a number, and a request of
partial divestment of `d` (the parsed field, possibly `NaN`): a quote is displayed if and only
if `0 < d` and `d <= h.currentValue`; then the pending quote is the one with
`divestedAmount = d` and `divestedCost = h.amount * (d / h.currentValue)` and holdings,
divestments and dividends are untouched; otherwise, in particular when `d <= 0`, `d` is `NaN`
or `d > h.currentValue`, the manager is returned as it was: nothing is stored. -/
theorem partial_quote_iff (m : Manager) (f : DivestmentForm) (h : Investment) (id : Nat)
    (hsel : f.selectInvestment = some id) (hty : f.divestmentType ≠ "")
    (hnt : f.divestmentType ≠ "total") (hdate : f.divestmentDate ≠ "")
    (hfind : m.investments.find? (fun inv => inv.id == id) = some h)
    (hcv : h.currentValue.isNaN = false) :
    ((calculateDivestment m f).2 = Notice.quoteDisplayed ↔
      (JSNum.lt (JSNum.fin 0) f.divestmentAmount = true ∧
        JSNum.le f.divestmentAmount h.currentValue = true)) ∧
    ((JSNum.lt (JSNum.fin 0) f.divestmentAmount = true ∧
        JSNum.le f.divestmentAmount h.currentValue = true) →
      ∃ p : PendingDivestment,
        (calculateDivestment m f).1 = { m with pendingDivestment := some p } ∧
        p.divestedAmount = f.divestmentAmount ∧
        p.divestedCost =
          JSNum.mul h.amount (JSNum.div f.divestmentAmount h.currentValue)) ∧
    (¬ (JSNum.lt (JSNum.fin 0) f.divestmentAmount = true ∧
        JSNum.le f.divestmentAmount h.currentValue = true) →
      (calculateDivestment m f).1 = m) ∧
    ((JSNum.le f.divestmentAmount (JSNum.fin 0) = true ∨ f.divestmentAmount.isNaN = true ∨
        JSNum.gt f.divestmentAmount h.currentValue = true) →
      (calculateDivestment m f).1 = m ∧ (calculateDivestment m f).2 ≠ Notice.quoteDisplayed) := by
  have hcalc := calculateDivestment_partial m f h id hsel hty hnt hdate hfind
  have hiff := JSNum.guards_iff f.divestmentAmount h.currentValue hcv
  have key : ¬ (JSNum.lt (JSNum.fin 0) f.divestmentAmount = true ∧
        JSNum.le f.divestmentAmount h.currentValue = true) →
      (calculateDivestment m f).1 = m ∧ (calculateDivestment m f).2 ≠ Notice.quoteDisplayed := by
    intro hno
    rw [← hiff] at hno
    rw [hcalc]
    by_cases h1 : (!f.divestmentAmount.truthy || JSNum.le f.divestmentAmount (JSNum.fin 0)) = true
    · simp [h1]
    · by_cases h2 : JSNum.gt f.divestmentAmount h.currentValue = true
      · simp [h1, h2]
      · exact absurd ⟨Bool.eq_false_iff.mpr h1, Bool.eq_false_iff.mpr h2⟩ hno
  have yes : (JSNum.lt (JSNum.fin 0) f.divestmentAmount = true ∧
        JSNum.le f.divestmentAmount h.currentValue = true) →
      calculateDivestment m f =
        ({ m with pendingDivestment := some (mkPending id h f.divestmentType f.divestmentDate
            f.divestmentAmount
            (JSNum.mul h.amount (JSNum.div f.divestmentAmount h.currentValue))) },
          Notice.quoteDisplayed) := by
    intro hyes
    rw [← hiff] at hyes
    rw [hcalc]
    simp [hyes.1, hyes.2]
  refine ⟨⟨?_, ?_⟩, ?_, ?_, ?_⟩
  · intro hq
    by_contra hno
    exact (key hno).2 hq
  · intro hyes
    rw [yes hyes]
  · intro hyes
    exact ⟨_, by rw [yes hyes], rfl, rfl⟩
  · intro hno
    exact (key hno).1
  · intro hbad
    apply key
    intro hyes
    rw [← hiff] at hyes
    rcases hbad with hle | hnan | hgt
    · have h1 := hyes.1
      simp [hle] at h1
    · have h1 := hyes.1
      cases hd : f.divestmentAmount with
      | nan => simp [hd, JSNum.truthy] at h1
      | ninf => simp [hd, JSNum.isNaN] at hnan
      | pinf => simp [hd, JSNum.isNaN] at hnan
      | fin q => simp [hd, JSNum.isNaN] at hnan
    · have h2 := hyes.2
      simp [hgt] at h2

/-- C4 at the holding (1000, 1500) and the request of 600: accepted, with cost 400. -/
theorem partial_quote_iff_witness :
    formPartialA.selectInvestment = some 1 ∧ formPartialA.divestmentType ≠ "" ∧
    formPartialA.divestmentType ≠ "total" ∧ formPartialA.divestmentDate ≠ "" ∧
    managerAB.investments.find? (fun inv => inv.id == 1) = some holdingA ∧
    holdingA.currentValue.isNaN = false ∧
    (calculateDivestment managerAB formPartialA).1.pendingDivestment = some pendingPartialA ∧
    (((calculateDivestment managerAB formPartialA).2 = Notice.quoteDisplayed ↔
      (JSNum.lt (JSNum.fin 0) formPartialA.divestmentAmount = true ∧
        JSNum.le formPartialA.divestmentAmount holdingA.currentValue = true)) ∧
    ((JSNum.lt (JSNum.fin 0) formPartialA.divestmentAmount = true ∧
        JSNum.le formPartialA.divestmentAmount holdingA.currentValue = true) →
      ∃ p : PendingDivestment,
        (calculateDivestment managerAB formPartialA).1 =
          { managerAB with pendingDivestment := some p } ∧
        p.divestedAmount = formPartialA.divestmentAmount ∧
        p.divestedCost =
          JSNum.mul holdingA.amount
            (JSNum.div formPartialA.divestmentAmount holdingA.currentValue)) ∧
    (¬ (JSNum.lt (JSNum.fin 0) formPartialA.divestmentAmount = true ∧
        JSNum.le formPartialA.divestmentAmount holdingA.currentValue = true) →
      (calculateDivestment managerAB formPartialA).1 = managerAB) ∧
    ((JSNum.le formPartialA.divestmentAmount (JSNum.fin 0) = true ∨
        formPartialA.divestmentAmount.isNaN = true ∨
        JSNum.gt formPartialA.divestmentAmount holdingA.currentValue = true) →
      (calculateDivestment managerAB formPartialA).1 = managerAB ∧
        (calculateDivestment managerAB formPartialA).2 ≠ Notice.quoteDisplayed)) :=
  ⟨rfl, by decide, by decide, by decide, by simp [managerAB, holdingA], rfl,
    by rw [calculateDivestment_partialA],
    partial_quote_iff managerAB formPartialA holdingA 1 rfl (by decide) (by decide) (by decide)
      (by simp [managerAB, holdingA]) rfl⟩

/-! ## Partial divestment: the confirmation -/

/-- The element found is the first one modified. -/
theorem find_modifyFirst (q : Investment → Bool) (g : Investment → Investment)
    (l : List Investment) (h : Investment) (hfind : l.find? q = some h) (hq : q (g h) = true) :
    (modifyFirst q g l).find? q = some (g h) := by
  induction l with
  | nil => simp at hfind
  | cons x xs ih =>
    by_cases hx : q x = true
    · have hxh : x = h := by simpa [List.find?, hx] using hfind
      subst hxh
      simp [modifyFirst, hx, List.find?, hq]
    · have hx2 : q x = false := Bool.eq_false_iff.mpr hx
      have hrest : xs.find? q = some h := by simpa [List.find?, hx2] using hfind
      simp [modifyFirst, hx2, List.find?, ih hrest]

/-- Only elements selected by the test are touched. -/
theorem mem_modifyFirst_of_not (q : Investment → Bool) (g : Investment → Investment)
    (l : List Investment) (x : Investment) (hx : x ∈ l) (hq : q x = false) :
    x ∈ modifyFirst q g l := by
  induction l with
  | nil => simp at hx
  | cons y ys ih =>
    by_cases hy : q y = true
    · rcases List.mem_cons.mp hx with heq | hin
      · rw [heq, hy] at hq
        exact absurd hq (by decide)
      · simp [modifyFirst, hy, hin]
    · have hy2 : q y = false := Bool.eq_false_iff.mpr hy
      rcases List.mem_cons.mp hx with heq | hin
      · simp [modifyFirst, hy2, heq]
      · simp [modifyFirst, hy2, ih hin]

/-- Confirming a pending partial quote whose holding is in the ledger. -/
theorem confirmDivestment_partial (m : Manager) (p : PendingDivestment) (h : Investment)
    (tId tStamp tUpdate : Nat)
    (hp : m.pendingDivestment = some p) (hnt : p.type ≠ "total")
    (hfind : m.investments.find? (fun inv => inv.id == p.investmentId) = some h) :
    confirmDivestment m tId tStamp tUpdate =
      ({ investments := modifyFirst (fun inv => inv.id == p.investmentId)
           (applyPartialDivestment p tUpdate) m.investments
         divestments := m.divestments ++ [mkDivestmentRecord p tId tStamp]
         dividends := m.dividends
         pendingDivestment := none }, Notice.divestmentRecorded) := by
  simp [confirmDivestment, hp, hnt, hfind]

/-- Multiplying a falsy number (`NaN` or zero) by a finite factor gives it back. -/
theorem JSNum.mul_of_not_truthy (q : JSNum) (x : ℚ) (hq : q.truthy = false) :
    JSNum.mul q (JSNum.fin x) = q := by
  cases q with
  | nan => rfl
  | ninf => simp [JSNum.truthy] at hq
  | pinf => simp [JSNum.truthy] at hq
  | fin a =>
    have ha : a = 0 := by simpa using hq
    simp [ha]

/-- Modifying the first match only depends on the value of the function at that match. -/
theorem modifyFirst_congr (q : Investment → Bool) (g : Investment → Investment)
    (l : List Investment) (h : Investment) (hfind : l.find? q = some h) :
    modifyFirst q g l = modifyFirst q (fun _ => g h) l := by
  induction l with
  | nil => rfl
  | cons x xs ih =>
    by_cases hx : q x = true
    · have hxh : x = h := by simpa [List.find?, hx] using hfind
      subst hxh
      simp [modifyFirst, hx]
    · have hx2 : q x = false := Bool.eq_false_iff.mpr hx
      have hrest : xs.find? q = some h := by simpa [List.find?, hx2] using hfind
      simp [modifyFirst, hx2, ih hrest]

/-- An accepted partial request, unfolded: the guards passed and the quote is stored. -/
theorem calculateDivestment_partial_accepted (m : Manager) (f : DivestmentForm) (h : Investment)
    (id : Nat)
    (hsel : f.selectInvestment = some id) (hty : f.divestmentType ≠ "")
    (hnt : f.divestmentType ≠ "total") (hdate : f.divestmentDate ≠ "")
    (hfind : m.investments.find? (fun inv => inv.id == id) = some h)
    (hacc : (calculateDivestment m f).2 = Notice.quoteDisplayed) :
    (!f.divestmentAmount.truthy || JSNum.le f.divestmentAmount (JSNum.fin 0)) = false ∧
    JSNum.gt f.divestmentAmount h.currentValue = false ∧
    calculateDivestment m f =
      ({ m with pendingDivestment := some (mkPending id h f.divestmentType f.divestmentDate
            f.divestmentAmount
            (JSNum.mul h.amount (JSNum.div f.divestmentAmount h.currentValue))) },
        Notice.quoteDisplayed) := by
  have hcalc := calculateDivestment_partial m f h id hsel hty hnt hdate hfind
  rw [hcalc] at hacc ⊢
  by_cases h1 : (!f.divestmentAmount.truthy || JSNum.le f.divestmentAmount (JSNum.fin 0)) = true
  · simp [h1] at hacc
  · by_cases h2 : JSNum.gt f.divestmentAmount h.currentValue = true
    · simp [h1, h2] at hacc
    · exact ⟨Bool.eq_false_iff.mpr h1, Bool.eq_false_iff.mpr h2, by simp [h1, h2]⟩

/-- C5: for a holding `h` found by its id, with a finite current value, and an accepted
partial quote of `d` at cost `c = h.amount * (d / h.currentValue)`, confirmed right after the
quote: the holding is replaced in place by `h1` with `amount = h.amount - c`,
`currentValue = h.currentValue - d`, quantity (if present) multiplied by
`1 - d / h.currentValue`, and history equal to the old one followed by exactly one entry
whose value is the new current value; its other fields are those of `h`. -/
theorem partial_divestment_updates_holding (m : Manager) (f : DivestmentForm) (h : Investment)
    (id : Nat) (c : ℚ) (tId tStamp tUpdate : Nat)
    (hsel : f.selectInvestment = some id) (hty : f.divestmentType ≠ "")
    (hnt : f.divestmentType ≠ "total") (hdate : f.divestmentDate ≠ "")
    (hfind : m.investments.find? (fun inv => inv.id == id) = some h)
    (hcv : h.currentValue = JSNum.fin c)
    (hacc : (calculateDivestment m f).2 = Notice.quoteDisplayed) :
    ∃ (p : PendingDivestment) (h1 : Investment) (u : Update),
      (calculateDivestment m f).1.pendingDivestment = some p ∧
      p.divestedAmount = f.divestmentAmount ∧
      p.divestedCost = JSNum.mul h.amount (JSNum.div f.divestmentAmount h.currentValue) ∧
      (confirmDivestment (calculateDivestment m f).1 tId tStamp tUpdate).2 =
        Notice.divestmentRecorded ∧
      (confirmDivestment (calculateDivestment m f).1 tId tStamp tUpdate).1.investments =
        modifyFirst (fun inv => inv.id == id) (fun _ => h1) m.investments ∧
      (confirmDivestment (calculateDivestment m f).1 tId tStamp tUpdate).1.investments.find?
        (fun inv => inv.id == id) = some h1 ∧
      h1.amount = JSNum.sub h.amount p.divestedCost ∧
      h1.currentValue = JSNum.sub h.currentValue p.divestedAmount ∧
      h1.quantity = h.quantity.map (fun q => JSNum.mul q
        (JSNum.sub (JSNum.fin 1) (JSNum.div p.divestedAmount h.currentValue))) ∧
      h1.updates = h.updates ++ [u] ∧ u.value = h1.currentValue ∧ u.date = f.divestmentDate ∧
      h1.id = h.id ∧ h1.name = h.name ∧ h1.type = h.type ∧ h1.date = h.date ∧
      h1.notes = h.notes := by
  obtain ⟨hg1, hg2, hcalc⟩ :=
    calculateDivestment_partial_accepted m f h id hsel hty hnt hdate hfind hacc
  have hconf := confirmDivestment_partial
    { m with pendingDivestment := some (mkPending id h f.divestmentType f.divestmentDate
            f.divestmentAmount
            (JSNum.mul h.amount (JSNum.div f.divestmentAmount h.currentValue))) }
    (mkPending id h f.divestmentType f.divestmentDate f.divestmentAmount
      (JSNum.mul h.amount (JSNum.div f.divestmentAmount h.currentValue)))
    h tId tStamp tUpdate rfl hnt hfind
  have hid : h.id = id := by
    have := List.find?_some hfind
    simpa using this
  rw [hcv] at hg2
  obtain ⟨d, hd, hd0, hdc⟩ := JSNum.accepted_amount_fin _ c hg1 hg2
  have hcne : c ≠ 0 := by linarith
  refine ⟨_, applyPartialDivestment (mkPending id h f.divestmentType f.divestmentDate
      f.divestmentAmount (JSNum.mul h.amount (JSNum.div f.divestmentAmount h.currentValue)))
      tUpdate h, _, by rw [hcalc], rfl, rfl, by rw [hcalc, hconf], ?_, ?_, rfl, rfl, ?_, rfl, rfl,
      rfl, rfl, rfl, rfl, rfl, rfl⟩
  · rw [hcalc, hconf]
    exact modifyFirst_congr _ _ _ h hfind
  · rw [hcalc, hconf]
    exact find_modifyFirst _ _ _ h hfind (by simpa [applyPartialDivestment, mkPending] using hid)
  · show (applyPartialDivestment _ tUpdate h).quantity = _
    simp only [applyPartialDivestment, mkPending]
    cases hq : h.quantity with
    | none => rfl
    | some q =>
      by_cases ht : q.truthy = true
      · simp [ht]
      · have ht2 : q.truthy = false := Bool.eq_false_iff.mpr ht
        simp only [ht2, Option.map_some']
        rw [hcv, hd, JSNum.div_fin d c hcne, JSNum.sub_fin, JSNum.mul_of_not_truthy q _ ht2]
        rfl

/-- The example of the specification, evaluated: confirming the quote of 600 out of the
holding (1000, 1500) leaves the holding (600, 900) with one history entry of value 900. -/
theorem confirmDivestment_partialA :
    (confirmDivestment (calculateDivestment managerAB formPartialA).1 7 8 9).1.investments =
      [holdingAReduced, holdingB] := by
  rw [calculateDivestment_partialA]
  simp [confirmDivestment, pendingPartialA, managerAB, holdingA, holdingB, holdingAReduced,
    modifyFirst, applyPartialDivestment, JSNum.div_fin]
  norm_num

/-- C5 at the scenario of the specification: amount 1000, current value 1500, `d = 600` give
cost 400, gross gain 200, tax 52, net cash 548 and a holding with amount 600 and current
value 900. -/
theorem partial_divestment_updates_holding_witness :
    formPartialA.selectInvestment = some 1 ∧ formPartialA.divestmentType ≠ "" ∧
    formPartialA.divestmentType ≠ "total" ∧ formPartialA.divestmentDate ≠ "" ∧
    managerAB.investments.find? (fun inv => inv.id == 1) = some holdingA ∧
    holdingA.currentValue = JSNum.fin 1500 ∧ holdingA.amount = JSNum.fin 1000 ∧
    formPartialA.divestmentAmount = JSNum.fin 600 ∧
    (calculateDivestment managerAB formPartialA).2 = Notice.quoteDisplayed ∧
    (calculateDivestment managerAB formPartialA).1.pendingDivestment = some pendingPartialA ∧
    pendingPartialA.divestedCost = JSNum.fin 400 ∧ pendingPartialA.grossGain = JSNum.fin 200 ∧
    pendingPartialA.taxes = JSNum.fin 52 ∧ pendingPartialA.totalCash = JSNum.fin 548 ∧
    (confirmDivestment (calculateDivestment managerAB formPartialA).1 7 8 9).1.investments =
      [holdingAReduced, holdingB] ∧
    holdingAReduced.amount = JSNum.fin 600 ∧ holdingAReduced.currentValue = JSNum.fin 900 ∧
    ∃ (p : PendingDivestment) (h1 : Investment) (u : Update),
      (calculateDivestment managerAB formPartialA).1.pendingDivestment = some p ∧
      p.divestedAmount = formPartialA.divestmentAmount ∧
      p.divestedCost = JSNum.mul holdingA.amount
        (JSNum.div formPartialA.divestmentAmount holdingA.currentValue) ∧
      (confirmDivestment (calculateDivestment managerAB formPartialA).1 7 8 9).2 =
        Notice.divestmentRecorded ∧
      (confirmDivestment (calculateDivestment managerAB formPartialA).1 7 8 9).1.investments =
        modifyFirst (fun inv => inv.id == 1) (fun _ => h1) managerAB.investments ∧
      (confirmDivestment (calculateDivestment managerAB formPartialA).1 7 8 9).1.investments.find?
        (fun inv => inv.id == 1) = some h1 ∧
      h1.amount = JSNum.sub holdingA.amount p.divestedCost ∧
      h1.currentValue = JSNum.sub holdingA.currentValue p.divestedAmount ∧
      h1.quantity = holdingA.quantity.map (fun q => JSNum.mul q
        (JSNum.sub (JSNum.fin 1) (JSNum.div p.divestedAmount holdingA.currentValue))) ∧
      h1.updates = holdingA.updates ++ [u] ∧ u.value = h1.currentValue ∧
      u.date = formPartialA.divestmentDate ∧
      h1.id = holdingA.id ∧ h1.name = holdingA.name ∧ h1.type = holdingA.type ∧
      h1.date = holdingA.date ∧ h1.notes = holdingA.notes :=
  ⟨rfl, by decide, by decide, by decide, by simp [managerAB, holdingA], rfl, rfl, rfl,
    by rw [calculateDivestment_partialA], by rw [calculateDivestment_partialA], rfl, rfl, rfl, rfl,
    confirmDivestment_partialA, rfl, rfl,
    partial_divestment_updates_holding managerAB formPartialA holdingA 1 1500 7 8 9 rfl
      (by decide) (by decide) (by decide) (by simp [managerAB, holdingA]) rfl
      (by rw [calculateDivestment_partialA])⟩

/-! ## A partial divestment of everything -/

/-- Multiplying by one changes nothing. -/
theorem JSNum.mul_one_fin (a : JSNum) : JSNum.mul a (JSNum.fin 1) = a := by
  cases a <;> simp [JSNum.mul, JSNum.signedInf]

/-- C6: for a holding found by its id whose current value is a finite number `c > 0`, the
partial quote with `divestedAmount = currentValue` is displayed and has the same
`divestedAmount`, `divestedCost`, `grossGain`, `taxes`, `netGain` and `totalCash` as the
total quote of that holding. -/
theorem partial_of_everything_eq_total (m : Manager) (fT fP : DivestmentForm) (h : Investment)
    (c : ℚ)
    (hselT : fT.selectInvestment = some h.id) (htyT : fT.divestmentType = "total")
    (hdateT : fT.divestmentDate ≠ "")
    (hselP : fP.selectInvestment = some h.id) (htyP : fP.divestmentType ≠ "")
    (hntP : fP.divestmentType ≠ "total") (hdateP : fP.divestmentDate ≠ "")
    (hamt : fP.divestmentAmount = h.currentValue)
    (hfind : m.investments.find? (fun inv => inv.id == h.id) = some h)
    (hcv : h.currentValue = JSNum.fin c) (hpos : 0 < c) :
    ∃ pT pP : PendingDivestment,
      calculateDivestment m fT = ({ m with pendingDivestment := some pT }, Notice.quoteDisplayed) ∧
      calculateDivestment m fP = ({ m with pendingDivestment := some pP }, Notice.quoteDisplayed) ∧
      pP.divestedAmount = pT.divestedAmount ∧ pP.divestedCost = pT.divestedCost ∧
      pP.grossGain = pT.grossGain ∧ pP.taxes = pT.taxes ∧ pP.netGain = pT.netGain ∧
      pP.totalCash = pT.totalCash := by
  have hT := calculateDivestment_total m fT h hselT htyT hdateT hfind
  have hP := calculateDivestment_partial m fP h h.id hselP htyP hntP hdateP hfind
  have hcne : c ≠ 0 := ne_of_gt hpos
  have hcost : JSNum.mul h.amount (JSNum.div fP.divestmentAmount h.currentValue) = h.amount := by
    rw [hamt, hcv, JSNum.div_fin c c hcne, div_self hcne]
    exact JSNum.mul_one_fin _
  have hg1 : (!fP.divestmentAmount.truthy || JSNum.le fP.divestmentAmount (JSNum.fin 0)) = false := by
    rw [hamt, hcv]
    simp [hcne, hpos]
  have hg2 : JSNum.gt fP.divestmentAmount h.currentValue = false := by
    rw [hamt, hcv]
    simp
  rw [hg1, hg2, hcost, hamt] at hP
  refine ⟨mkPending h.id h fT.divestmentType fT.divestmentDate h.currentValue h.amount,
    mkPending h.id h fP.divestmentType fP.divestmentDate h.currentValue h.amount, hT, ?_,
    rfl, rfl, rfl, rfl, rfl, rfl⟩
  rw [hP]
  simp

/-- C6 at `holdingA`: the partial quote of 1500 and the total quote agree. -/
theorem partial_of_everything_eq_total_witness :
    formTotalA.selectInvestment = some holdingA.id ∧ formTotalA.divestmentType = "total" ∧
    formTotalA.divestmentDate ≠ "" ∧
    formPartialAllA.selectInvestment = some holdingA.id ∧ formPartialAllA.divestmentType ≠ "" ∧
    formPartialAllA.divestmentType ≠ "total" ∧ formPartialAllA.divestmentDate ≠ "" ∧
    formPartialAllA.divestmentAmount = holdingA.currentValue ∧
    managerAB.investments.find? (fun inv => inv.id == holdingA.id) = some holdingA ∧
    holdingA.currentValue = JSNum.fin 1500 ∧ (0 : ℚ) < 1500 ∧
    ∃ pT pP : PendingDivestment,
      calculateDivestment managerAB formTotalA =
        ({ managerAB with pendingDivestment := some pT }, Notice.quoteDisplayed) ∧
      calculateDivestment managerAB formPartialAllA =
        ({ managerAB with pendingDivestment := some pP }, Notice.quoteDisplayed) ∧
      pP.divestedAmount = pT.divestedAmount ∧ pP.divestedCost = pT.divestedCost ∧
      pP.grossGain = pT.grossGain ∧ pP.taxes = pT.taxes ∧ pP.netGain = pT.netGain ∧
      pP.totalCash = pT.totalCash :=
  ⟨rfl, rfl, by decide, rfl, by decide, by decide, by decide, rfl,
    by simp [managerAB, holdingA], rfl, by norm_num,
    partial_of_everything_eq_total managerAB formTotalA formPartialAllA holdingA 1500 rfl rfl
      (by decide) rfl (by decide) (by decide) (by decide) rfl (by simp [managerAB, holdingA])
      rfl (by norm_num)⟩

/-! ## Confirming a quote whose holding has changed or gone -/

/-- The two managers in which `holdingA` was deleted after the quote, evaluated. -/
theorem managerVanishedPartial_eq :
    managerVanishedPartial =
      { investments := [holdingB], divestments := [], dividends := [],
        pendingDivestment := some pendingPartialA } := by
  unfold managerVanishedPartial
  rw [calculateDivestment_partialA]
  simp [deleteInvestment, managerAB, holdingA, holdingB]

theorem managerVanishedTotal_eq :
    managerVanishedTotal =
      { investments := [holdingB], divestments := [], dividends := [],
        pendingDivestment := some pendingTotalA } := by
  unfold managerVanishedTotal
  rw [calculateDivestment_totalA]
  simp [deleteInvestment, managerAB, holdingA, holdingB]

/-- Whatever the kind of the quote, when no holding has the quoted id `confirmDivestment`
still appends the record and leaves the holdings as they were; a partial quote then ends in
a `TypeError` with the quote still pending, a total one reports success. -/
theorem confirmDivestment_holding_absent (m : Manager) (p : PendingDivestment)
    (tId tStamp tUpdate : Nat) (hp : m.pendingDivestment = some p)
    (habs : m.investments.find? (fun inv => inv.id == p.investmentId) = none) :
    (confirmDivestment m tId tStamp tUpdate).1.divestments =
      m.divestments ++ [mkDivestmentRecord p tId tStamp] ∧
    (confirmDivestment m tId tStamp tUpdate).1.investments = m.investments ∧
    (p.type ≠ "total" → confirmDivestment m tId tStamp tUpdate =
      ({ m with divestments := m.divestments ++ [mkDivestmentRecord p tId tStamp] },
        Notice.typeError)) ∧
    (p.type = "total" → (confirmDivestment m tId tStamp tUpdate).2 =
      Notice.divestmentRecorded) := by
  have hall : ∀ x ∈ m.investments, (x.id != p.investmentId) = true := by
    intro x hx
    have := List.find?_eq_none.mp habs x hx
    simpa using this
  by_cases hty : p.type = "total"
  · rw [confirmDivestment_total m p tId tStamp tUpdate hp hty]
    refine ⟨rfl, ?_, fun hne => absurd hty hne, fun _ => rfl⟩
    exact List.filter_eq_self.mpr hall
  · have hc : confirmDivestment m tId tStamp tUpdate =
        ({ m with divestments := m.divestments ++ [mkDivestmentRecord p tId tStamp] },
          Notice.typeError) := by
      simp [confirmDivestment, hp, hty, habs]
    rw [hc]
    exact ⟨rfl, rfl, fun _ => rfl, fun h => absurd h hty⟩

/-- C7, the code at the failing input: `holdingA` is quoted and then deleted; confirming the
pending quote does not fail cleanly.  For the partial quote a record is appended to the
(empty) divestment list, the method ends in a `TypeError` and the quote stays pending; for the
total quote a record is appended and success is reported.  In both cases no holding changed. -/
theorem confirmDivestment_vanished_holding :
    managerVanishedPartial.investments.find? (fun inv => inv.id == 1) = none ∧
    managerVanishedPartial.divestments = [] ∧
    confirmDivestment managerVanishedPartial 7 8 9 =
      ({ investments := [holdingB], divestments := [mkDivestmentRecord pendingPartialA 7 8],
         dividends := [], pendingDivestment := some pendingPartialA }, Notice.typeError) ∧
    managerVanishedTotal.investments.find? (fun inv => inv.id == 1) = none ∧
    managerVanishedTotal.divestments = [] ∧
    confirmDivestment managerVanishedTotal 7 8 9 =
      ({ investments := [holdingB], divestments := [mkDivestmentRecord pendingTotalA 7 8],
         dividends := [], pendingDivestment := none }, Notice.divestmentRecorded) := by
  rw [managerVanishedPartial_eq, managerVanishedTotal_eq]
  refine ⟨by simp [holdingB], rfl, ?_, by simp [holdingB], rfl, ?_⟩
  · simp [confirmDivestment, pendingPartialA, holdingB]
  · simp [confirmDivestment, pendingTotalA, holdingB]

/-- The manager in which `holdingA` was revalued to 500 after the quote of 600, evaluated. -/
theorem managerRevalued_eq :
    managerRevalued =
      { investments := [holdingARevalued, holdingB],
        divestments := [], dividends := [], pendingDivestment := some pendingPartialA } := by
  unfold managerRevalued
  rw [calculateDivestment_partialA]
  simp [updateInvestment, modifyFirst, managerAB, holdingA, holdingB, holdingARevalued]

/-- C8, the code at the failing input: 600 out of `holdingA` (worth 1500) is quoted, the
holding is revalued to 500, and the quote is confirmed.  The confirmation is not refused: it
reports success, appends the record, and leaves the holding with current value `-100`. -/
theorem confirmDivestment_stale_quote_negative :
    managerRevalued.pendingDivestment = some pendingPartialA ∧
    (∃ h, managerRevalued.investments.find? (fun inv => inv.id == 1) = some h ∧
      h.currentValue = JSNum.fin 500 ∧
      JSNum.gt pendingPartialA.divestedAmount h.currentValue = true) ∧
    confirmDivestment managerRevalued 7 8 9 =
      ({ investments := [holdingANegative, holdingB],
         divestments := [mkDivestmentRecord pendingPartialA 7 8],
         dividends := [], pendingDivestment := none }, Notice.divestmentRecorded) ∧
    holdingANegative.currentValue = JSNum.fin (-100) := by
  rw [managerRevalued_eq]
  refine ⟨rfl, ⟨holdingARevalued, by simp [holdingARevalued], rfl,
    by simp [pendingPartialA, holdingARevalued]; norm_num⟩, ?_, rfl⟩
  simp [confirmDivestment, pendingPartialA, holdingARevalued, holdingB, holdingANegative,
    modifyFirst, applyPartialDivestment]
  norm_num

/-! ## No pending quote -/

/-- A confirmation that reports success has cleared the pending quote. -/
theorem confirmDivestment_recorded_clears (m : Manager) (tId tStamp tUpdate : Nat)
    (hok : (confirmDivestment m tId tStamp tUpdate).2 = Notice.divestmentRecorded) :
    (confirmDivestment m tId tStamp tUpdate).1.pendingDivestment = none := by
  unfold confirmDivestment at hok ⊢
  cases hp : m.pendingDivestment with
  | none => simp [hp] at hok
  | some p =>
    simp only [hp] at hok ⊢
    by_cases hty : p.type = "total"
    · simp [hty]
    · cases hfind : m.investments.find? (fun inv => inv.id == p.investmentId) with
      | none => simp [hty, hfind] at hok
      | some h => simp [hty, hfind]

/-- C9: with no pending quote `confirmDivestment` reports "nothing to confirm" and returns
the manager as it was; this is the case after `cancelDivestment` and after a confirmation
that succeeded.  `cancelDivestment` clears the pending quote and changes neither holdings,
nor divestments, nor dividends. -/
theorem confirm_without_pending_and_cancel (m : Manager) (tId tStamp tUpdate s1 s2 s3 : Nat) :
    (m.pendingDivestment = none →
      confirmDivestment m tId tStamp tUpdate = (m, Notice.nothingToConfirm)) ∧
    confirmDivestment (cancelDivestment m) tId tStamp tUpdate =
      (cancelDivestment m, Notice.nothingToConfirm) ∧
    ((confirmDivestment m tId tStamp tUpdate).2 = Notice.divestmentRecorded →
      confirmDivestment (confirmDivestment m tId tStamp tUpdate).1 s1 s2 s3 =
        ((confirmDivestment m tId tStamp tUpdate).1, Notice.nothingToConfirm)) ∧
    (cancelDivestment m).pendingDivestment = none ∧
    (cancelDivestment m).investments = m.investments ∧
    (cancelDivestment m).divestments = m.divestments ∧
    (cancelDivestment m).dividends = m.dividends := by
  have hnone : ∀ (k : Manager) (a b c : Nat), k.pendingDivestment = none →
      confirmDivestment k a b c = (k, Notice.nothingToConfirm) := by
    intro k a b c hk
    simp [confirmDivestment, hk]
  refine ⟨hnone m tId tStamp tUpdate, hnone _ _ _ _ rfl, ?_, rfl, rfl, rfl, rfl⟩
  intro hok
  exact hnone _ _ _ _ (confirmDivestment_recorded_clears m tId tStamp tUpdate hok)

/-- C9 at the manager holding the quote of 600 out of `holdingA`: the first confirmation
succeeds, the second finds nothing to confirm. -/
theorem confirm_without_pending_and_cancel_witness :
    managerAB.pendingDivestment = none ∧
    (confirmDivestment (calculateDivestment managerAB formPartialA).1 7 8 9).2 =
      Notice.divestmentRecorded ∧
    confirmDivestment managerAB 7 8 9 = (managerAB, Notice.nothingToConfirm) ∧
    confirmDivestment (confirmDivestment (calculateDivestment managerAB formPartialA).1 7 8 9).1
        10 11 12 =
      ((confirmDivestment (calculateDivestment managerAB formPartialA).1 7 8 9).1,
        Notice.nothingToConfirm) :=
  have hrec : (confirmDivestment (calculateDivestment managerAB formPartialA).1 7 8 9).2 =
      Notice.divestmentRecorded := by
    rw [calculateDivestment_partialA]
    simp [confirmDivestment, pendingPartialA, managerAB, holdingA]
  ⟨rfl, hrec,
    (confirm_without_pending_and_cancel managerAB 7 8 9 10 11 12).1 rfl,
    (confirm_without_pending_and_cancel (calculateDivestment managerAB formPartialA).1
      7 8 9 10 11 12).2.2.1 hrec⟩

/-! ## Creation -/

/-- The two example forms pass validation. -/
theorem validate_formDerived :
    validateInvestmentData (mkFormData formDerived 3 4 "2024-03-02") formDerived.mode
      formDerived.currentValue formDerived.performancePercent = [] := by
  simp [validateInvestmentData, mkFormData, formDerived, orNull, JSNum.truthy, JSNum.isNaN,
    JSNum.abs, utf16Length]
  norm_num

theorem validate_formDirect :
    validateInvestmentData (mkFormData formDirect 3 4 "2024-03-02") formDirect.mode
      formDirect.currentValue formDirect.performancePercent = [] := by
  simp [validateInvestmentData, mkFormData, formDirect, orNull, JSNum.truthy, utf16Length]

/-- C10: when the form passes `validateInvestmentData`, `addInvestment` appends one holding.
In the existing-investment mode (current value `v`, performance `p`) it has
`currentValue = v`, `amount = v / (1 + p / 100)`, is flagged as existing with
`initialPerformance = p`, and has exactly one history entry, of value `v`.  In the mode
`new` it has `amount = currentValue =` the amount supplied and an empty history. -/
theorem addInvestment_creates (m : Manager) (f : InvestmentForm) (tId tStamp : Nat)
    (today : String)
    (hvalid : validateInvestmentData (mkFormData f tId tStamp today) f.mode f.currentValue
      f.performancePercent = []) :
    ∃ h : Investment,
      addInvestment m f tId tStamp today =
        ({ m with investments := m.investments ++ [h] }, Notice.investmentAdded) ∧
      (f.mode ≠ "new" →
        h.currentValue = f.currentValue ∧
        h.amount = JSNum.div f.currentValue
          (JSNum.add (JSNum.fin 1) (JSNum.div f.performancePercent (JSNum.fin 100))) ∧
        h.isExistingInvestment = true ∧
        h.initialPerformance = some f.performancePercent ∧
        ∃ u : Update, h.updates = [u] ∧ u.value = f.currentValue) ∧
      (f.mode = "new" →
        h.amount = f.investmentAmount ∧ h.currentValue = f.investmentAmount ∧
        h.updates = [] ∧ h.isExistingInvestment = false) := by
  refine ⟨mkFormData f tId tStamp today, ?_, ?_, ?_⟩
  · simp [addInvestment, hvalid]
  · intro hmode
    simp [mkFormData, hmode]
  · intro hmode
    simp [mkFormData, hmode]

/-- C10 at current value 1260 and performance 26: the holding has amount 1000. -/
theorem addInvestment_creates_witness :
    validateInvestmentData (mkFormData formDerived 3 4 "2024-03-02") formDerived.mode
      formDerived.currentValue formDerived.performancePercent = [] ∧
    mkFormData formDerived 3 4 "2024-03-02" = holdingDerived ∧
    ∃ h : Investment,
      addInvestment managerAB formDerived 3 4 "2024-03-02" =
        ({ managerAB with investments := managerAB.investments ++ [h] },
          Notice.investmentAdded) ∧
      (formDerived.mode ≠ "new" →
        h.currentValue = formDerived.currentValue ∧
        h.amount = JSNum.div formDerived.currentValue
          (JSNum.add (JSNum.fin 1) (JSNum.div formDerived.performancePercent (JSNum.fin 100))) ∧
        h.isExistingInvestment = true ∧
        h.initialPerformance = some formDerived.performancePercent ∧
        ∃ u : Update, h.updates = [u] ∧ u.value = formDerived.currentValue) ∧
      (formDerived.mode = "new" →
        h.amount = formDerived.investmentAmount ∧ h.currentValue = formDerived.investmentAmount ∧
        h.updates = [] ∧ h.isExistingInvestment = false) :=
  ⟨validate_formDerived,
    by simp [mkFormData, formDerived, holdingDerived, orNull, JSNum.truthy, JSNum.div_fin]
       rw [JSNum.div_fin _ _ (by norm_num)]
       norm_num,
    addInvestment_creates managerAB formDerived 3 4 "2024-03-02" validate_formDerived⟩

/-! ## Creation with a performance of -100% or less -/

/-- In the existing-investment mode the cost basis computed for a positive current value and a
performance of `-100` is `+Infinity`: the divisor `1 + (-100) / 100` is zero. -/
theorem mkFormData_amount_minus_100 (f : InvestmentForm) (tId tStamp : Nat) (today : String)
    (v : ℚ) (hmode : f.mode ≠ "new") (hv : f.currentValue = JSNum.fin v) (hpos : 0 < v)
    (hp : f.performancePercent = JSNum.fin (-100)) :
    (mkFormData f tId tStamp today).amount = JSNum.pinf := by
  have hvne : v ≠ 0 := ne_of_gt hpos
  simp [mkFormData, hmode, hv, hp, JSNum.div, JSNum.signedInf, hvne, hpos]

/-- C11, the code at the failing input: an existing investment worth 1260 entered with a
performance of `-100` passes `validateInvestmentData` and is added to the ledger, with amount
`+Infinity`; nothing is refused. -/
theorem addInvestment_performance_minus_100 :
    validateInvestmentData (mkFormData formDegenerate 3 4 "2024-03-02") formDegenerate.mode
      formDegenerate.currentValue formDegenerate.performancePercent = [] ∧
    addInvestment managerAB formDegenerate 3 4 "2024-03-02" =
      ({ managerAB with investments := [holdingA, holdingB, holdingDegenerate] },
        Notice.investmentAdded) ∧
    holdingDegenerate.amount = JSNum.pinf := by
  have hval : validateInvestmentData (mkFormData formDegenerate 3 4 "2024-03-02")
      formDegenerate.mode formDegenerate.currentValue formDegenerate.performancePercent = [] := by
    simp [validateInvestmentData, mkFormData, formDegenerate, orNull, JSNum.truthy, JSNum.isNaN,
      JSNum.abs, utf16Length]
    norm_num
  have hdata : mkFormData formDegenerate 3 4 "2024-03-02" = holdingDegenerate := by
    simp [mkFormData, formDegenerate, holdingDegenerate, orNull, JSNum.truthy, JSNum.div,
      JSNum.signedInf]
  refine ⟨hval, ?_, rfl⟩
  rw [hdata] at hval
  simp [addInvestment, hval, hdata, managerAB]

/-- C12, the code at the failing input: an existing investment worth 100 entered with a
performance of `-200` (within the accepted range of 1000 in absolute value) passes
`validateInvestmentData` and is added to the ledger with amount `-100`, which is not `>= 0`. -/
theorem addInvestment_negative_amount :
    JSNum.le (JSNum.abs formNegative.performancePercent) (JSNum.fin 1000) = true ∧
    validateInvestmentData (mkFormData formNegative 3 4 "2024-03-02") formNegative.mode
      formNegative.currentValue formNegative.performancePercent = [] ∧
    addInvestment managerAB formNegative 3 4 "2024-03-02" =
      ({ managerAB with investments := [holdingA, holdingB, holdingNegative] },
        Notice.investmentAdded) ∧
    holdingNegative.amount = JSNum.fin (-100) ∧
    JSNum.ge holdingNegative.amount (JSNum.fin 0) = false := by
  have hval : validateInvestmentData (mkFormData formNegative 3 4 "2024-03-02")
      formNegative.mode formNegative.currentValue formNegative.performancePercent = [] := by
    simp [validateInvestmentData, mkFormData, formNegative, orNull, JSNum.truthy, JSNum.isNaN,
      JSNum.abs, utf16Length]
    norm_num
  have hdata : mkFormData formNegative 3 4 "2024-03-02" = holdingNegative := by
    simp [mkFormData, formNegative, holdingNegative, orNull, JSNum.truthy, JSNum.div_fin]
    rw [JSNum.div_fin _ _ (by norm_num)]
    norm_num
  refine ⟨?_, hval, ?_, rfl, ?_⟩
  · simp [formNegative, JSNum.abs]
    norm_num
  · rw [hdata] at hval
    simp [addInvestment, hval, hdata, managerAB]
  · simp [holdingNegative, JSNum.ge]

/-! ## Round trip: derived cost basis, performance, total quote -/

/-- The cost basis derived from a finite current value `v` and a performance `p` other than
`-100` is the finite number `v / (1 + p / 100)`. -/
theorem mkFormData_amount_fin (f : InvestmentForm) (tId tStamp : Nat) (today : String)
    (v p : ℚ) (hmode : f.mode ≠ "new") (hv : f.currentValue = JSNum.fin v)
    (hp : f.performancePercent = JSNum.fin p) (hne : 1 + p / 100 ≠ 0) :
    (mkFormData f tId tStamp today).amount = JSNum.fin (v / (1 + p / 100)) ∧
    (mkFormData f tId tStamp today).currentValue = JSNum.fin v := by
  have h100 : (100 : ℚ) ≠ 0 := by norm_num
  simp [mkFormData, hmode, hv, hp, JSNum.div_fin _ _ h100, JSNum.div_fin _ _ hne]

/-- The two identities behind the round trip. -/
theorem round_trip_arith (a v p : ℚ) (ha : a ≠ 0) (h : a * (1 + p / 100) = v) :
    (v - a) / a * 100 = p ∧ v - a = a * p / 100 := by
  subst h
  constructor
  · field_simp
    ring
  · ring

/-- C13: for a current value `v > 0` and a performance `p > -100`, the holding `h` built in
the existing-investment mode has a finite amount `a` with `a * (1 + p / 100) = v`; its
computed performance `(currentValue - amount) / amount * 100` is `p`; and the total quote of
`h`, in a ledger where `h` is found by its id, has `grossGain = a * p / 100`. -/
theorem derived_holding_round_trip (f : InvestmentForm) (tId tStamp : Nat) (today : String)
    (v p : ℚ) (m : Manager) (fT : DivestmentForm)
    (hmode : f.mode ≠ "new") (hv : f.currentValue = JSNum.fin v)
    (hp : f.performancePercent = JSNum.fin p) (hvpos : 0 < v) (hpgt : -100 < p)
    (hsel : fT.selectInvestment = some (mkFormData f tId tStamp today).id)
    (hty : fT.divestmentType = "total") (hdate : fT.divestmentDate ≠ "")
    (hfind : m.investments.find?
      (fun inv => inv.id == (mkFormData f tId tStamp today).id) =
        some (mkFormData f tId tStamp today)) :
    ∃ a : ℚ,
      (mkFormData f tId tStamp today).amount = JSNum.fin a ∧
      (mkFormData f tId tStamp today).currentValue = JSNum.fin v ∧
      0 < a ∧ a * (1 + p / 100) = v ∧
      JSNum.mul (mkFormData f tId tStamp today).amount
        (JSNum.add (JSNum.fin 1) (JSNum.div (JSNum.fin p) (JSNum.fin 100))) = JSNum.fin v ∧
      performance (mkFormData f tId tStamp today) = JSNum.fin p ∧
      ∃ q : PendingDivestment,
        calculateDivestment m fT = ({ m with pendingDivestment := some q }, Notice.quoteDisplayed) ∧
        q.grossGain = JSNum.fin (a * p / 100) := by
  have hk : 0 < 1 + p / 100 := by linarith
  have hkne : 1 + p / 100 ≠ 0 := ne_of_gt hk
  have h100 : (100 : ℚ) ≠ 0 := by norm_num
  obtain ⟨ha, hc⟩ := mkFormData_amount_fin f tId tStamp today v p hmode hv hp hkne
  have hapos : 0 < v / (1 + p / 100) := div_pos hvpos hk
  have hane : v / (1 + p / 100) ≠ 0 := ne_of_gt hapos
  have hmul : v / (1 + p / 100) * (1 + p / 100) = v := div_mul_cancel₀ v hkne
  refine ⟨v / (1 + p / 100), ha, hc, hapos, hmul, ?_, ?_, ?_⟩
  · rw [ha, JSNum.div_fin _ _ h100, JSNum.add_fin, JSNum.mul_fin, hmul]
  · have hne0 : JSNum.fin (v / (1 + p / 100)) ≠ JSNum.fin 0 := by
      intro h0
      exact hane (JSNum.fin.inj h0)
    simp only [performance, ha, hc, hne0, if_false, JSNum.sub_fin, JSNum.div_fin _ _ hane,
      JSNum.mul_fin]
    rw [(round_trip_arith _ v p hane hmul).1]
  · refine ⟨_, calculateDivestment_total m fT _ hsel hty hdate hfind, ?_⟩
    simp only [mkPending, ha, hc, JSNum.sub_fin]
    rw [(round_trip_arith _ v p hane hmul).2]

/-- The holding built from `formDerived`, evaluated: amount 1260 / 1.26 = 1000. -/
theorem mkFormData_formDerived : mkFormData formDerived 3 4 "2024-03-02" = holdingDerived := by
  simp [mkFormData, formDerived, holdingDerived, orNull, JSNum.truthy, JSNum.div_fin]
  rw [JSNum.div_fin _ _ (by norm_num)]
  norm_num

/-- The total quote of `holdingDerived`, evaluated. -/
theorem calculateDivestment_totalC :
    calculateDivestment managerC formTotalC =
      ({ managerC with pendingDivestment := some pendingTotalC }, Notice.quoteDisplayed) := by
  simp [calculateDivestment, managerC, formTotalC, pendingTotalC, mkPending, holdingDerived,
    taxRate]
  norm_num

/-- C13 at `v = 1260`, `p = 26`: amount 1000, gross gain 260, tax 67.60, net cash 1192.40. -/
theorem derived_holding_round_trip_witness :
    formDerived.mode ≠ "new" ∧ formDerived.currentValue = JSNum.fin 1260 ∧
    formDerived.performancePercent = JSNum.fin 26 ∧ (0 : ℚ) < 1260 ∧ (-100 : ℚ) < 26 ∧
    formTotalC.selectInvestment = some (mkFormData formDerived 3 4 "2024-03-02").id ∧
    formTotalC.divestmentType = "total" ∧ formTotalC.divestmentDate ≠ "" ∧
    managerC.investments.find?
      (fun inv => inv.id == (mkFormData formDerived 3 4 "2024-03-02").id) =
        some (mkFormData formDerived 3 4 "2024-03-02") ∧
    (mkFormData formDerived 3 4 "2024-03-02").amount = JSNum.fin 1000 ∧
    calculateDivestment managerC formTotalC =
      ({ managerC with pendingDivestment := some pendingTotalC }, Notice.quoteDisplayed) ∧
    pendingTotalC.grossGain = JSNum.fin 260 ∧ pendingTotalC.taxes = JSNum.fin (6760 / 100) ∧
    pendingTotalC.totalCash = JSNum.fin (119240 / 100) ∧
    ∃ a : ℚ,
      (mkFormData formDerived 3 4 "2024-03-02").amount = JSNum.fin a ∧
      (mkFormData formDerived 3 4 "2024-03-02").currentValue = JSNum.fin 1260 ∧
      0 < a ∧ a * (1 + 26 / 100) = 1260 ∧
      JSNum.mul (mkFormData formDerived 3 4 "2024-03-02").amount
        (JSNum.add (JSNum.fin 1) (JSNum.div (JSNum.fin 26) (JSNum.fin 100))) = JSNum.fin 1260 ∧
      performance (mkFormData formDerived 3 4 "2024-03-02") = JSNum.fin 26 ∧
      ∃ q : PendingDivestment,
        calculateDivestment managerC formTotalC =
          ({ managerC with pendingDivestment := some q }, Notice.quoteDisplayed) ∧
        q.grossGain = JSNum.fin (a * 26 / 100) :=
  have hfind : managerC.investments.find?
      (fun inv => inv.id == (mkFormData formDerived 3 4 "2024-03-02").id) =
        some (mkFormData formDerived 3 4 "2024-03-02") := by
    rw [mkFormData_formDerived]
    simp [managerC, holdingDerived]
  have hsel : formTotalC.selectInvestment =
      some (mkFormData formDerived 3 4 "2024-03-02").id := by
    rw [mkFormData_formDerived]
    rfl
  ⟨by decide, rfl, rfl, by norm_num, by norm_num, hsel, rfl, by decide, hfind,
    by rw [mkFormData_formDerived]; rfl, calculateDivestment_totalC, rfl, rfl, rfl,
    derived_holding_round_trip formDerived 3 4 "2024-03-02" 1260 26 managerC formTotalC
      (by decide) rfl rfl (by norm_num) (by norm_num) hsel rfl (by decide) hfind⟩

/-! ## Validation -/

/-- The test `!x || x <= 0` is the negation of `x > 0`. -/
theorem JSNum.not_truthy_or_le_zero (x : JSNum) :
    (!x.truthy || JSNum.le x (JSNum.fin 0)) = !JSNum.gt x (JSNum.fin 0) := by
  cases x with
  | nan => rfl
  | ninf => rfl
  | pinf => rfl
  | fin q =>
    simp only [JSNum.truthy_fin, JSNum.le_fin, JSNum.gt_fin]
    by_cases h0 : q = 0
    · simp [h0]
    · by_cases hpos : 0 < q
      · simp [h0, hpos, not_le.mpr hpos]
      · have hle : q ≤ 0 := not_lt.mp hpos
        simp [h0, hpos, hle]

/-- For a truthy number the test `q <= 0` is the negation of `q > 0`. -/
theorem JSNum.le_zero_of_truthy (q : JSNum) (hq : q.truthy = true) :
    JSNum.le q (JSNum.fin 0) = !JSNum.gt q (JSNum.fin 0) := by
  have h := JSNum.not_truthy_or_le_zero q
  simpa [hq] using h

/-- A number kept by `x || null` is truthy. -/
theorem orNull_some_truthy (x q : JSNum) (h : orNull x = some q) : q.truthy = true := by
  unfold orNull at h
  by_cases hx : x.truthy = true
  · simp [hx] at h
    rw [← h]
    exact hx
  · simp [hx] at h

/-- The messages of `validateInvestmentData` on the data built from a form are the reasons
of the violated rules, in order. -/
theorem validateInvestmentData_eq_violatedRules (f : InvestmentForm) (tId tStamp : Nat)
    (today : String) :
    validateInvestmentData (mkFormData f tId tStamp today) f.mode f.currentValue
      f.performancePercent = violatedRules f := by
  have hn : (f.investmentName = "" ∨ utf16Length f.investmentName < 2) ↔
      utf16Length f.investmentName < 2 := by
    constructor
    · intro h
      rcases h with h | h
      · rw [h]
        decide
      · exact h
    · intro h
      exact Or.inr h
  by_cases hmode : f.mode = "new"
  · simp only [validateInvestmentData, mkFormData, violatedRules, ruleViolations, quantityField,
      hmode, if_true, JSNum.not_truthy_or_le_zero, hn]
    cases h5 : orNull f.investmentQuantity with
    | none =>
      by_cases h1 : utf16Length f.investmentName < 2 <;>
      by_cases h2 : f.investmentType = "" <;>
      by_cases h3 : f.investmentDate = "" <;>
      by_cases h4 : JSNum.gt f.investmentAmount (JSNum.fin 0) = true <;>
      simp [h1, h2, h3, h4, List.filter]
    | some q =>
      have hle := JSNum.le_zero_of_truthy q (orNull_some_truthy _ q h5)
      by_cases h1 : utf16Length f.investmentName < 2 <;>
      by_cases h2 : f.investmentType = "" <;>
      by_cases h3 : f.investmentDate = "" <;>
      by_cases h4 : JSNum.gt f.investmentAmount (JSNum.fin 0) = true <;>
      by_cases h6 : JSNum.gt q (JSNum.fin 0) = true <;>
      simp [h1, h2, h3, h4, h6, hle, List.filter]
  · simp only [validateInvestmentData, mkFormData, violatedRules, ruleViolations, quantityField,
      hmode, if_false, JSNum.not_truthy_or_le_zero, hn]
    cases h5 : orNull f.existingQuantity with
    | none =>
      by_cases h1 : utf16Length f.investmentName < 2 <;>
      by_cases h2 : f.investmentType = "" <;>
      by_cases h3 : f.investmentDate = "" <;>
      by_cases h4 : JSNum.gt f.currentValue (JSNum.fin 0) = true <;>
      by_cases h7 : f.performancePercent.isNaN = true <;>
      by_cases h8 : JSNum.gt f.performancePercent.abs (JSNum.fin 1000) = true <;>
      simp [h1, h2, h3, h4, h7, h8, List.filter]
    | some q =>
      have hle := JSNum.le_zero_of_truthy q (orNull_some_truthy _ q h5)
      by_cases h1 : utf16Length f.investmentName < 2 <;>
      by_cases h2 : f.investmentType = "" <;>
      by_cases h3 : f.investmentDate = "" <;>
      by_cases h4 : JSNum.gt f.currentValue (JSNum.fin 0) = true <;>
      by_cases h7 : f.performancePercent.isNaN = true <;>
      by_cases h8 : JSNum.gt f.performancePercent.abs (JSNum.fin 1000) = true <;>
      by_cases h6 : JSNum.gt q (JSNum.fin 0) = true <;>
      simp [h1, h2, h3, h4, h6, h7, h8, hle, List.filter]

/-- C14: on every form and in both modes the list returned by `validateInvestmentData` is
the list of the reasons of the violated rules, one for each; so its length is the number of
violated rules and it is empty exactly when no rule is violated.  `addInvestment` appends the
holding when the list is empty and otherwise returns the manager unchanged with the whole
list. -/
theorem validateInvestmentData_lists_all (m : Manager) (f : InvestmentForm) (tId tStamp : Nat)
    (today : String) :
    validateInvestmentData (mkFormData f tId tStamp today) f.mode f.currentValue
      f.performancePercent = violatedRules f ∧
    (validateInvestmentData (mkFormData f tId tStamp today) f.mode f.currentValue
      f.performancePercent).length = (ruleViolations f).countP (fun r => r.1) ∧
    (validateInvestmentData (mkFormData f tId tStamp today) f.mode f.currentValue
      f.performancePercent = [] ↔ ∀ r ∈ ruleViolations f, r.1 = false) ∧
    (validateInvestmentData (mkFormData f tId tStamp today) f.mode f.currentValue
      f.performancePercent = [] →
      addInvestment m f tId tStamp today =
        ({ m with investments := m.investments ++ [mkFormData f tId tStamp today] },
          Notice.investmentAdded)) ∧
    (validateInvestmentData (mkFormData f tId tStamp today) f.mode f.currentValue
      f.performancePercent ≠ [] →
      addInvestment m f tId tStamp today =
        (m, Notice.validationErrors (validateInvestmentData (mkFormData f tId tStamp today)
          f.mode f.currentValue f.performancePercent))) := by
  have heq := validateInvestmentData_eq_violatedRules f tId tStamp today
  refine ⟨heq, ?_, ?_, ?_, ?_⟩
  · rw [heq, violatedRules, List.length_map, List.countP_eq_length_filter]
  · rw [heq, violatedRules, List.map_eq_nil_iff, List.filter_eq_nil_iff]
    constructor
    · intro h r hr
      exact Bool.eq_false_iff.mpr (h r hr)
    · intro h r hr
      rw [h r hr]
      decide
  · intro h
    simp [addInvestment, h]
  · intro h
    have hlen : 0 < (validateInvestmentData (mkFormData f tId tStamp today) f.mode
        f.currentValue f.performancePercent).length := List.length_pos.mpr h
    simp [addInvestment, hlen]

/-- C14 at a form violating five rules: all five reasons are returned and nothing is added; and
at `formDerived`, which violates none: the holding is added. -/
theorem validateInvestmentData_lists_all_witness :
    validateInvestmentData (mkFormData formBad 3 4 "2024-03-02") formBad.mode
      formBad.currentValue formBad.performancePercent =
      [ValidationError.nameTooShort, ValidationError.typeMissing, ValidationError.dateMissing,
        ValidationError.amountNotPositive, ValidationError.quantityNotPositive] ∧
    (addInvestment managerAB formBad 3 4 "2024-03-02").1 = managerAB ∧
    addInvestment managerAB formDerived 3 4 "2024-03-02" =
      ({ managerAB with investments :=
          managerAB.investments ++ [mkFormData formDerived 3 4 "2024-03-02"] },
        Notice.investmentAdded) :=
  have hbad : validateInvestmentData (mkFormData formBad 3 4 "2024-03-02") formBad.mode
      formBad.currentValue formBad.performancePercent =
      [ValidationError.nameTooShort, ValidationError.typeMissing, ValidationError.dateMissing,
        ValidationError.amountNotPositive, ValidationError.quantityNotPositive] := by
    simp [validateInvestmentData, mkFormData, formBad, orNull, JSNum.truthy, utf16Length]
  ⟨hbad,
    by rw [(validateInvestmentData_lists_all managerAB formBad 3 4 "2024-03-02").2.2.2.2
        (by rw [hbad]; simp)],
    (validateInvestmentData_lists_all managerAB formDerived 3 4 "2024-03-02").2.2.2.1
      validate_formDerived⟩

/-! ## The category rule -/

/-- C15 refuted at an explicit input: the category `crypto` is not empty and not in the
enumerated set, yet the form passes `validateInvestmentData` and the holding is added. -/
theorem addInvestment_unlisted_category :
    formCrypto.investmentType ≠ "" ∧ formCrypto.investmentType ∉ categories ∧
    validateInvestmentData (mkFormData formCrypto 3 4 "2024-03-02") formCrypto.mode
      formCrypto.currentValue formCrypto.performancePercent = [] ∧
    addInvestment managerAB formCrypto 3 4 "2024-03-02" =
      ({ managerAB with investments := [holdingA, holdingB, holdingCrypto] },
        Notice.investmentAdded) := by
  have hval : validateInvestmentData (mkFormData formCrypto 3 4 "2024-03-02") formCrypto.mode
      formCrypto.currentValue formCrypto.performancePercent = [] := by
    simp [validateInvestmentData, mkFormData, formCrypto, orNull, JSNum.truthy, utf16Length]
  have hdata : mkFormData formCrypto 3 4 "2024-03-02" = holdingCrypto := by
    simp [mkFormData, formCrypto, holdingCrypto, orNull, JSNum.truthy]
  refine ⟨by decide, by decide, hval, ?_⟩
  rw [hdata] at hval
  simp [addInvestment, hval, hdata, managerAB]

/-- C15 as amended: `validateInvestmentData` reports the category rule exactly when the
category is empty, whether or not a non-empty category is in the enumerated set; the holding
added on success carries the category of the form as it is; and a form with a non-empty
category passes exactly when it violates none of the other rules. -/
theorem category_checked_for_presence_only (m : Manager) (f : InvestmentForm) (tId tStamp : Nat)
    (today : String) :
    (ValidationError.typeMissing ∈ validateInvestmentData (mkFormData f tId tStamp today) f.mode
      f.currentValue f.performancePercent ↔ f.investmentType = "") ∧
    (f.investmentType ≠ "" →
      (validateInvestmentData (mkFormData f tId tStamp today) f.mode f.currentValue
        f.performancePercent = [] ↔
        ∀ r ∈ ruleViolations f, r.2 ≠ ValidationError.typeMissing → r.1 = false)) ∧
    (validateInvestmentData (mkFormData f tId tStamp today) f.mode f.currentValue
      f.performancePercent = [] →
      ∃ h : Investment,
        addInvestment m f tId tStamp today =
          ({ m with investments := m.investments ++ [h] }, Notice.investmentAdded) ∧
        h.type = f.investmentType) := by
  have heq := validateInvestmentData_eq_violatedRules f tId tStamp today
  refine ⟨?_, ?_, ?_⟩
  · rw [heq]
    by_cases hmode : f.mode = "new" <;>
    simp [violatedRules, ruleViolations, hmode]
  · intro hne
    rw [heq, violatedRules, List.map_eq_nil_iff, List.filter_eq_nil_iff]
    constructor
    · intro h r hr _
      exact Bool.eq_false_iff.mpr (h r hr)
    · intro h r hr
      by_cases hr2 : r.2 = ValidationError.typeMissing
      · have hr1 : r.1 = false := by
          by_cases hmode : f.mode = "new" <;>
          simp [ruleViolations, hmode] at hr <;>
          rcases hr with hr | hr | hr | hr | hr | hr | hr <;>
          simp_all
        rw [hr1]
        decide
      · rw [h r hr hr2]
        decide
  · intro hval
    refine ⟨mkFormData f tId tStamp today, by simp [addInvestment, hval], ?_⟩
    by_cases hmode : f.mode = "new" <;> simp [mkFormData, hmode]

/-- C15 as amended, at `formCrypto`: no category message, and the holding is added with the
category `crypto`. -/
theorem category_checked_for_presence_only_witness :
    formCrypto.investmentType ≠ "" ∧
    validateInvestmentData (mkFormData formCrypto 3 4 "2024-03-02") formCrypto.mode
      formCrypto.currentValue formCrypto.performancePercent = [] ∧
    (∀ r ∈ ruleViolations formCrypto, r.2 ≠ ValidationError.typeMissing → r.1 = false) ∧
    ∃ h : Investment,
      addInvestment managerAB formCrypto 3 4 "2024-03-02" =
        ({ managerAB with investments := managerAB.investments ++ [h] },
          Notice.investmentAdded) ∧
      h.type = formCrypto.investmentType :=
  have hval : validateInvestmentData (mkFormData formCrypto 3 4 "2024-03-02") formCrypto.mode
      formCrypto.currentValue formCrypto.performancePercent = [] := by
    simp [validateInvestmentData, mkFormData, formCrypto, orNull, JSNum.truthy, utf16Length]
  ⟨by decide, hval,
    ((category_checked_for_presence_only managerAB formCrypto 3 4 "2024-03-02").2.1
      (by decide)).mp hval,
    (category_checked_for_presence_only managerAB formCrypto 3 4 "2024-03-02").2.2 hval⟩

/-! ## Revaluation -/

/-- The list before and after `modifyFirst`, split at the element found. -/
theorem modifyFirst_split (q : Investment → Bool) (g : Investment → Investment)
    (l : List Investment) (h : Investment) (hfind : l.find? q = some h) :
    ∃ pre post, l = pre ++ h :: post ∧ (∀ x ∈ pre, q x = false) ∧
      modifyFirst q g l = pre ++ g h :: post := by
  induction l with
  | nil => simp at hfind
  | cons x xs ih =>
    by_cases hx : q x = true
    · have hxh : x = h := by simpa [List.find?, hx] using hfind
      subst hxh
      exact ⟨[], xs, rfl, by simp, by simp [modifyFirst, hx]⟩
    · have hx2 : q x = false := Bool.eq_false_iff.mpr hx
      have hrest : xs.find? q = some h := by simpa [List.find?, hx2] using hfind
      obtain ⟨pre, post, hl, hpre, hmod⟩ := ih hrest
      refine ⟨x :: pre, post, by rw [hl]; rfl, ?_, by simp [modifyFirst, hx2, hmod]⟩
      intro y hy
      rcases List.mem_cons.mp hy with hy | hy
      · rw [hy]
        exact hx2
      · exact hpre y hy

/-- C16: `updateInvestment` on a ledger where the lookup by `id` returns `h` replaces `h`, at
its place, by `h` with `currentValue` set to the new value and the entry `(date, value)`
appended to its history (one entry more, the earlier ones untouched); its amount, quantity
and other fields, the holdings before and after it, the divestments, the dividends and the
pending quote are unchanged.  When no holding has that id, or the id field does not parse, the
manager is returned unchanged. -/
theorem updateInvestment_revalues (m : Manager) (id : Nat) (v : JSNum) (date : String)
    (now : Nat) :
    (∀ h : Investment, m.investments.find? (fun inv => inv.id == id) = some h →
      ∃ (pre post : List Investment) (h1 : Investment),
        m.investments = pre ++ h :: post ∧ (∀ x ∈ pre, x.id ≠ id) ∧
        (updateInvestment m (some id) v date now).1.investments = pre ++ h1 :: post ∧
        h1.currentValue = v ∧
        h1.updates = h.updates ++ [{ date := date, value := v, timestamp := now, note := none }] ∧
        h1.updates.length = h.updates.length + 1 ∧
        h1.amount = h.amount ∧ h1.quantity = h.quantity ∧ h1.id = h.id ∧ h1.name = h.name ∧
        h1.type = h.type ∧ h1.date = h.date ∧ h1.notes = h.notes ∧
        h1.isExistingInvestment = h.isExistingInvestment ∧
        h1.initialPerformance = h.initialPerformance ∧
        (updateInvestment m (some id) v date now).1.divestments = m.divestments ∧
        (updateInvestment m (some id) v date now).1.dividends = m.dividends ∧
        (updateInvestment m (some id) v date now).1.pendingDivestment = m.pendingDivestment) ∧
    ((∀ x ∈ m.investments, x.id ≠ id) → (updateInvestment m (some id) v date now).1 = m) ∧
    (updateInvestment m none v date now).1 = m := by
  refine ⟨?_, ?_, rfl⟩
  · intro h hfind
    obtain ⟨pre, post, hl, hpre, hmod⟩ := modifyFirst_split (fun inv => inv.id == id)
      (fun investment => { investment with
        currentValue := v
        updates := investment.updates ++
          [{ date := date, value := v, timestamp := now, note := none }] })
      m.investments h hfind
    refine ⟨pre, post, { h with
        currentValue := v
        updates := h.updates ++ [{ date := date, value := v, timestamp := now, note := none }] },
      hl, ?_, ?_, rfl, rfl, ?_, rfl, rfl, rfl, rfl, rfl, rfl, rfl, rfl, rfl, ?_, ?_, ?_⟩
    · intro x hx
      simpa using hpre x hx
    · simp only [updateInvestment, hfind]
      exact hmod
    · simp
    · simp [updateInvestment, hfind]
    · simp [updateInvestment, hfind]
    · simp [updateInvestment, hfind]
  · intro hno
    have hnone : m.investments.find? (fun inv => inv.id == id) = none := by
      rw [List.find?_eq_none]
      intro x hx
      simpa using hno x hx
    simp [updateInvestment, hnone]

/-- C16 at the revaluation of `holdingA` to 500 at time 5. -/
theorem updateInvestment_revalues_witness :
    managerAB.investments.find? (fun inv => inv.id == 1) = some holdingA ∧
    (updateInvestment managerAB (some 1) (JSNum.fin 500) "2024-06-02" 5).1.investments =
      [holdingARevalued, holdingB] ∧
    ∃ (pre post : List Investment) (h1 : Investment),
      managerAB.investments = pre ++ holdingA :: post ∧ (∀ x ∈ pre, x.id ≠ 1) ∧
      (updateInvestment managerAB (some 1) (JSNum.fin 500) "2024-06-02" 5).1.investments =
        pre ++ h1 :: post ∧
      h1.currentValue = JSNum.fin 500 ∧
      h1.updates = holdingA.updates ++
        [{ date := "2024-06-02", value := JSNum.fin 500, timestamp := 5, note := none }] ∧
      h1.updates.length = holdingA.updates.length + 1 ∧
      h1.amount = holdingA.amount ∧ h1.quantity = holdingA.quantity ∧ h1.id = holdingA.id ∧
      h1.name = holdingA.name ∧ h1.type = holdingA.type ∧ h1.date = holdingA.date ∧
      h1.notes = holdingA.notes ∧
      h1.isExistingInvestment = holdingA.isExistingInvestment ∧
      h1.initialPerformance = holdingA.initialPerformance ∧
      (updateInvestment managerAB (some 1) (JSNum.fin 500) "2024-06-02" 5).1.divestments =
        managerAB.divestments ∧
      (updateInvestment managerAB (some 1) (JSNum.fin 500) "2024-06-02" 5).1.dividends =
        managerAB.dividends ∧
      (updateInvestment managerAB (some 1) (JSNum.fin 500) "2024-06-02" 5).1.pendingDivestment =
        managerAB.pendingDivestment :=
  ⟨by simp [managerAB, holdingA],
    by simp [updateInvestment, modifyFirst, managerAB, holdingA, holdingB, holdingARevalued],
    (updateInvestment_revalues managerAB 1 (JSNum.fin 500) "2024-06-02" 5).1 holdingA
      (by simp [managerAB, holdingA])⟩

/-! ## Invariants across a partial divestment -/

/-- Quote and confirmation of an accepted partial divestment on a holding with a finite
current value `c`: the amount is a finite `d` with `0 < d <= c`, and the holding found
afterwards under the same id is `applyPartialDivestment` of the old one. -/
theorem confirm_after_partial_quote (m : Manager) (f : DivestmentForm) (h : Investment)
    (id : Nat) (c : ℚ) (tId tStamp tUpdate : Nat)
    (hsel : f.selectInvestment = some id) (hty : f.divestmentType ≠ "")
    (hnt : f.divestmentType ≠ "total") (hdate : f.divestmentDate ≠ "")
    (hfind : m.investments.find? (fun inv => inv.id == id) = some h)
    (hcv : h.currentValue = JSNum.fin c)
    (hacc : (calculateDivestment m f).2 = Notice.quoteDisplayed) :
    ∃ d : ℚ, f.divestmentAmount = JSNum.fin d ∧ 0 < d ∧ d ≤ c ∧
      (confirmDivestment (calculateDivestment m f).1 tId tStamp tUpdate).2 =
        Notice.divestmentRecorded ∧
      (confirmDivestment (calculateDivestment m f).1 tId tStamp tUpdate).1.investments.find?
        (fun inv => inv.id == id) =
        some (applyPartialDivestment (mkPending id h f.divestmentType f.divestmentDate
          (JSNum.fin d) (JSNum.mul h.amount (JSNum.fin (d / c)))) tUpdate h) := by
  obtain ⟨hg1, hg2, hcalc⟩ :=
    calculateDivestment_partial_accepted m f h id hsel hty hnt hdate hfind hacc
  have hconf := confirmDivestment_partial
    { m with pendingDivestment := some (mkPending id h f.divestmentType f.divestmentDate
            f.divestmentAmount
            (JSNum.mul h.amount (JSNum.div f.divestmentAmount h.currentValue))) }
    (mkPending id h f.divestmentType f.divestmentDate f.divestmentAmount
      (JSNum.mul h.amount (JSNum.div f.divestmentAmount h.currentValue)))
    h tId tStamp tUpdate rfl hnt hfind
  have hid : h.id = id := by
    have := List.find?_some hfind
    simpa using this
  rw [hcv] at hg2
  obtain ⟨d, hd, hd0, hdc⟩ := JSNum.accepted_amount_fin _ c hg1 hg2
  have hcne : c ≠ 0 := by linarith
  refine ⟨d, hd, hd0, hdc, by rw [hcalc, hconf], ?_⟩
  rw [hcalc, hconf]
  have hfm := find_modifyFirst (fun inv => inv.id == id)
    (applyPartialDivestment (mkPending id h f.divestmentType f.divestmentDate f.divestmentAmount
      (JSNum.mul h.amount (JSNum.div f.divestmentAmount h.currentValue))) tUpdate)
    m.investments h hfind (by simpa [applyPartialDivestment, mkPending] using hid)
  rw [hcv, hd, JSNum.div_fin d c hcne] at hfm
  rw [hcv, hd, JSNum.div_fin d c hcne]
  exact hfm

/-- C17: for a holding found by its id with finite `amount >= 0` and `currentValue > 0` and an
accepted partial quote of `d`, confirmed right after the quote: the divested cost
`amount * d / currentValue` is at most `amount`, and the holding is left with `amount >= 0`
and `currentValue >= 0`. -/
theorem partial_divestment_keeps_nonneg (m : Manager) (f : DivestmentForm) (h : Investment)
    (id : Nat) (a c : ℚ) (tId tStamp tUpdate : Nat)
    (hsel : f.selectInvestment = some id) (hty : f.divestmentType ≠ "")
    (hnt : f.divestmentType ≠ "total") (hdate : f.divestmentDate ≠ "")
    (hfind : m.investments.find? (fun inv => inv.id == id) = some h)
    (ha : h.amount = JSNum.fin a) (ha0 : 0 ≤ a)
    (hcv : h.currentValue = JSNum.fin c) (hc0 : 0 < c)
    (hacc : (calculateDivestment m f).2 = Notice.quoteDisplayed) :
    ∃ (h1 : Investment) (d : ℚ),
      f.divestmentAmount = JSNum.fin d ∧ a * (d / c) ≤ a ∧
      (confirmDivestment (calculateDivestment m f).1 tId tStamp tUpdate).1.investments.find?
        (fun inv => inv.id == id) = some h1 ∧
      h1.amount = JSNum.fin (a - a * (d / c)) ∧ h1.currentValue = JSNum.fin (c - d) ∧
      JSNum.ge h1.amount (JSNum.fin 0) = true ∧
      JSNum.ge h1.currentValue (JSNum.fin 0) = true := by
  obtain ⟨d, hd, hd0, hdc, -, hfound⟩ :=
    confirm_after_partial_quote m f h id c tId tStamp tUpdate hsel hty hnt hdate hfind hcv hacc
  have hratio : d / c ≤ 1 := (div_le_one hc0).mpr hdc
  have hcost : a * (d / c) ≤ a := by
    calc a * (d / c) ≤ a * 1 := mul_le_mul_of_nonneg_left hratio ha0
      _ = a := mul_one a
  refine ⟨_, d, hd, hcost, hfound, ?_, ?_, ?_, ?_⟩
  · simp [applyPartialDivestment, mkPending, ha]
  · simp [applyPartialDivestment, mkPending, hcv]
  · simp only [applyPartialDivestment, mkPending, ha, JSNum.mul_fin, JSNum.sub_fin, JSNum.ge,
      JSNum.le_fin]
    exact decide_eq_true (by linarith)
  · simp only [applyPartialDivestment, mkPending, hcv, JSNum.sub_fin, JSNum.ge, JSNum.le_fin]
    exact decide_eq_true (by linarith)

/-- C17 at the holding (1000, 1500) and the quote of 600: the holding is left at
(600, 900). -/
theorem partial_divestment_keeps_nonneg_witness :
    formPartialA.selectInvestment = some 1 ∧ formPartialA.divestmentType ≠ "" ∧
    formPartialA.divestmentType ≠ "total" ∧ formPartialA.divestmentDate ≠ "" ∧
    managerAB.investments.find? (fun inv => inv.id == 1) = some holdingA ∧
    holdingA.amount = JSNum.fin 1000 ∧ (0 : ℚ) ≤ 1000 ∧
    holdingA.currentValue = JSNum.fin 1500 ∧ (0 : ℚ) < 1500 ∧
    (calculateDivestment managerAB formPartialA).2 = Notice.quoteDisplayed ∧
    ∃ (h1 : Investment) (d : ℚ),
      formPartialA.divestmentAmount = JSNum.fin d ∧ 1000 * (d / 1500) ≤ 1000 ∧
      (confirmDivestment (calculateDivestment managerAB formPartialA).1 7 8 9).1.investments.find?
        (fun inv => inv.id == 1) = some h1 ∧
      h1.amount = JSNum.fin (1000 - 1000 * (d / 1500)) ∧
      h1.currentValue = JSNum.fin (1500 - d) ∧
      JSNum.ge h1.amount (JSNum.fin 0) = true ∧
      JSNum.ge h1.currentValue (JSNum.fin 0) = true :=
  ⟨rfl, by decide, by decide, by decide, by simp [managerAB, holdingA], rfl, by norm_num, rfl,
    by norm_num, by rw [calculateDivestment_partialA],
    partial_divestment_keeps_nonneg managerAB formPartialA holdingA 1 1000 1500 7 8 9 rfl
      (by decide) (by decide) (by decide) (by simp [managerAB, holdingA]) rfl (by norm_num) rfl
      (by norm_num) (by rw [calculateDivestment_partialA])⟩

/-- The partial quote of the whole value of `holdingB`, evaluated, and its confirmation. -/
theorem confirmDivestment_partialAllB :
    (calculateDivestment managerAB formPartialAllB).2 = Notice.quoteDisplayed ∧
    (confirmDivestment (calculateDivestment managerAB formPartialAllB).1 7 8 9).2 =
      Notice.divestmentRecorded ∧
    (confirmDivestment (calculateDivestment managerAB formPartialAllB).1 7 8 9).1.investments =
      [holdingA, holdingBEmptied] := by
  have hcalc : calculateDivestment managerAB formPartialAllB =
      ({ managerAB with pendingDivestment := some (mkPending 2 holdingB "partial" "2024-06-01"
          (JSNum.fin 400) (JSNum.fin 500)) }, Notice.quoteDisplayed) := by
    simp [calculateDivestment, managerAB, formPartialAllB, holdingA, holdingB, JSNum.div_fin]
  rw [hcalc]
  refine ⟨rfl, ?_, ?_⟩
  · simp [confirmDivestment, mkPending, managerAB, holdingA, holdingB]
  · simp [confirmDivestment, mkPending, managerAB, holdingA, holdingB, holdingBEmptied,
      modifyFirst, applyPartialDivestment, JSNum.div_fin, JSNum.truthy]

/-- C18 refuted at an explicit input: `holdingB` has quantity 10 and current value 400; the
partial quote of 400 is accepted, and after its confirmation the quantity is 0, which is not
`> 0`. -/
theorem partial_divestment_quantity_zero :
    holdingB.quantity = some (JSNum.fin 10) ∧ JSNum.gt (JSNum.fin 10) (JSNum.fin 0) = true ∧
    JSNum.lt (JSNum.fin 0) formPartialAllB.divestmentAmount = true ∧
    JSNum.le formPartialAllB.divestmentAmount holdingB.currentValue = true ∧
    (calculateDivestment managerAB formPartialAllB).2 = Notice.quoteDisplayed ∧
    (confirmDivestment (calculateDivestment managerAB formPartialAllB).1 7 8 9).1.investments =
      [holdingA, holdingBEmptied] ∧
    holdingBEmptied.quantity = some (JSNum.fin 0) ∧
    JSNum.gt (JSNum.fin 0) (JSNum.fin 0) = false := by
  refine ⟨rfl, by simp, by simp [formPartialAllB], by simp [formPartialAllB, holdingB],
    confirmDivestment_partialAllB.1, confirmDivestment_partialAllB.2.2, rfl, by simp⟩

/-- C18 as amended: for a holding found by its id with a finite current value and a finite
quantity `q > 0`, and an accepted partial quote of `d` confirmed right after the quote: when
`d < currentValue` the quantity afterwards is `q * (1 - d / currentValue)`, still `> 0`;
when `d = currentValue` the quantity afterwards is 0. -/
theorem partial_divestment_quantity (m : Manager) (f : DivestmentForm) (h : Investment)
    (id : Nat) (q c : ℚ) (tId tStamp tUpdate : Nat)
    (hsel : f.selectInvestment = some id) (hty : f.divestmentType ≠ "")
    (hnt : f.divestmentType ≠ "total") (hdate : f.divestmentDate ≠ "")
    (hfind : m.investments.find? (fun inv => inv.id == id) = some h)
    (hq : h.quantity = some (JSNum.fin q)) (hq0 : 0 < q)
    (hcv : h.currentValue = JSNum.fin c)
    (hacc : (calculateDivestment m f).2 = Notice.quoteDisplayed) :
    ∃ (h1 : Investment) (d : ℚ),
      f.divestmentAmount = JSNum.fin d ∧ 0 < d ∧ d ≤ c ∧
      (confirmDivestment (calculateDivestment m f).1 tId tStamp tUpdate).1.investments.find?
        (fun inv => inv.id == id) = some h1 ∧
      h1.quantity = some (JSNum.fin (q * (1 - d / c))) ∧
      (d < c → 0 < q * (1 - d / c) ∧
        JSNum.gt (JSNum.fin (q * (1 - d / c))) (JSNum.fin 0) = true) ∧
      (d = c → h1.quantity = some (JSNum.fin 0)) := by
  obtain ⟨d, hd, hd0, hdc, -, hfound⟩ :=
    confirm_after_partial_quote m f h id c tId tStamp tUpdate hsel hty hnt hdate hfind hcv hacc
  have hc0 : 0 < c := lt_of_lt_of_le hd0 hdc
  have hcne : c ≠ 0 := ne_of_gt hc0
  have hqne : q ≠ 0 := ne_of_gt hq0
  have hquant : (applyPartialDivestment (mkPending id h f.divestmentType f.divestmentDate
      (JSNum.fin d) (JSNum.mul h.amount (JSNum.fin (d / c)))) tUpdate h).quantity =
      some (JSNum.fin (q * (1 - d / c))) := by
    simp [applyPartialDivestment, mkPending, hq, hcv, hqne, JSNum.div_fin d c hcne]
  refine ⟨_, d, hd, hd0, hdc, hfound, hquant, ?_, ?_⟩
  · intro hlt
    have hratio : d / c < 1 := (div_lt_one hc0).mpr hlt
    have hpos : 0 < q * (1 - d / c) := mul_pos hq0 (by linarith)
    exact ⟨hpos, by simpa using hpos⟩
  · intro heq
    rw [hquant, heq, div_self hcne]
    simp

/-- C18 as amended, at `holdingB` (quantity 10, current value 400) and the quote of 100. -/
theorem partial_divestment_quantity_witness :
    formPartialB.selectInvestment = some 2 ∧ formPartialB.divestmentType ≠ "" ∧
    formPartialB.divestmentType ≠ "total" ∧ formPartialB.divestmentDate ≠ "" ∧
    managerAB.investments.find? (fun inv => inv.id == 2) = some holdingB ∧
    holdingB.quantity = some (JSNum.fin 10) ∧ (0 : ℚ) < 10 ∧
    holdingB.currentValue = JSNum.fin 400 ∧
    (calculateDivestment managerAB formPartialB).2 = Notice.quoteDisplayed ∧
    ∃ (h1 : Investment) (d : ℚ),
      formPartialB.divestmentAmount = JSNum.fin d ∧ 0 < d ∧ d ≤ 400 ∧
      (confirmDivestment (calculateDivestment managerAB formPartialB).1 7 8 9).1.investments.find?
        (fun inv => inv.id == 2) = some h1 ∧
      h1.quantity = some (JSNum.fin (10 * (1 - d / 400))) ∧
      (d < 400 → 0 < 10 * (1 - d / 400) ∧
        JSNum.gt (JSNum.fin (10 * (1 - d / 400))) (JSNum.fin 0) = true) ∧
      (d = 400 → h1.quantity = some (JSNum.fin 0)) :=
  have hfind : managerAB.investments.find? (fun inv => inv.id == 2) = some holdingB := by
    simp [managerAB, holdingA, holdingB]
  have hacc : (calculateDivestment managerAB formPartialB).2 = Notice.quoteDisplayed := by
    simp [calculateDivestment, managerAB, formPartialB, holdingA, holdingB]
    norm_num
  ⟨rfl, by decide, by decide, by decide, hfind, rfl, by norm_num, rfl, hacc,
    partial_divestment_quantity managerAB formPartialB holdingB 2 10 400 7 8 9 rfl (by decide)
      (by decide) (by decide) hfind rfl (by norm_num) rfl hacc⟩

/-! ## Dividends -/

/-- The value of `x || 0` is never `NaN`. -/
theorem orZero_not_nan (x : JSNum) : (orZero x).isNaN = false := by
  cases x with
  | nan => rfl
  | ninf => rfl
  | pinf => rfl
  | fin q =>
    by_cases hq : q = 0
    · simp [orZero, hq, JSNum.isNaN]
    · simp [orZero, hq, JSNum.isNaN]

/-- For a number, failing `t < 0` is passing `t >= 0`. -/
theorem JSNum.not_lt_zero_iff (t : JSNum) (ht : t.isNaN = false) :
    JSNum.lt t (JSNum.fin 0) = false ↔ JSNum.ge t (JSNum.fin 0) = true := by
  cases t with
  | nan => simp [JSNum.isNaN] at ht
  | ninf => simp [JSNum.lt, JSNum.ge, JSNum.le]
  | pinf => simp [JSNum.lt, JSNum.ge, JSNum.le]
  | fin q => simp [JSNum.ge]

/-- For two numbers, failing `t >= g` is passing `t < g`. -/
theorem JSNum.not_ge_iff (t g : JSNum) (ht : t.isNaN = false) (hg : g.isNaN = false) :
    JSNum.ge t g = false ↔ JSNum.lt t g = true := by
  cases t <;> cases g <;> simp [JSNum.isNaN] at ht hg <;> simp [JSNum.ge, JSNum.le, JSNum.lt]

/-- A number that is `> 0` is not `NaN`. -/
theorem JSNum.not_nan_of_gt (g : JSNum) (hg : JSNum.gt g (JSNum.fin 0) = true) :
    g.isNaN = false := by
  cases g with
  | nan => simp [JSNum.gt, JSNum.lt] at hg
  | ninf => rfl
  | pinf => rfl
  | fin q => rfl

/-- The guards of `addDividend` in the words of the claim. -/
theorem addDividend_guards (g x : JSNum) :
    ((g.truthy = false ∨ JSNum.le g (JSNum.fin 0) = true) ↔
      ¬ JSNum.gt g (JSNum.fin 0) = true) ∧
    (JSNum.gt g (JSNum.fin 0) = true →
      ((JSNum.lt (orZero x) (JSNum.fin 0) = false ∧ JSNum.ge (orZero x) g = false) ↔
        (JSNum.ge (orZero x) (JSNum.fin 0) = true ∧ JSNum.lt (orZero x) g = true))) := by
  constructor
  · have h := JSNum.not_truthy_or_le_zero g
    cases hgt : JSNum.gt g (JSNum.fin 0) <;> cases htr : g.truthy <;>
      cases hle : JSNum.le g (JSNum.fin 0) <;> simp [hgt, htr, hle] at h ⊢
  · intro hg
    rw [JSNum.not_lt_zero_iff _ (orZero_not_nan x),
      JSNum.not_ge_iff _ _ (orZero_not_nan x) (JSNum.not_nan_of_gt g hg)]

/-- The method `addDividend` by cases: it records exactly when the id is not zero, the date
is given, the amount is `> 0`, the taxes are `>= 0` and `<` the amount, and the lookup
succeeds; otherwise it returns the manager as it was. -/
theorem addDividend_cases (m : Manager) (f : DividendForm) (tId tStamp : Nat) :
    (∃ (i : Nat) (h : Investment),
      f.selectDividendInvestment = some i ∧ i ≠ 0 ∧ f.dividendDate ≠ "" ∧
      JSNum.gt f.dividendAmount (JSNum.fin 0) = true ∧
      JSNum.ge (orZero f.dividendTaxes) (JSNum.fin 0) = true ∧
      JSNum.lt (orZero f.dividendTaxes) f.dividendAmount = true ∧
      m.investments.find? (fun inv => inv.id == i) = some h ∧
      addDividend m f tId tStamp =
        ({ m with dividends := m.dividends ++
            [{ id := tId, investmentId := i, investmentName := h.name, date := f.dividendDate,
               grossAmount := f.dividendAmount, taxesWithheld := orZero f.dividendTaxes,
               netAmount := JSNum.sub f.dividendAmount (orZero f.dividendTaxes),
               notes := f.dividendNotes, timestamp := tStamp }] },
          Notice.dividendRecorded)) ∨
    ((addDividend m f tId tStamp).1 = m ∧
      (addDividend m f tId tStamp).2 ≠ Notice.dividendRecorded ∧
      ¬ ∃ (i : Nat) (h : Investment),
        f.selectDividendInvestment = some i ∧ i ≠ 0 ∧ f.dividendDate ≠ "" ∧
        JSNum.gt f.dividendAmount (JSNum.fin 0) = true ∧
        JSNum.ge (orZero f.dividendTaxes) (JSNum.fin 0) = true ∧
        JSNum.lt (orZero f.dividendTaxes) f.dividendAmount = true ∧
        m.investments.find? (fun inv => inv.id == i) = some h) := by
  obtain ⟨hG1, hG2⟩ := addDividend_guards f.dividendAmount f.dividendTaxes
  cases hsel : f.selectDividendInvestment with
  | none =>
    right
    refine ⟨by simp [addDividend, hsel], by simp [addDividend, hsel], ?_⟩
    rintro ⟨i, h, hi, -⟩
    cases hi
  | some i =>
    by_cases hbad : i = 0 ∨ f.dividendDate = "" ∨ f.dividendAmount.truthy = false ∨
        JSNum.le f.dividendAmount (JSNum.fin 0) = true
    · right
      refine ⟨by simp [addDividend, hsel, hbad], by simp [addDividend, hsel, hbad], ?_⟩
      rintro ⟨j, h, hj, hj0, hdate, hg, -⟩
      have hij : i = j := Option.some.inj hj
      subst hij
      rcases hbad with hb | hb | hb
      · exact hj0 hb
      · exact hdate hb
      · exact (hG1.mp hb) hg
    · have hi0 : i ≠ 0 := fun h => hbad (Or.inl h)
      have hdate : f.dividendDate ≠ "" := fun h => hbad (Or.inr (Or.inl h))
      have hg : JSNum.gt f.dividendAmount (JSNum.fin 0) = true := by
        by_contra hng
        exact hbad (Or.inr (Or.inr (hG1.mpr hng)))
      by_cases hneg : JSNum.lt (orZero f.dividendTaxes) (JSNum.fin 0) = true
      · right
        refine ⟨by simp [addDividend, hsel, hbad, hneg], by simp [addDividend, hsel, hbad, hneg],
          ?_⟩
        rintro ⟨j, h, -, -, -, -, ht0, htg, -⟩
        have := ((hG2 hg).mpr ⟨ht0, htg⟩).1
        rw [this] at hneg
        exact absurd hneg (by decide)
      · by_cases hhigh : JSNum.ge (orZero f.dividendTaxes) f.dividendAmount = true
        · right
          refine ⟨by simp [addDividend, hsel, hbad, hneg, hhigh],
            by simp [addDividend, hsel, hbad, hneg, hhigh], ?_⟩
          rintro ⟨j, h, -, -, -, -, ht0, htg, -⟩
          have := ((hG2 hg).mpr ⟨ht0, htg⟩).2
          rw [this] at hhigh
          exact absurd hhigh (by decide)
        · have hcond := (hG2 hg).mp ⟨Bool.eq_false_iff.mpr hneg, Bool.eq_false_iff.mpr hhigh⟩
          cases hfind : m.investments.find? (fun inv => inv.id == i) with
          | none =>
            right
            refine ⟨by simp [addDividend, hsel, hbad, hneg, hhigh, hfind],
              by simp [addDividend, hsel, hbad, hneg, hhigh, hfind], ?_⟩
            rintro ⟨j, h, hj, -, -, -, -, -, hf⟩
            have hij : i = j := Option.some.inj hj
            subst hij
            rw [hfind] at hf
            cases hf
          | some h =>
            left
            exact ⟨i, h, rfl, hi0, hdate, hg, hcond.1, hcond.2, hfind,
              by simp [addDividend, hsel, hbad, hneg, hhigh, hfind]⟩

/-- With `0 <= t < g` the difference `g - t` is `> 0` and `<= g`. -/
theorem JSNum.net_bounds (g t : JSNum) (ht0 : JSNum.ge t (JSNum.fin 0) = true)
    (htg : JSNum.lt t g = true) :
    JSNum.gt (JSNum.sub g t) (JSNum.fin 0) = true ∧ JSNum.le (JSNum.sub g t) g = true := by
  cases t with
  | nan => simp [JSNum.lt] at htg
  | ninf => simp [JSNum.ge, JSNum.le] at ht0
  | pinf => cases g <;> simp [JSNum.lt] at htg
  | fin x =>
    cases g with
    | nan => simp [JSNum.lt] at htg
    | ninf => simp [JSNum.lt] at htg
    | pinf => simp [JSNum.sub, JSNum.neg, JSNum.add, JSNum.gt, JSNum.lt, JSNum.le]
    | fin y =>
      have hx : 0 ≤ x := by simpa [JSNum.ge] using ht0
      have hxy : x < y := by simpa using htg
      simp only [JSNum.sub_fin, JSNum.gt_fin, JSNum.le_fin]
      exact ⟨decide_eq_true (by linarith), decide_eq_true (by linarith)⟩

/-- C19: in a ledger whose ids are not zero, `addDividend` records the dividend if and only if
`grossAmount > 0`, `taxesWithheld >= 0` (a blank field counting as 0),
`taxesWithheld < grossAmount`, a date is given and a holding has the selected id; otherwise
the manager, and so the dividend list, is unchanged.  When it records, exactly one record is
appended, with `netAmount = grossAmount - taxesWithheld`, `0 < netAmount <= grossAmount`,
the id and the name of the holding found, and the holdings are as before. -/
theorem addDividend_iff (m : Manager) (f : DividendForm) (tId tStamp : Nat)
    (hids : ∀ inv ∈ m.investments, inv.id ≠ 0) :
    ((addDividend m f tId tStamp).2 = Notice.dividendRecorded ↔
      (JSNum.gt f.dividendAmount (JSNum.fin 0) = true ∧
        JSNum.ge (orZero f.dividendTaxes) (JSNum.fin 0) = true ∧
        JSNum.lt (orZero f.dividendTaxes) f.dividendAmount = true ∧
        f.dividendDate ≠ "" ∧
        ∃ h ∈ m.investments, f.selectDividendInvestment = some h.id)) ∧
    ((addDividend m f tId tStamp).2 ≠ Notice.dividendRecorded →
      (addDividend m f tId tStamp).1 = m) ∧
    ((addDividend m f tId tStamp).2 = Notice.dividendRecorded →
      ∃ (h : Investment) (d : Dividend),
        h ∈ m.investments ∧ f.selectDividendInvestment = some h.id ∧
        (addDividend m f tId tStamp).1 = { m with dividends := m.dividends ++ [d] } ∧
        d.grossAmount = f.dividendAmount ∧ d.taxesWithheld = orZero f.dividendTaxes ∧
        d.netAmount = JSNum.sub d.grossAmount d.taxesWithheld ∧
        JSNum.gt d.netAmount (JSNum.fin 0) = true ∧
        JSNum.le d.netAmount d.grossAmount = true ∧
        d.investmentId = h.id ∧ d.investmentName = h.name ∧ d.date = f.dividendDate ∧
        (addDividend m f tId tStamp).1.investments = m.investments) := by
  rcases addDividend_cases m f tId tStamp with
    ⟨i, h, hsel, hi0, hdate, hg, ht0, htg, hfind, hres⟩ | ⟨hsame, hnot, hno⟩
  · have hmem : h ∈ m.investments := List.mem_of_find?_eq_some hfind
    have hid : h.id = i := by
      have := List.find?_some hfind
      simpa using this
    have hsel2 : f.selectDividendInvestment = some h.id := by rw [hid]; exact hsel
    obtain ⟨hn1, hn2⟩ := JSNum.net_bounds _ _ ht0 htg
    refine ⟨⟨fun _ => ⟨hg, ht0, htg, hdate, h, hmem, hsel2⟩, fun _ => by rw [hres]⟩, ?_, ?_⟩
    · intro hne
      rw [hres] at hne
      exact absurd rfl hne
    · intro _
      exact ⟨h, _, hmem, hsel2, by rw [hres], rfl, rfl, rfl, hn1, hn2, hid.symm, rfl, rfl,
        by rw [hres]⟩
  · refine ⟨⟨fun hrec => absurd hrec hnot, ?_⟩, fun _ => hsame, fun hrec => absurd hrec hnot⟩
    rintro ⟨hg, ht0, htg, hdate, h, hmem, hsel⟩
    exfalso
    apply hno
    obtain ⟨h2, hf2⟩ : ∃ h2, m.investments.find? (fun inv => inv.id == h.id) = some h2 := by
      cases hf : m.investments.find? (fun inv => inv.id == h.id) with
      | none =>
        have := List.find?_eq_none.mp hf h hmem
        simp at this
      | some h2 => exact ⟨h2, rfl⟩
    exact ⟨h.id, h2, hsel, hids h hmem, hdate, hg, ht0, htg, hf2⟩

/-- The two example dividends, evaluated: 100 gross with 26 withheld is recorded with 74 net;
with 150 withheld it is refused. -/
theorem addDividend_examples :
    addDividend managerAE formDividend 7 8 =
      ({ managerAE with dividends := [dividendE] }, Notice.dividendRecorded) ∧
    addDividend managerAE formDividendOvertaxed 7 8 =
      (managerAE, Notice.dividendTaxesTooHigh) := by
  constructor
  · simp [addDividend, managerAE, formDividend, dividendE, holdingA, holdingE, orZero,
      JSNum.ge]
    norm_num
  · simp [addDividend, managerAE, formDividendOvertaxed, orZero, JSNum.ge]
    norm_num

/-- C19 at gross 100 and taxes 26 (recorded, net 74) and at taxes 150 (refused). -/
theorem addDividend_iff_witness :
    (∀ inv ∈ managerAE.investments, inv.id ≠ 0) ∧
    addDividend managerAE formDividend 7 8 =
      ({ managerAE with dividends := [dividendE] }, Notice.dividendRecorded) ∧
    dividendE.netAmount = JSNum.fin 74 ∧
    (addDividend managerAE formDividendOvertaxed 7 8).2 ≠ Notice.dividendRecorded ∧
    (addDividend managerAE formDividendOvertaxed 7 8).1 = managerAE ∧
    (JSNum.gt formDividend.dividendAmount (JSNum.fin 0) = true ∧
      JSNum.ge (orZero formDividend.dividendTaxes) (JSNum.fin 0) = true ∧
      JSNum.lt (orZero formDividend.dividendTaxes) formDividend.dividendAmount = true ∧
      formDividend.dividendDate ≠ "" ∧
      ∃ h ∈ managerAE.investments, formDividend.selectDividendInvestment = some h.id) :=
  have hids : ∀ inv ∈ managerAE.investments, inv.id ≠ 0 := by
    simp [managerAE, holdingA, holdingE]
  have hover : (addDividend managerAE formDividendOvertaxed 7 8).2 ≠ Notice.dividendRecorded := by
    rw [addDividend_examples.2]
    decide
  ⟨hids, addDividend_examples.1, rfl, hover,
    (addDividend_iff managerAE formDividendOvertaxed 7 8 hids).2.1 hover,
    (addDividend_iff managerAE formDividend 7 8 hids).1.mp (by rw [addDividend_examples.1])⟩

/-- C20 refuted at an explicit input: `holdingA` is a fund, not a dividend-paying holding,
and a dividend with valid date, gross amount and taxes recorded against it is accepted: the
record is appended. -/
theorem addDividend_on_fund_recorded :
    managerAE.investments.find? (fun inv => inv.id == 1) = some holdingA ∧
    isDividendInvestment holdingA.type = false ∧
    addDividend managerAE formDividendOnFund 7 8 =
      ({ managerAE with dividends := [dividendOnFund] }, Notice.dividendRecorded) := by
  refine ⟨by simp [managerAE, holdingA], by decide, ?_⟩
  simp [addDividend, managerAE, formDividendOnFund, dividendOnFund, holdingA, holdingE, orZero,
    JSNum.ge]
  norm_num

/-- C20 as amended: `addDividend` does not look at the category of the holding: for a holding
found by a non-zero id, whatever its category, with a date, a gross amount `> 0` and taxes
`>= 0` and `<` the gross amount, the record is appended.  The restriction to dividend-paying
holdings is in the options offered by `populateDividendInvestmentSelect`: they are exactly
the holdings of the ledger whose category is `azione-dividendi`, `etf-dividendi` or `reit`. -/
theorem addDividend_ignores_category (m : Manager) (f : DividendForm) (tId tStamp : Nat)
    (i : Nat) (h : Investment)
    (hsel : f.selectDividendInvestment = some i) (hi0 : i ≠ 0) (hdate : f.dividendDate ≠ "")
    (hg : JSNum.gt f.dividendAmount (JSNum.fin 0) = true)
    (ht0 : JSNum.ge (orZero f.dividendTaxes) (JSNum.fin 0) = true)
    (htg : JSNum.lt (orZero f.dividendTaxes) f.dividendAmount = true)
    (hfind : m.investments.find? (fun inv => inv.id == i) = some h) :
    (addDividend m f tId tStamp).2 = Notice.dividendRecorded ∧
    (∃ d : Dividend, (addDividend m f tId tStamp).1.dividends = m.dividends ++ [d] ∧
      d.investmentId = i ∧ d.investmentName = h.name) ∧
    (∀ x : Investment, x ∈ dividendInvestments m ↔
      (x ∈ m.investments ∧ isDividendInvestment x.type = true)) ∧
    (∀ t : String, isDividendInvestment t = true ↔
      (t = "azione-dividendi" ∨ t = "etf-dividendi" ∨ t = "reit")) := by
  have hrec : addDividend m f tId tStamp =
      ({ m with dividends := m.dividends ++
          [{ id := tId, investmentId := i, investmentName := h.name, date := f.dividendDate,
             grossAmount := f.dividendAmount, taxesWithheld := orZero f.dividendTaxes,
             netAmount := JSNum.sub f.dividendAmount (orZero f.dividendTaxes),
             notes := f.dividendNotes, timestamp := tStamp }] },
        Notice.dividendRecorded) := by
    rcases addDividend_cases m f tId tStamp with
      ⟨j, h2, hj, -, -, -, -, -, hf2, hres⟩ | ⟨-, -, hno⟩
    · have hij : i = j := Option.some.inj (hsel.symm.trans hj)
      subst hij
      have hh : h = h2 := Option.some.inj (hfind.symm.trans hf2)
      subst hh
      exact hres
    · exact absurd ⟨i, h, hsel, hi0, hdate, hg, ht0, htg, hfind⟩ hno
  refine ⟨by rw [hrec], ⟨_, by rw [hrec], rfl, rfl⟩, ?_, ?_⟩
  · intro x
    simp [dividendInvestments, List.mem_filter]
  · intro t
    simp [isDividendInvestment]

/-- C20 as amended, at the fund `holdingA`: the dividend is recorded although the options
offered are only `holdingE`. -/
theorem addDividend_ignores_category_witness :
    formDividendOnFund.selectDividendInvestment = some 1 ∧ (1 : Nat) ≠ 0 ∧
    formDividendOnFund.dividendDate ≠ "" ∧
    JSNum.gt formDividendOnFund.dividendAmount (JSNum.fin 0) = true ∧
    JSNum.ge (orZero formDividendOnFund.dividendTaxes) (JSNum.fin 0) = true ∧
    JSNum.lt (orZero formDividendOnFund.dividendTaxes) formDividendOnFund.dividendAmount = true ∧
    managerAE.investments.find? (fun inv => inv.id == 1) = some holdingA ∧
    dividendInvestments managerAE = [holdingE] ∧
    (addDividend managerAE formDividendOnFund 7 8).2 = Notice.dividendRecorded :=
  have hg : JSNum.gt formDividendOnFund.dividendAmount (JSNum.fin 0) = true := by
    simp [formDividendOnFund]
  have ht0 : JSNum.ge (orZero formDividendOnFund.dividendTaxes) (JSNum.fin 0) = true := by
    simp [formDividendOnFund, orZero, JSNum.ge]
  have htg : JSNum.lt (orZero formDividendOnFund.dividendTaxes)
      formDividendOnFund.dividendAmount = true := by
    simp [formDividendOnFund, orZero]
    norm_num
  have hfind : managerAE.investments.find? (fun inv => inv.id == 1) = some holdingA := by
    simp [managerAE, holdingA]
  ⟨rfl, by decide, by decide, hg, ht0, htg, hfind,
    by simp [dividendInvestments, managerAE, holdingA, holdingE, isDividendInvestment],
    (addDividend_ignores_category managerAE formDividendOnFund 7 8 1 holdingA rfl (by decide)
      (by decide) hg ht0 htg hfind).1⟩

/-! ## Deleting a divestment record -/

/-- C21: `deleteDivestment` with no quote pending, a record of the given id in the list and the
dialog confirmed leaves as divestment list the old one filtered by `id != divestmentId`:
exactly the records of that id go, the others stay in their order; holdings, dividends and
the pending quote are untouched, so no divested holding is re-created or restored.  When a
quote is pending or no record has the id, the manager is returned unchanged; and in every
case the holdings are those of before. -/
theorem deleteDivestment_frame (m : Manager) (divestmentId : Nat) (confirmed : Bool) :
    (m.pendingDivestment = none → (∃ d ∈ m.divestments, d.id = divestmentId) →
      confirmed = true →
      (deleteDivestment m divestmentId confirmed).1.divestments =
        m.divestments.filter (fun d => d.id != divestmentId) ∧
      (∀ d ∈ (deleteDivestment m divestmentId confirmed).1.divestments, d.id ≠ divestmentId) ∧
      (∀ d ∈ m.divestments, d.id ≠ divestmentId →
        d ∈ (deleteDivestment m divestmentId confirmed).1.divestments) ∧
      (deleteDivestment m divestmentId confirmed).1.investments = m.investments ∧
      (deleteDivestment m divestmentId confirmed).1.dividends = m.dividends ∧
      (deleteDivestment m divestmentId confirmed).1.pendingDivestment = m.pendingDivestment) ∧
    ((m.pendingDivestment ≠ none ∨ ∀ d ∈ m.divestments, d.id ≠ divestmentId) →
      (deleteDivestment m divestmentId confirmed).1 = m) ∧
    (confirmed = false → (deleteDivestment m divestmentId confirmed).1 = m) ∧
    (deleteDivestment m divestmentId confirmed).1.investments = m.investments := by
  refine ⟨?_, ?_, ?_, ?_⟩
  · intro hp hex hc
    obtain ⟨d, hd, hid⟩ := hex
    obtain ⟨d2, hfind⟩ : ∃ d2, m.divestments.find? (fun div => div.id == divestmentId) =
        some d2 := by
      cases hf : m.divestments.find? (fun div => div.id == divestmentId) with
      | none =>
        have := List.find?_eq_none.mp hf d hd
        simp [hid] at this
      | some d2 => exact ⟨d2, rfl⟩
    have hres : deleteDivestment m divestmentId confirmed =
        ({ m with divestments := m.divestments.filter (fun div => div.id != divestmentId) },
          Notice.divestmentDeleted) := by
      simp [deleteDivestment, hp, hfind, hc]
    rw [hres]
    refine ⟨rfl, ?_, ?_, rfl, rfl, rfl⟩
    · intro x hx
      have hx2 : x ∈ m.divestments.filter (fun div => div.id != divestmentId) := hx
      simpa using (List.mem_filter.mp hx2).2
    · intro x hx hne
      show x ∈ m.divestments.filter (fun div => div.id != divestmentId)
      exact List.mem_filter.mpr ⟨hx, by simpa using hne⟩
  · intro h
    rcases h with hp | hno
    · cases hpd : m.pendingDivestment with
      | none => exact absurd hpd hp
      | some p => simp [deleteDivestment, hpd]
    · have hnone : m.divestments.find? (fun div => div.id == divestmentId) = none := by
        rw [List.find?_eq_none]
        intro x hx
        simpa using hno x hx
      cases hpd : m.pendingDivestment <;> simp [deleteDivestment, hpd, hnone]
  · intro hc
    cases hpd : m.pendingDivestment with
    | some p => simp [deleteDivestment, hpd]
    | none =>
      cases hf : m.divestments.find? (fun div => div.id == divestmentId) <;>
        simp [deleteDivestment, hpd, hf, hc]
  · cases hpd : m.pendingDivestment with
    | some p => simp [deleteDivestment, hpd]
    | none =>
      cases hf : m.divestments.find? (fun div => div.id == divestmentId) with
      | none => simp [deleteDivestment, hpd, hf]
      | some d =>
        cases confirmed <;> simp [deleteDivestment, hpd, hf]

/-- C21 at `managerHistory`: deleting the record of id 7 leaves the other record and the three
holdings, among them the partially divested `holdingAReduced`, as they are. -/
theorem deleteDivestment_frame_witness :
    managerHistory.pendingDivestment = none ∧
    (∃ d ∈ managerHistory.divestments, d.id = 7) ∧
    (deleteDivestment managerHistory 7 true).1.divestments = [recordTotalC] ∧
    (deleteDivestment managerHistory 7 true).1.investments =
      [holdingAReduced, holdingB, holdingE] ∧
    (deleteDivestment managerHistory 7 true).1.divestments =
      managerHistory.divestments.filter (fun d => d.id != 7) :=
  have hp : managerHistory.pendingDivestment = none := rfl
  have hex : ∃ d ∈ managerHistory.divestments, d.id = 7 :=
    ⟨recordPartialA, by simp [managerHistory], rfl⟩
  have hres := (deleteDivestment_frame managerHistory 7 true).1 hp hex rfl
  ⟨hp, hex,
    by rw [hres.1]; simp [managerHistory, recordPartialA, recordTotalC, mkDivestmentRecord],
    by rw [hres.2.2.2.1]; rfl, hres.1⟩

/-! ## The dashboard -/

/-- A `reduce` adding one field of each element is the sum of the list of those fields. -/
theorem foldl_add_eq_jsSum {α : Type} (g : α → JSNum) (l : List α) :
    l.foldl (fun sum x => JSNum.add sum (g x)) (JSNum.fin 0) = jsSum (l.map g) := by
  rw [jsSum, List.foldl_map]

/-- C23: `updateDashboard` computes `totalPatrimony` as the sum of the current values plus the
sum of the divestments' `totalCash` plus the sum of the dividends' `netAmount`;
`totalOriginalInvestment` as the sum of the amounts plus the sum of the `divestedCost`; the
combined gain as (sum of current values minus sum of amounts) plus the sum of `netGain` plus
the sum of `netAmount`; and the overall return as `combinedGain / totalOriginalInvestment * 100`
when `totalOriginalInvestment > 0` and `0` otherwise, in particular `0` when there are neither
holdings nor divestments. -/
theorem updateDashboard_formulas (m : Manager) :
    (updateDashboard m).totalPatrimony =
      JSNum.add (JSNum.add (jsSum (m.investments.map (fun inv => inv.currentValue)))
        (jsSum (m.divestments.map (fun div => div.totalCash))))
        (jsSum (m.dividends.map (fun div => div.netAmount))) ∧
    (updateDashboard m).totalOriginalInvestment =
      JSNum.add (jsSum (m.investments.map (fun inv => inv.amount)))
        (jsSum (m.divestments.map (fun div => div.divestedCost))) ∧
    (updateDashboard m).totalRealizedAndUnrealizedGains =
      JSNum.add (JSNum.add
        (JSNum.sub (jsSum (m.investments.map (fun inv => inv.currentValue)))
          (jsSum (m.investments.map (fun inv => inv.amount))))
        (jsSum (m.divestments.map (fun div => div.netGain))))
        (jsSum (m.dividends.map (fun div => div.netAmount))) ∧
    (JSNum.gt (updateDashboard m).totalOriginalInvestment (JSNum.fin 0) = true →
      (updateDashboard m).totalReturnCalculated =
        JSNum.mul (JSNum.div (updateDashboard m).totalRealizedAndUnrealizedGains
          (updateDashboard m).totalOriginalInvestment) (JSNum.fin 100)) ∧
    (JSNum.gt (updateDashboard m).totalOriginalInvestment (JSNum.fin 0) = false →
      (updateDashboard m).totalReturnCalculated = JSNum.fin 0) ∧
    (m.investments = [] → m.divestments = [] →
      (updateDashboard m).totalReturnCalculated = JSNum.fin 0) := by
  refine ⟨?_, ?_, ?_, ?_, ?_, ?_⟩
  · simp only [updateDashboard, foldl_add_eq_jsSum]
  · simp only [updateDashboard, foldl_add_eq_jsSum]
  · simp only [updateDashboard, foldl_add_eq_jsSum]
  · intro h
    simp only [updateDashboard] at h ⊢
    rw [if_pos h]
  · intro h
    simp only [updateDashboard] at h ⊢
    rw [if_neg (by rw [h]; decide)]
  · intro hi hd
    simp [updateDashboard, hi, hd]

/-- The dashboard of `managerHistory`, evaluated: patrimony 5214.40 on an original investment
of 4500, combined gain 714.40. -/
theorem updateDashboard_managerHistory :
    (updateDashboard managerHistory).totalPatrimony = JSNum.fin (521440 / 100) ∧
    (updateDashboard managerHistory).totalOriginalInvestment = JSNum.fin 4500 ∧
    (updateDashboard managerHistory).totalRealizedAndUnrealizedGains =
      JSNum.fin (71440 / 100) := by
  simp [updateDashboard, managerHistory, holdingAReduced, holdingB, holdingE, recordPartialA,
    recordTotalC, mkDivestmentRecord, pendingPartialA, pendingTotalC, dividendE]
  norm_num

/-- C23 at `managerHistory` (original investment `> 0`) and at the empty manager. -/
theorem updateDashboard_formulas_witness :
    JSNum.gt (updateDashboard managerHistory).totalOriginalInvestment (JSNum.fin 0) = true ∧
    (updateDashboard managerHistory).totalReturnCalculated =
      JSNum.mul (JSNum.div (updateDashboard managerHistory).totalRealizedAndUnrealizedGains
        (updateDashboard managerHistory).totalOriginalInvestment) (JSNum.fin 100) ∧
    managerEmpty.investments = [] ∧ managerEmpty.divestments = [] ∧
    (updateDashboard managerEmpty).totalReturnCalculated = JSNum.fin 0 :=
  have hpos : JSNum.gt (updateDashboard managerHistory).totalOriginalInvestment
      (JSNum.fin 0) = true := by
    rw [updateDashboard_managerHistory.2.1]
    simp
  ⟨hpos, (updateDashboard_formulas managerHistory).2.2.2.1 hpos, rfl, rfl,
    (updateDashboard_formulas managerEmpty).2.2.2.2.2 rfl rfl⟩

/-! ## The average dividend yield -/

/-- C25 refuted at an explicit input: with one dividend of 100 gross and one dividend-paying
holding of amount 2000, `updateDividendStats` gives the yield `5` (a percentage), not the
quotient `100 / 2000 = 1/20`. -/
theorem updateDividendStats_yield_is_percent :
    jsSum (managerAEDividend.dividends.map (fun div => div.grossAmount)) = JSNum.fin 100 ∧
    jsSum ((managerAEDividend.investments.filter
      (fun inv => isDividendInvestment inv.type)).map (fun inv => inv.amount)) =
        JSNum.fin 2000 ∧
    JSNum.div (JSNum.fin 100) (JSNum.fin 2000) = JSNum.fin (1 / 20) ∧
    (updateDividendStats managerAEDividend).averageYield = JSNum.fin 5 ∧
    (updateDividendStats managerAEDividend).averageYield ≠ JSNum.fin (1 / 20) := by
  have hy : (updateDividendStats managerAEDividend).averageYield = JSNum.fin 5 := by
    simp [updateDividendStats, managerAEDividend, holdingA, holdingE, dividendE,
      isDividendInvestment, JSNum.div_fin]
    norm_num
  refine ⟨?_, ?_, ?_, hy, ?_⟩
  · simp [jsSum, managerAEDividend, dividendE]
  · simp [jsSum, managerAEDividend, holdingA, holdingE, isDividendInvestment]
  · rw [JSNum.div_fin _ _ (by norm_num)]
    norm_num
  · rw [hy]
    intro h
    have := JSNum.fin.inj h
    norm_num at this

/-- C25 as amended: the average yield computed by `updateDividendStats` is
`(sum of grossAmount) / (sum of amount over the dividend-paying holdings) * 100` when that
denominator is `> 0`, and `0` otherwise, in particular when there is no such holding. -/
theorem updateDividendStats_yield (m : Manager) :
    (JSNum.gt (jsSum ((m.investments.filter
        (fun inv => isDividendInvestment inv.type)).map (fun inv => inv.amount)))
        (JSNum.fin 0) = true →
      (updateDividendStats m).averageYield =
        JSNum.mul (JSNum.div (jsSum (m.dividends.map (fun div => div.grossAmount)))
          (jsSum ((m.investments.filter
            (fun inv => isDividendInvestment inv.type)).map (fun inv => inv.amount))))
          (JSNum.fin 100)) ∧
    (JSNum.gt (jsSum ((m.investments.filter
        (fun inv => isDividendInvestment inv.type)).map (fun inv => inv.amount)))
        (JSNum.fin 0) = false →
      (updateDividendStats m).averageYield = JSNum.fin 0) ∧
    (m.investments.filter (fun inv => isDividendInvestment inv.type) = [] →
      (updateDividendStats m).averageYield = JSNum.fin 0) := by
  refine ⟨?_, ?_, ?_⟩
  · intro h
    simp only [updateDividendStats, foldl_add_eq_jsSum]
    by_cases hlen : (m.investments.filter (fun inv => isDividendInvestment inv.type)).length > 0
    · rw [if_pos hlen, if_pos h]
    · have hnil : m.investments.filter (fun inv => isDividendInvestment inv.type) = [] :=
        List.length_eq_zero.mp (by omega)
      rw [hnil] at h
      simp [jsSum] at h
  · intro h
    simp only [updateDividendStats, foldl_add_eq_jsSum]
    by_cases hlen : (m.investments.filter (fun inv => isDividendInvestment inv.type)).length > 0
    · rw [if_pos hlen, if_neg (by rw [h]; decide)]
    · rw [if_neg hlen]
  · intro hnil
    simp [updateDividendStats, hnil]

/-- C25 as amended, at `managerAEDividend`: yield `100 / 2000 * 100 = 5`. -/
theorem updateDividendStats_yield_witness :
    JSNum.gt (jsSum ((managerAEDividend.investments.filter
        (fun inv => isDividendInvestment inv.type)).map (fun inv => inv.amount)))
        (JSNum.fin 0) = true ∧
    (updateDividendStats managerAEDividend).averageYield =
      JSNum.mul (JSNum.div (jsSum (managerAEDividend.dividends.map (fun div => div.grossAmount)))
        (jsSum ((managerAEDividend.investments.filter
          (fun inv => isDividendInvestment inv.type)).map (fun inv => inv.amount))))
        (JSNum.fin 100) ∧
    managerAB.investments.filter (fun inv => isDividendInvestment inv.type) = [] ∧
    (updateDividendStats managerAB).averageYield = JSNum.fin 0 :=
  have hpos : JSNum.gt (jsSum ((managerAEDividend.investments.filter
        (fun inv => isDividendInvestment inv.type)).map (fun inv => inv.amount)))
        (JSNum.fin 0) = true := by
    simp [jsSum, managerAEDividend, holdingA, holdingE, isDividendInvestment]
  have hnil : managerAB.investments.filter (fun inv => isDividendInvestment inv.type) = [] := by
    simp [managerAB, holdingA, holdingB, isDividendInvestment]
  ⟨hpos, (updateDividendStats_yield managerAEDividend).1 hpos, hnil,
    (updateDividendStats_yield managerAB).2.2 hnil⟩

/-! ## Proportional reduction -/

/-- C27: for a holding found by its id with finite `amount > 0` and `currentValue > 0` and an
accepted partial quote of `d < currentValue`, confirmed right after the quote: amount and
current value are both multiplied by `1 - d / currentValue`, so the ratio
`currentValue / amount` and the performance percentage are the same after as before. -/
theorem partial_divestment_keeps_ratio (m : Manager) (f : DivestmentForm) (h : Investment)
    (id : Nat) (a c : ℚ) (tId tStamp tUpdate : Nat)
    (hsel : f.selectInvestment = some id) (hty : f.divestmentType ≠ "")
    (hnt : f.divestmentType ≠ "total") (hdate : f.divestmentDate ≠ "")
    (hfind : m.investments.find? (fun inv => inv.id == id) = some h)
    (ha : h.amount = JSNum.fin a) (ha0 : 0 < a)
    (hcv : h.currentValue = JSNum.fin c) (hc0 : 0 < c)
    (hlt : JSNum.lt f.divestmentAmount h.currentValue = true)
    (hacc : (calculateDivestment m f).2 = Notice.quoteDisplayed) :
    ∃ (h1 : Investment) (d : ℚ),
      f.divestmentAmount = JSNum.fin d ∧ 0 < d ∧ d < c ∧
      (confirmDivestment (calculateDivestment m f).1 tId tStamp tUpdate).1.investments.find?
        (fun inv => inv.id == id) = some h1 ∧
      h1.amount = JSNum.fin (a * (1 - d / c)) ∧
      h1.currentValue = JSNum.fin (c * (1 - d / c)) ∧
      JSNum.div h1.currentValue h1.amount = JSNum.div h.currentValue h.amount ∧
      performance h1 = performance h := by
  obtain ⟨d, hd, hd0, hdc, -, hfound⟩ :=
    confirm_after_partial_quote m f h id c tId tStamp tUpdate hsel hty hnt hdate hfind hcv hacc
  have hdlt : d < c := by
    rw [hd, hcv] at hlt
    simpa using hlt
  have hcne : c ≠ 0 := ne_of_gt hc0
  have hane : a ≠ 0 := ne_of_gt ha0
  have hk : 0 < 1 - d / c := by
    have : d / c < 1 := (div_lt_one hc0).mpr hdlt
    linarith
  have hkne : 1 - d / c ≠ 0 := ne_of_gt hk
  have ha1 : a - a * (d / c) = a * (1 - d / c) := by ring
  have hc1 : c - d = c * (1 - d / c) := by
    field_simp
  have ha1ne : a * (1 - d / c) ≠ 0 := mul_ne_zero hane hkne
  have hA : (applyPartialDivestment (mkPending id h f.divestmentType f.divestmentDate
      (JSNum.fin d) (JSNum.mul h.amount (JSNum.fin (d / c)))) tUpdate h).amount =
      JSNum.fin (a * (1 - d / c)) := by
    simp [applyPartialDivestment, mkPending, ha, ha1]
  have hC : (applyPartialDivestment (mkPending id h f.divestmentType f.divestmentDate
      (JSNum.fin d) (JSNum.mul h.amount (JSNum.fin (d / c)))) tUpdate h).currentValue =
      JSNum.fin (c * (1 - d / c)) := by
    simp [applyPartialDivestment, mkPending, hcv, hc1]
  generalize applyPartialDivestment (mkPending id h f.divestmentType f.divestmentDate
      (JSNum.fin d) (JSNum.mul h.amount (JSNum.fin (d / c)))) tUpdate h = h1 at hfound hA hC
  refine ⟨h1, d, hd, hd0, hdlt, hfound, hA, hC, ?_, ?_⟩
  · rw [hA, hC, ha, hcv, JSNum.div_fin _ _ ha1ne, JSNum.div_fin _ _ hane,
      mul_div_mul_right c a hkne]
  · have hne1 : JSNum.fin (a * (1 - d / c)) ≠ JSNum.fin 0 := fun h0 => ha1ne (JSNum.fin.inj h0)
    have hne0 : JSNum.fin a ≠ JSNum.fin 0 := fun h0 => hane (JSNum.fin.inj h0)
    simp only [performance, hA, hC, ha, hcv, hne1, hne0, if_false, JSNum.sub_fin,
      JSNum.div_fin _ _ ha1ne, JSNum.div_fin _ _ hane, JSNum.mul_fin]
    rw [← sub_mul, mul_div_mul_right (c - a) a hkne]

/-- C27 at the holding (1000, 1500) and the quote of 600: ratio 1.5 before and after. -/
theorem partial_divestment_keeps_ratio_witness :
    formPartialA.selectInvestment = some 1 ∧ formPartialA.divestmentType ≠ "" ∧
    formPartialA.divestmentType ≠ "total" ∧ formPartialA.divestmentDate ≠ "" ∧
    managerAB.investments.find? (fun inv => inv.id == 1) = some holdingA ∧
    holdingA.amount = JSNum.fin 1000 ∧ (0 : ℚ) < 1000 ∧
    holdingA.currentValue = JSNum.fin 1500 ∧ (0 : ℚ) < 1500 ∧
    JSNum.lt formPartialA.divestmentAmount holdingA.currentValue = true ∧
    (calculateDivestment managerAB formPartialA).2 = Notice.quoteDisplayed ∧
    ∃ (h1 : Investment) (d : ℚ),
      formPartialA.divestmentAmount = JSNum.fin d ∧ 0 < d ∧ d < 1500 ∧
      (confirmDivestment (calculateDivestment managerAB formPartialA).1 7 8 9).1.investments.find?
        (fun inv => inv.id == 1) = some h1 ∧
      h1.amount = JSNum.fin (1000 * (1 - d / 1500)) ∧
      h1.currentValue = JSNum.fin (1500 * (1 - d / 1500)) ∧
      JSNum.div h1.currentValue h1.amount = JSNum.div holdingA.currentValue holdingA.amount ∧
      performance h1 = performance holdingA :=
  have hlt : JSNum.lt formPartialA.divestmentAmount holdingA.currentValue = true := by
    simp [formPartialA, holdingA]
    norm_num
  ⟨rfl, by decide, by decide, by decide, by simp [managerAB, holdingA], rfl, by norm_num, rfl,
    by norm_num, hlt, by rw [calculateDivestment_partialA],
    partial_divestment_keeps_ratio managerAB formPartialA holdingA 1 1000 1500 7 8 9 rfl
      (by decide) (by decide) (by decide) (by simp [managerAB, holdingA]) rfl (by norm_num) rfl
      (by norm_num) hlt (by rw [calculateDivestment_partialA])⟩

/-! ## Sums of finite numbers -/

/-- The rational value of a finite number. -/
theorem JSNum.toRat_fin (q : ℚ) : (JSNum.fin q).toRat = q := rfl

/-- A finite number is its rational value. -/
theorem JSNum.eq_fin_of_isFinite (x : JSNum) (h : x.isFinite = true) :
    x = JSNum.fin x.toRat := by
  cases x with
  | fin q => rfl
  | nan => simp [JSNum.isFinite] at h
  | ninf => simp [JSNum.isFinite] at h
  | pinf => simp [JSNum.isFinite] at h

/-- A `reduce` adding a field that is finite on every element, from a finite start. -/
theorem foldl_add_fin {α : Type} (g : α → JSNum) (l : List α) (z : ℚ)
    (hfin : ∀ x ∈ l, (g x).isFinite = true) :
    l.foldl (fun sum x => JSNum.add sum (g x)) (JSNum.fin z) = JSNum.fin (z + ratSum g l) := by
  induction l generalizing z with
  | nil => simp [ratSum]
  | cons y ys ih =>
    have hy := JSNum.eq_fin_of_isFinite (g y) (hfin y (List.mem_cons_self y ys))
    have hys : ∀ x ∈ ys, (g x).isFinite = true := fun x hx => hfin x (List.mem_cons_of_mem y hx)
    rw [List.foldl_cons, hy, JSNum.add_fin, ih _ hys]
    simp only [ratSum, List.map_cons, List.sum_cons, JSNum.toRat]
    congr 1
    ring

/-- The same from the start `0`. -/
theorem foldl_add_fin_zero {α : Type} (g : α → JSNum) (l : List α)
    (hfin : ∀ x ∈ l, (g x).isFinite = true) :
    l.foldl (fun sum x => JSNum.add sum (g x)) (JSNum.fin 0) = JSNum.fin (ratSum g l) := by
  rw [foldl_add_fin g l 0 hfin, zero_add]

/-- Exact sums over a concatenation and over a list with one more element. -/
theorem ratSum_append {α : Type} (g : α → JSNum) (l1 l2 : List α) :
    ratSum g (l1 ++ l2) = ratSum g l1 + ratSum g l2 := by
  simp [ratSum]

theorem ratSum_cons {α : Type} (g : α → JSNum) (x : α) (l : List α) :
    ratSum g (x :: l) = (g x).toRat + ratSum g l := by
  simp [ratSum]

theorem ratSum_nil {α : Type} (g : α → JSNum) : ratSum g ([] : List α) = 0 := by
  simp [ratSum]

/-- Exact sums of a field that is, element by element, the difference of two others. -/
theorem ratSum_sub {α : Type} (f g k : α → JSNum) (l : List α)
    (h : ∀ x ∈ l, (f x).toRat = (g x).toRat - (k x).toRat) :
    ratSum f l = ratSum g l - ratSum k l := by
  induction l with
  | nil => simp [ratSum]
  | cons y ys ih =>
    rw [ratSum_cons, ratSum_cons, ratSum_cons, h y (List.mem_cons_self y ys),
      ih (fun x hx => h x (List.mem_cons_of_mem y hx))]
    ring

/-- What `finiteFigures` says, element by element. -/
theorem finiteFigures_iff (m : Manager) :
    finiteFigures m = true ↔
      (∀ inv ∈ m.investments, inv.amount.isFinite = true ∧ inv.currentValue.isFinite = true) ∧
      (∀ div ∈ m.divestments, div.totalCash.isFinite = true ∧ div.divestedCost.isFinite = true ∧
        div.netGain.isFinite = true) ∧
      (∀ div ∈ m.dividends, div.netAmount.isFinite = true) := by
  simp only [finiteFigures, Bool.and_eq_true, List.all_eq_true]
  constructor
  · rintro ⟨⟨h1, h2⟩, h3⟩
    exact ⟨h1, fun d hd => ⟨(h2 d hd).1.1, (h2 d hd).1.2, (h2 d hd).2⟩, h3⟩
  · rintro ⟨h1, h2, h3⟩
    exact ⟨⟨h1, fun d hd => ⟨⟨(h2 d hd).1, (h2 d hd).2.1⟩, (h2 d hd).2.2⟩⟩, h3⟩

/-- The dashboard of a manager with finite figures, in exact arithmetic. -/
theorem updateDashboard_fin (m : Manager) (hfin : finiteFigures m = true) :
    (updateDashboard m).totalPatrimony =
      JSNum.fin (ratSum (fun inv => inv.currentValue) m.investments +
        ratSum (fun div => div.totalCash) m.divestments +
        ratSum (fun div => div.netAmount) m.dividends) ∧
    (updateDashboard m).totalOriginalInvestment =
      JSNum.fin (ratSum (fun inv => inv.amount) m.investments +
        ratSum (fun div => div.divestedCost) m.divestments) ∧
    (updateDashboard m).totalRealizedAndUnrealizedGains =
      JSNum.fin (ratSum (fun inv => inv.currentValue) m.investments -
        ratSum (fun inv => inv.amount) m.investments +
        ratSum (fun div => div.netGain) m.divestments +
        ratSum (fun div => div.netAmount) m.dividends) := by
  obtain ⟨hI, hD, hV⟩ := (finiteFigures_iff m).mp hfin
  have h1 := foldl_add_fin_zero (fun inv : Investment => inv.amount) m.investments
    (fun x hx => (hI x hx).1)
  have h2 := foldl_add_fin_zero (fun inv : Investment => inv.currentValue) m.investments
    (fun x hx => (hI x hx).2)
  have h3 := foldl_add_fin_zero (fun div : Divestment => div.totalCash) m.divestments
    (fun x hx => (hD x hx).1)
  have h4 := foldl_add_fin_zero (fun div : Divestment => div.divestedCost) m.divestments
    (fun x hx => (hD x hx).2.1)
  have h5 := foldl_add_fin_zero (fun div : Divestment => div.netGain) m.divestments
    (fun x hx => (hD x hx).2.2)
  have h6 := foldl_add_fin_zero (fun div : Dividend => div.netAmount) m.dividends hV
  simp only [updateDashboard, h1, h2, h3, h4, h5, h6, JSNum.add_fin, JSNum.sub_fin]
  exact ⟨trivial, trivial, trivial⟩

/-- A difference is finite only if both terms are. -/
theorem JSNum.isFinite_of_sub (x y : JSNum) (h : (JSNum.sub x y).isFinite = true) :
    x.isFinite = true ∧ y.isFinite = true := by
  cases x <;> cases y <;> simp [JSNum.sub, JSNum.neg, JSNum.add, JSNum.isFinite] at h ⊢

/-- The rational value of a finite difference. -/
theorem JSNum.toRat_sub (x y : JSNum) (hx : x.isFinite = true) (hy : y.isFinite = true) :
    (JSNum.sub x y).toRat = x.toRat - y.toRat := by
  rw [JSNum.eq_fin_of_isFinite x hx, JSNum.eq_fin_of_isFinite y hy, JSNum.sub_fin]
  rfl

/-- For a record with finite net gain that satisfies the three identities,
`netGain = totalCash - divestedCost`. -/
theorem record_netGain (div : Divestment) (hfin : div.netGain.isFinite = true)
    (hid : recordIdentities div = true) :
    div.netGain.toRat = div.totalCash.toRat - div.divestedCost.toRat := by
  simp only [recordIdentities, Bool.and_eq_true, decide_eq_true_eq] at hid
  obtain ⟨⟨hn, hg⟩, hc⟩ := hid
  have h1 : (JSNum.sub div.grossGain div.taxes).isFinite = true := by
    rw [← hn]
    exact hfin
  obtain ⟨hgf, htf⟩ := JSNum.isFinite_of_sub _ _ h1
  have h2 : (JSNum.sub div.divestedAmount div.divestedCost).isFinite = true := by
    rw [← hg]
    exact hgf
  obtain ⟨haf, hcf⟩ := JSNum.isFinite_of_sub _ _ h2
  have e1 : div.netGain.toRat = div.grossGain.toRat - div.taxes.toRat := by
    rw [hn]
    exact JSNum.toRat_sub _ _ hgf htf
  have e2 : div.grossGain.toRat = div.divestedAmount.toRat - div.divestedCost.toRat := by
    rw [hg]
    exact JSNum.toRat_sub _ _ haf hcf
  have e3 : div.totalCash.toRat = div.divestedAmount.toRat - div.taxes.toRat := by
    rw [hc]
    exact JSNum.toRat_sub _ _ haf htf
  rw [e1, e2, e3]
  ring

/-- C28: in a state whose figures are finite and in which every divestment record satisfies
`netGain = grossGain - taxes`, `grossGain = divestedAmount - divestedCost` and
`totalCash = divestedAmount - taxes`, the combined gain of the dashboard equals
`totalPatrimony - totalOriginalInvestment`. -/
theorem combined_gain_is_patrimony_minus_original (m : Manager)
    (hfin : finiteFigures m = true)
    (hid : ∀ div ∈ m.divestments, recordIdentities div = true) :
    (updateDashboard m).totalRealizedAndUnrealizedGains =
      JSNum.sub (updateDashboard m).totalPatrimony (updateDashboard m).totalOriginalInvestment := by
  obtain ⟨hP, hO, hG⟩ := updateDashboard_fin m hfin
  obtain ⟨-, hD, -⟩ := (finiteFigures_iff m).mp hfin
  have hsum := ratSum_sub (fun div : Divestment => div.netGain)
    (fun div : Divestment => div.totalCash) (fun div : Divestment => div.divestedCost)
    m.divestments (fun x hx => record_netGain x (hD x hx).2.2 (hid x hx))
  rw [hG, hP, hO, JSNum.sub_fin, hsum]
  congr 1
  ring

/-- Every record built by `confirmDivestment` from a quote of `calculateDivestment` satisfies
the three identities. -/
theorem recordIdentities_mkDivestmentRecord (id : Nat) (inv : Investment) (ty dt : String)
    (dA dC : JSNum) (tId tStamp : Nat) :
    recordIdentities (mkDivestmentRecord (mkPending id inv ty dt dA dC) tId tStamp) = true := by
  simp [recordIdentities, mkDivestmentRecord, mkPending]

/-- C28 at `managerHistory`: combined gain 714.40 = 5214.40 - 4500. -/
theorem combined_gain_is_patrimony_minus_original_witness :
    finiteFigures managerHistory = true ∧
    (∀ div ∈ managerHistory.divestments, recordIdentities div = true) ∧
    (updateDashboard managerHistory).totalRealizedAndUnrealizedGains =
      JSNum.fin (71440 / 100) ∧
    (updateDashboard managerHistory).totalRealizedAndUnrealizedGains =
      JSNum.sub (updateDashboard managerHistory).totalPatrimony
        (updateDashboard managerHistory).totalOriginalInvestment :=
  have hfin : finiteFigures managerHistory = true := by
    simp [finiteFigures, managerHistory, holdingAReduced, holdingB, holdingE, recordPartialA,
      recordTotalC, mkDivestmentRecord, pendingPartialA, pendingTotalC, dividendE,
      JSNum.isFinite]
  have hid : ∀ div ∈ managerHistory.divestments, recordIdentities div = true := by
    simp [managerHistory, recordIdentities, recordPartialA, recordTotalC, mkDivestmentRecord,
      pendingPartialA, pendingTotalC]
    norm_num
  ⟨hfin, hid, updateDashboard_managerHistory.2.2,
    combined_gain_is_patrimony_minus_original managerHistory hfin hid⟩

/-! ## The dashboard across a confirmed divestment -/

/-- The figures of a quote computed from finite divested amount and cost. -/
theorem mkPending_fin_fields (id : Nat) (inv : Investment) (ty dt : String) (dA dC : ℚ) :
    ∃ t : ℚ,
      (mkPending id inv ty dt (JSNum.fin dA) (JSNum.fin dC)).taxes = JSNum.fin t ∧
      (mkPending id inv ty dt (JSNum.fin dA) (JSNum.fin dC)).grossGain = JSNum.fin (dA - dC) ∧
      (mkPending id inv ty dt (JSNum.fin dA) (JSNum.fin dC)).netGain =
        JSNum.fin (dA - dC - t) ∧
      (mkPending id inv ty dt (JSNum.fin dA) (JSNum.fin dC)).totalCash = JSNum.fin (dA - t) ∧
      t = (if 0 < dA - dC then (dA - dC) * (26 / 100) else 0) := by
  by_cases hg : 0 < dA - dC
  · refine ⟨(dA - dC) * (26 / 100), ?_, ?_, ?_, ?_, by rw [if_pos hg]⟩ <;>
      simp [mkPending, taxRate, hg]
  · refine ⟨0, ?_, ?_, ?_, ?_, by rw [if_neg hg]⟩ <;> simp [mkPending, taxRate, hg]

/-- The dashboard after one holding `h` of the ledger has been replaced by the list `X` (empty,
or the reduced holding) and one record appended, when what left the holdings is what the
record carries. -/
theorem updateDashboard_after (m m2 : Manager) (pre post X : List Investment) (h : Investment)
    (r : Divestment) (a c dA dC t : ℚ)
    (hl : m.investments = pre ++ h :: post) (hl2 : m2.investments = pre ++ X ++ post)
    (hd2 : m2.divestments = m.divestments ++ [r]) (hv2 : m2.dividends = m.dividends)
    (hfin : finiteFigures m = true)
    (ha : h.amount = JSNum.fin a) (hc : h.currentValue = JSNum.fin c)
    (hX : ∀ x ∈ X, x.amount.isFinite = true ∧ x.currentValue.isFinite = true)
    (hXa : ratSum (fun inv => inv.amount) X = a - dC)
    (hXc : ratSum (fun inv => inv.currentValue) X = c - dA)
    (hrc : r.divestedCost = JSNum.fin dC) (hrt : r.totalCash = JSNum.fin (dA - t))
    (hrn : r.netGain.isFinite = true) :
    (updateDashboard m2).totalOriginalInvestment = (updateDashboard m).totalOriginalInvestment ∧
    (updateDashboard m2).totalPatrimony =
      JSNum.sub (updateDashboard m).totalPatrimony (JSNum.fin t) := by
  obtain ⟨hI, hD, hV⟩ := (finiteFigures_iff m).mp hfin
  have hfin2 : finiteFigures m2 = true := by
    rw [finiteFigures_iff, hl2, hd2, hv2]
    refine ⟨?_, ?_, hV⟩
    · intro x hx
      rcases List.mem_append.mp hx with hx | hx
      · rcases List.mem_append.mp hx with hx | hx
        · exact hI x (by rw [hl]; exact List.mem_append_left _ hx)
        · exact hX x hx
      · exact hI x (by rw [hl]; exact List.mem_append_right _ (List.mem_cons_of_mem _ hx))
    · intro x hx
      rcases List.mem_append.mp hx with hx | hx
      · exact hD x hx
      · have hxr : x = r := by simpa using hx
        rw [hxr, hrc, hrt]
        exact ⟨rfl, rfl, hrn⟩
  obtain ⟨hP, hO, -⟩ := updateDashboard_fin m hfin
  obtain ⟨hP2, hO2, -⟩ := updateDashboard_fin m2 hfin2
  rw [hP, hO, hP2, hO2, JSNum.sub_fin, hl, hl2, hd2, hv2]
  simp only [ratSum_append, ratSum_cons, ratSum_nil, hXa, hXc, ha, hc, hrc, hrt, JSNum.toRat]
  constructor
  · congr 1
    ring
  · congr 1
    ring

/-- In a ledger with unique ids, filtering out the id of the holding found removes exactly
that holding. -/
theorem filter_ne_of_nodup (l pre post : List Investment) (h : Investment) (id : Nat)
    (hl : l = pre ++ h :: post) (hpre : ∀ x ∈ pre, (x.id == id) = false) (hid : h.id = id)
    (huniq : (l.map (fun inv => inv.id)).Nodup) :
    l.filter (fun inv => inv.id != id) = pre ++ post := by
  subst hl
  have hpost : ∀ x ∈ post, x.id ≠ id := by
    intro x hx hxid
    rw [List.map_append, List.map_cons, List.nodup_append] at huniq
    have hnd := (List.nodup_cons.mp huniq.2.1).1
    apply hnd
    rw [hid, ← hxid]
    exact List.mem_map.mpr ⟨x, hx, rfl⟩
  rw [List.filter_append, List.filter_cons]
  have h1 : pre.filter (fun inv => inv.id != id) = pre := by
    rw [List.filter_eq_self]
    intro x hx
    have := hpre x hx
    simp at this ⊢
    exact this
  have h2 : post.filter (fun inv => inv.id != id) = post := by
    rw [List.filter_eq_self]
    intro x hx
    simpa using hpost x hx
  simp [h1, h2, hid]

/-- C29: in a state with unique holding ids and finite figures, for every quote displayed by
`calculateDivestment` (total or partial) and confirmed right after, `confirmDivestment`
leaves the dashboard's `totalOriginalInvestment` as it was and lowers `totalPatrimony` by
exactly the quoted tax. -/
theorem confirmDivestment_dashboard (m : Manager) (f : DivestmentForm)
    (tId tStamp tUpdate : Nat)
    (hfin : finiteFigures m = true)
    (huniq : (m.investments.map (fun inv => inv.id)).Nodup)
    (hacc : (calculateDivestment m f).2 = Notice.quoteDisplayed) :
    ∃ (p : PendingDivestment) (t : ℚ),
      (calculateDivestment m f).1.pendingDivestment = some p ∧ p.taxes = JSNum.fin t ∧
      (confirmDivestment (calculateDivestment m f).1 tId tStamp tUpdate).2 =
        Notice.divestmentRecorded ∧
      (updateDashboard
        (confirmDivestment (calculateDivestment m f).1 tId tStamp tUpdate).1).totalOriginalInvestment =
        (updateDashboard m).totalOriginalInvestment ∧
      (updateDashboard
        (confirmDivestment (calculateDivestment m f).1 tId tStamp tUpdate).1).totalPatrimony =
        JSNum.sub (updateDashboard m).totalPatrimony p.taxes := by
  obtain ⟨id, h, dA, dC, hsel, hfind, hst, hkind⟩ := calculateDivestment_quoteDisplayed m f hacc
  obtain ⟨pre, post, hl, hpre, -⟩ :=
    modifyFirst_split (fun inv => inv.id == id) (fun x => x) m.investments h hfind
  obtain ⟨hI, -, -⟩ := (finiteFigures_iff m).mp hfin
  have hmem : h ∈ m.investments := List.mem_of_find?_eq_some hfind
  have ha := JSNum.eq_fin_of_isFinite _ (hI h hmem).1
  have hc := JSNum.eq_fin_of_isFinite _ (hI h hmem).2
  have hid : h.id = id := by
    have := List.find?_some hfind
    simpa using this
  rcases hkind with ⟨htot, hA, hC⟩ | ⟨hnt, hA, hC, hg1, hg2⟩
  · -- total divestment
    rw [hA, hC, hc, ha] at hst
    obtain ⟨t, ht, -, hn, hcash, -⟩ := mkPending_fin_fields id h f.divestmentType
      f.divestmentDate h.currentValue.toRat h.amount.toRat
    have hconf := confirmDivestment_total
      { m with pendingDivestment := some (mkPending id h f.divestmentType f.divestmentDate
          (JSNum.fin h.currentValue.toRat) (JSNum.fin h.amount.toRat)) }
      (mkPending id h f.divestmentType f.divestmentDate (JSNum.fin h.currentValue.toRat)
        (JSNum.fin h.amount.toRat)) tId tStamp tUpdate rfl htot
    have hfilter : m.investments.filter (fun inv => inv.id != id) = pre ++ [] ++ post := by
      rw [filter_ne_of_nodup m.investments pre post h id hl hpre hid huniq]
      simp
    refine ⟨_, t, by rw [hst], ht, by rw [hst, hconf], ?_⟩
    rw [hst, hconf, ht]
    exact updateDashboard_after m _ pre post [] h _ h.amount.toRat h.currentValue.toRat
      h.currentValue.toRat h.amount.toRat t hl hfilter rfl rfl hfin ha hc
      (by simp) (by simp [ratSum]) (by simp [ratSum]) rfl hcash (by
        show (mkPending id h f.divestmentType f.divestmentDate (JSNum.fin h.currentValue.toRat)
          (JSNum.fin h.amount.toRat)).netGain.isFinite = true
        rw [hn]
        rfl)
  · -- partial divestment
    rw [hc] at hg2
    obtain ⟨q, hq, hq0, hqc⟩ := JSNum.accepted_amount_fin _ _ hg1 hg2
    have hcne : h.currentValue.toRat ≠ 0 := by linarith
    have hcost : dC = JSNum.fin (h.amount.toRat * (q / h.currentValue.toRat)) := by
      rw [hC, hq, hc, ha, JSNum.div_fin q _ hcne, JSNum.mul_fin]
      rfl
    rw [hA, hq, hcost] at hst
    obtain ⟨t, ht, -, hn, hcash, -⟩ := mkPending_fin_fields id h f.divestmentType
      f.divestmentDate q (h.amount.toRat * (q / h.currentValue.toRat))
    have hconf := confirmDivestment_partial
      { m with pendingDivestment := some (mkPending id h f.divestmentType f.divestmentDate
          (JSNum.fin q) (JSNum.fin (h.amount.toRat * (q / h.currentValue.toRat)))) }
      (mkPending id h f.divestmentType f.divestmentDate (JSNum.fin q)
        (JSNum.fin (h.amount.toRat * (q / h.currentValue.toRat))))
      h tId tStamp tUpdate rfl hnt hfind
    obtain ⟨pre2, post2, hl2, hpre2, hmod⟩ :=
      modifyFirst_split (fun inv => inv.id == id)
        (applyPartialDivestment (mkPending id h f.divestmentType f.divestmentDate (JSNum.fin q)
          (JSNum.fin (h.amount.toRat * (q / h.currentValue.toRat)))) tUpdate)
        m.investments h hfind
    have hmod2 : modifyFirst (fun inv => inv.id == id)
        (applyPartialDivestment (mkPending id h f.divestmentType f.divestmentDate (JSNum.fin q)
          (JSNum.fin (h.amount.toRat * (q / h.currentValue.toRat)))) tUpdate) m.investments =
        pre2 ++ [applyPartialDivestment (mkPending id h f.divestmentType f.divestmentDate
          (JSNum.fin q) (JSNum.fin (h.amount.toRat * (q / h.currentValue.toRat)))) tUpdate h] ++
          post2 := by
      rw [hmod]
      simp
    have hA1 : (applyPartialDivestment (mkPending id h f.divestmentType f.divestmentDate
        (JSNum.fin q) (JSNum.fin (h.amount.toRat * (q / h.currentValue.toRat)))) tUpdate
        h).amount = JSNum.fin (h.amount.toRat - h.amount.toRat * (q / h.currentValue.toRat)) := by
      show JSNum.sub h.amount _ = _
      rw [ha]
      simp [mkPending, JSNum.toRat]
    have hC1 : (applyPartialDivestment (mkPending id h f.divestmentType f.divestmentDate
        (JSNum.fin q) (JSNum.fin (h.amount.toRat * (q / h.currentValue.toRat)))) tUpdate
        h).currentValue = JSNum.fin (h.currentValue.toRat - q) := by
      show JSNum.sub h.currentValue _ = _
      rw [hc]
      simp [mkPending, JSNum.toRat]
    refine ⟨_, t, by rw [hst], ht, by rw [hst, hconf], ?_⟩
    rw [hst, hconf, ht]
    exact updateDashboard_after m _ pre2 post2 _ h _ h.amount.toRat h.currentValue.toRat
      q (h.amount.toRat * (q / h.currentValue.toRat)) t hl2 hmod2 rfl rfl hfin ha hc
      (by
        intro x hx
        have hx2 : x = _ := List.mem_singleton.mp hx
        rw [hx2, hA1, hC1]
        exact ⟨rfl, rfl⟩)
      (by rw [ratSum_cons, ratSum_nil, hA1, JSNum.toRat_fin, add_zero])
      (by rw [ratSum_cons, ratSum_nil, hC1, JSNum.toRat_fin, add_zero]) rfl hcash (by
        show (mkPending id h f.divestmentType f.divestmentDate (JSNum.fin q)
          (JSNum.fin (h.amount.toRat * (q / h.currentValue.toRat)))).netGain.isFinite = true
        rw [hn]
        rfl)

/-- C29 at `managerAB` and the quote of 600 out of `holdingA`: the patrimony goes from 1900
to 1848, lower by the tax of 52, and the original investment stays 1500. -/
theorem confirmDivestment_dashboard_witness :
    finiteFigures managerAB = true ∧
    (managerAB.investments.map (fun inv => inv.id)).Nodup ∧
    (calculateDivestment managerAB formPartialA).2 = Notice.quoteDisplayed ∧
    (updateDashboard managerAB).totalPatrimony = JSNum.fin 1900 ∧
    (updateDashboard managerAB).totalOriginalInvestment = JSNum.fin 1500 ∧
    ∃ (p : PendingDivestment) (t : ℚ),
      (calculateDivestment managerAB formPartialA).1.pendingDivestment = some p ∧
      p.taxes = JSNum.fin t ∧
      (confirmDivestment (calculateDivestment managerAB formPartialA).1 7 8 9).2 =
        Notice.divestmentRecorded ∧
      (updateDashboard
        (confirmDivestment (calculateDivestment managerAB formPartialA).1 7 8 9).1).totalOriginalInvestment =
        (updateDashboard managerAB).totalOriginalInvestment ∧
      (updateDashboard
        (confirmDivestment (calculateDivestment managerAB formPartialA).1 7 8 9).1).totalPatrimony =
        JSNum.sub (updateDashboard managerAB).totalPatrimony p.taxes :=
  have hfin : finiteFigures managerAB = true := by
    simp [finiteFigures, managerAB, holdingA, holdingB, JSNum.isFinite]
  have huniq : (managerAB.investments.map (fun inv => inv.id)).Nodup := by
    simp [managerAB, holdingA, holdingB]
  have hacc : (calculateDivestment managerAB formPartialA).2 = Notice.quoteDisplayed := by
    rw [calculateDivestment_partialA]
  ⟨hfin, huniq, hacc,
    by simp [updateDashboard, managerAB, holdingA, holdingB]; norm_num,
    by simp [updateDashboard, managerAB, holdingA, holdingB]; norm_num,
    confirmDivestment_dashboard managerAB formPartialA 7 8 9 hfin huniq hacc⟩

/-! ## Two partial divestments in a row -/

/-- Quote and confirmation of a partial divestment of a finite `d` with `0 < d <= c` on a
holding with finite amount `a` and current value `c`: the figures of the quote and the
holding left. -/
theorem quote_confirm_partial_fin (m : Manager) (f : DivestmentForm) (h : Investment)
    (id : Nat) (a c d : ℚ) (tId tStamp tUpdate : Nat)
    (hsel : f.selectInvestment = some id) (hty : f.divestmentType ≠ "")
    (hnt : f.divestmentType ≠ "total") (hdate : f.divestmentDate ≠ "")
    (hfind : m.investments.find? (fun inv => inv.id == id) = some h)
    (ha : h.amount = JSNum.fin a) (hc : h.currentValue = JSNum.fin c)
    (hd : f.divestmentAmount = JSNum.fin d) (hd0 : 0 < d) (hdc : d ≤ c) :
    ∃ (p : PendingDivestment) (h1 : Investment),
      calculateDivestment m f = ({ m with pendingDivestment := some p }, Notice.quoteDisplayed) ∧
      p.divestedAmount = JSNum.fin d ∧
      p.divestedCost = JSNum.fin (a * (d / c)) ∧
      p.grossGain = JSNum.fin (d - a * (d / c)) ∧
      p.taxes = JSNum.fin (taxOf (d - a * (d / c))) ∧
      p.totalCash = JSNum.fin (d - taxOf (d - a * (d / c))) ∧
      (confirmDivestment (calculateDivestment m f).1 tId tStamp tUpdate).1.investments.find?
        (fun inv => inv.id == id) = some h1 ∧
      h1.amount = JSNum.fin (a - a * (d / c)) ∧ h1.currentValue = JSNum.fin (c - d) := by
  have hcne : c ≠ 0 := by linarith
  have hdne : d ≠ 0 := ne_of_gt hd0
  have hcalc := calculateDivestment_partial m f h id hsel hty hnt hdate hfind
  have hg1 : (!f.divestmentAmount.truthy || JSNum.le f.divestmentAmount (JSNum.fin 0)) = false := by
    rw [hd]
    simp [hdne, hd0]
  have hg2 : JSNum.gt f.divestmentAmount h.currentValue = false := by
    rw [hd, hc]
    simpa using hdc
  rw [hg1, hg2, hd, hc, ha, JSNum.div_fin d c hcne, JSNum.mul_fin] at hcalc
  simp only [Bool.false_eq_true, if_false] at hcalc
  have hacc : (calculateDivestment m f).2 = Notice.quoteDisplayed := by rw [hcalc]
  obtain ⟨d2, hd2, -, -, -, hfound⟩ :=
    confirm_after_partial_quote m f h id c tId tStamp tUpdate hsel hty hnt hdate hfind hc hacc
  have hdd : d2 = d := (JSNum.fin.inj (hd2.symm.trans hd))
  subst hdd
  rw [ha, JSNum.mul_fin] at hfound
  obtain ⟨t, ht, hg, -, hcash, htdef⟩ := mkPending_fin_fields id h f.divestmentType
    f.divestmentDate d2 (a * (d2 / c))
  have htax : t = taxOf (d2 - a * (d2 / c)) := by rw [htdef, taxOf]
  refine ⟨_, _, hcalc, rfl, rfl, hg, by rw [ht, htax], by rw [hcash, htax], hfound, ?_, ?_⟩
  · simp [applyPartialDivestment, mkPending, ha]
  · simp [applyPartialDivestment, mkPending, hc]

/-- The tax on two gains of the same sign is the tax on their sum. -/
theorem taxOf_add (r d1 d2 : ℚ) (h1 : 0 < d1) (h2 : 0 < d2) :
    taxOf (d1 * r) + taxOf (d2 * r) = taxOf ((d1 + d2) * r) := by
  unfold taxOf
  by_cases hr : 0 < r
  · have e1 : 0 < d1 * r := mul_pos h1 hr
    have e2 : 0 < d2 * r := mul_pos h2 hr
    have e3 : 0 < (d1 + d2) * r := mul_pos (by linarith) hr
    rw [if_pos e1, if_pos e2, if_pos e3]
    ring
  · have hr2 : r ≤ 0 := not_lt.mp hr
    have e1 : ¬ 0 < d1 * r := not_lt.mpr (mul_nonpos_of_nonneg_of_nonpos (le_of_lt h1) hr2)
    have e2 : ¬ 0 < d2 * r := not_lt.mpr (mul_nonpos_of_nonneg_of_nonpos (le_of_lt h2) hr2)
    have e3 : ¬ 0 < (d1 + d2) * r :=
      not_lt.mpr (mul_nonpos_of_nonneg_of_nonpos (by linarith) hr2)
    rw [if_neg e1, if_neg e2, if_neg e3]
    ring

/-- C30: for a holding found by its id with finite amount and current value `c > 0`, and
`d1, d2 > 0` with `d1 + d2 <= c`: quoting and confirming a partial divestment of `d1` and
then one of `d2` gives quotes whose divested costs, gross gains, taxes and net cash add up
to those of the single quote of `d1 + d2`, and leaves the holding with the same amount and
current value as the single divestment does. -/
theorem two_partials_eq_one (m : Manager) (f1 f2 f12 : DivestmentForm) (h : Investment)
    (id : Nat) (a c d1 d2 : ℚ) (t1 t2 t3 t4 t5 t6 t7 t8 t9 : Nat)
    (hsel1 : f1.selectInvestment = some id) (hty1 : f1.divestmentType ≠ "")
    (hnt1 : f1.divestmentType ≠ "total") (hdate1 : f1.divestmentDate ≠ "")
    (hsel2 : f2.selectInvestment = some id) (hty2 : f2.divestmentType ≠ "")
    (hnt2 : f2.divestmentType ≠ "total") (hdate2 : f2.divestmentDate ≠ "")
    (hsel12 : f12.selectInvestment = some id) (hty12 : f12.divestmentType ≠ "")
    (hnt12 : f12.divestmentType ≠ "total") (hdate12 : f12.divestmentDate ≠ "")
    (hfind : m.investments.find? (fun inv => inv.id == id) = some h)
    (ha : h.amount = JSNum.fin a) (hc : h.currentValue = JSNum.fin c) (hc0 : 0 < c)
    (hd1 : f1.divestmentAmount = JSNum.fin d1) (hd2 : f2.divestmentAmount = JSNum.fin d2)
    (hd12 : f12.divestmentAmount = JSNum.fin (d1 + d2))
    (h1pos : 0 < d1) (h2pos : 0 < d2) (hsum : d1 + d2 ≤ c) :
    ∃ (pA pB pX : PendingDivestment) (hD hY : Investment),
      calculateDivestment m f1 =
        ({ m with pendingDivestment := some pA }, Notice.quoteDisplayed) ∧
      (calculateDivestment
        (confirmDivestment (calculateDivestment m f1).1 t1 t2 t3).1 f2).1.pendingDivestment =
        some pB ∧
      (calculateDivestment
        (confirmDivestment (calculateDivestment m f1).1 t1 t2 t3).1 f2).2 =
        Notice.quoteDisplayed ∧
      calculateDivestment m f12 =
        ({ m with pendingDivestment := some pX }, Notice.quoteDisplayed) ∧
      JSNum.add pA.divestedCost pB.divestedCost = pX.divestedCost ∧
      JSNum.add pA.grossGain pB.grossGain = pX.grossGain ∧
      JSNum.add pA.taxes pB.taxes = pX.taxes ∧
      JSNum.add pA.totalCash pB.totalCash = pX.totalCash ∧
      (confirmDivestment (calculateDivestment
        (confirmDivestment (calculateDivestment m f1).1 t1 t2 t3).1 f2).1
          t4 t5 t6).1.investments.find? (fun inv => inv.id == id) = some hD ∧
      (confirmDivestment (calculateDivestment m f12).1 t7 t8 t9).1.investments.find?
        (fun inv => inv.id == id) = some hY ∧
      hD.amount = hY.amount ∧ hD.currentValue = hY.currentValue := by
  have hcne : c ≠ 0 := ne_of_gt hc0
  have hc1 : 0 < c - d1 := by linarith
  have hc1ne : c - d1 ≠ 0 := ne_of_gt hc1
  obtain ⟨pA, hA, hcalcA, -, hcostA, hgainA, htaxA, hcashA, hfindA, haA, hcA⟩ :=
    quote_confirm_partial_fin m f1 h id a c d1 t1 t2 t3 hsel1 hty1 hnt1 hdate1 hfind ha hc hd1
      h1pos (by linarith)
  obtain ⟨pB, hB, hcalcB, -, hcostB, hgainB, htaxB, hcashB, hfindB, haB, hcB⟩ :=
    quote_confirm_partial_fin (confirmDivestment (calculateDivestment m f1).1 t1 t2 t3).1 f2 hA
      id (a - a * (d1 / c)) (c - d1) d2 t4 t5 t6 hsel2 hty2 hnt2 hdate2 hfindA haA hcA hd2
      h2pos (by linarith)
  obtain ⟨pX, hX, hcalcX, -, hcostX, hgainX, htaxX, hcashX, hfindX, haX, hcX⟩ :=
    quote_confirm_partial_fin m f12 h id a c (d1 + d2) t7 t8 t9 hsel12 hty12 hnt12 hdate12
      hfind ha hc hd12 (by linarith) hsum
  have key : (a - a * (d1 / c)) * (d2 / (c - d1)) = a * (d2 / c) := by
    field_simp
    ring
  have g1 : d1 - a * (d1 / c) = d1 * (1 - a / c) := by
    field_simp
    ring
  have g2 : d2 - (a - a * (d1 / c)) * (d2 / (c - d1)) = d2 * (1 - a / c) := by
    rw [key]
    field_simp
    ring
  have g12 : d1 + d2 - a * ((d1 + d2) / c) = (d1 + d2) * (1 - a / c) := by
    field_simp
    ring
  have htax := taxOf_add (1 - a / c) d1 d2 h1pos h2pos
  refine ⟨pA, pB, pX, hB, hX, hcalcA, by rw [hcalcB], by rw [hcalcB], hcalcX, ?_, ?_, ?_, ?_,
    hfindB, hfindX, ?_, ?_⟩
  · rw [hcostA, hcostB, hcostX, JSNum.add_fin, key]
    congr 1
    field_simp
    ring
  · rw [hgainA, hgainB, hgainX, JSNum.add_fin, g1, g2, g12]
    congr 1
    ring
  · rw [htaxA, htaxB, htaxX, JSNum.add_fin, g1, g2, g12, htax]
  · rw [hcashA, hcashB, hcashX, JSNum.add_fin, g1, g2, g12, ← htax]
    congr 1
    ring
  · rw [haB, haX, key]
    congr 1
    field_simp
    ring
  · rw [hcB, hcX]
    congr 1
    ring

/-- C30 at the holding (1000, 1500): divesting 200 and then 400 against divesting 600. -/
theorem two_partials_eq_one_witness :
    managerAB.investments.find? (fun inv => inv.id == 1) = some holdingA ∧
    holdingA.amount = JSNum.fin 1000 ∧ holdingA.currentValue = JSNum.fin 1500 ∧
    formPartialA200.divestmentAmount = JSNum.fin 200 ∧
    formPartialA400.divestmentAmount = JSNum.fin 400 ∧
    formPartialA.divestmentAmount = JSNum.fin (200 + 400) ∧
    (0 : ℚ) < 1500 ∧ (0 : ℚ) < 200 ∧ (0 : ℚ) < 400 ∧ (200 : ℚ) + 400 ≤ 1500 ∧
    ∃ (pA pB pX : PendingDivestment) (hD hY : Investment),
      calculateDivestment managerAB formPartialA200 =
        ({ managerAB with pendingDivestment := some pA }, Notice.quoteDisplayed) ∧
      (calculateDivestment
        (confirmDivestment (calculateDivestment managerAB formPartialA200).1 7 8 9).1
          formPartialA400).1.pendingDivestment = some pB ∧
      (calculateDivestment
        (confirmDivestment (calculateDivestment managerAB formPartialA200).1 7 8 9).1
          formPartialA400).2 = Notice.quoteDisplayed ∧
      calculateDivestment managerAB formPartialA =
        ({ managerAB with pendingDivestment := some pX }, Notice.quoteDisplayed) ∧
      JSNum.add pA.divestedCost pB.divestedCost = pX.divestedCost ∧
      JSNum.add pA.grossGain pB.grossGain = pX.grossGain ∧
      JSNum.add pA.taxes pB.taxes = pX.taxes ∧
      JSNum.add pA.totalCash pB.totalCash = pX.totalCash ∧
      (confirmDivestment (calculateDivestment
        (confirmDivestment (calculateDivestment managerAB formPartialA200).1 7 8 9).1
          formPartialA400).1 17 18 19).1.investments.find? (fun inv => inv.id == 1) = some hD ∧
      (confirmDivestment (calculateDivestment managerAB formPartialA).1 27 28 29).1.investments.find?
        (fun inv => inv.id == 1) = some hY ∧
      hD.amount = hY.amount ∧ hD.currentValue = hY.currentValue :=
  have hfind : managerAB.investments.find? (fun inv => inv.id == 1) = some holdingA := by
    simp [managerAB, holdingA]
  have h600 : formPartialA.divestmentAmount = JSNum.fin (200 + 400) := by
    simp [formPartialA]
    norm_num
  ⟨hfind, rfl, rfl, rfl, rfl, h600, by norm_num, by norm_num, by norm_num, by norm_num,
    two_partials_eq_one managerAB formPartialA200 formPartialA400 formPartialA holdingA 1
      1000 1500 200 400 7 8 9 17 18 19 27 28 29 rfl (by decide) (by decide) (by decide)
      rfl (by decide) (by decide) (by decide) rfl (by decide) (by decide) (by decide)
      hfind rfl rfl (by norm_num) rfl rfl h600 (by norm_num) (by norm_num) (by norm_num)⟩

/-! ## The backend: deleting a holding -/

/-- C22: with unique document ids, the delete handler for a holding `inv` of the user
removes `inv` from its place and leaves the other holdings as they are, removes exactly the
dividends and the divestments that have both `investmentId = id` and the user's id, and
answers "deleted"; when the user has no holding of that id it answers "not found" and the
store is unchanged. -/
theorem deleteInvestmentRoute_cascade (s : Store) (userId id : Nat)
    (huniq : (s.investments.map (fun inv => inv.id)).Nodup) :
    (∀ inv ∈ s.investments, inv.id = id → inv.userId = userId →
      ∃ pre post : List InvestmentDoc,
        s.investments = pre ++ inv :: post ∧
        (deleteInvestmentRoute s userId id).1.investments = pre ++ post ∧
        inv ∉ (deleteInvestmentRoute s userId id).1.investments ∧
        (deleteInvestmentRoute s userId id).1.dividends =
          s.dividends.filter (fun d => !(d.investmentId == id && d.userId == userId)) ∧
        (deleteInvestmentRoute s userId id).1.divestments =
          s.divestments.filter (fun d => !(d.investmentId == id && d.userId == userId)) ∧
        (deleteInvestmentRoute s userId id).2 = DeleteResponse.deleted) ∧
    ((∀ inv ∈ s.investments, ¬ (inv.id = id ∧ inv.userId = userId)) →
      deleteInvestmentRoute s userId id = (s, DeleteResponse.notFound)) := by
  constructor
  · intro inv hmem hid huser
    obtain ⟨pre, post, hl⟩ := List.append_of_mem hmem
    have hnd := huniq
    rw [hl, List.map_append, List.map_cons, List.nodup_append] at hnd
    obtain ⟨-, hnd2, hdisj⟩ := hnd
    have hpre : ∀ x ∈ pre, x.id ≠ id := by
      intro x hx hxid
      exact hdisj (List.mem_map.mpr ⟨x, hx, rfl⟩)
        (by rw [hxid, ← hid]; exact List.mem_cons_self _ _)
    have hpost : ∀ x ∈ post, x.id ≠ id := by
      intro x hx hxid
      apply (List.nodup_cons.mp hnd2).1
      rw [hid, ← hxid]
      exact List.mem_map.mpr ⟨x, hx, rfl⟩
    have hfind : s.investments.find? (fun x => x.id == id && x.userId == userId) = some inv := by
      rw [hl, List.find?_append]
      have hnone : pre.find? (fun x => x.id == id && x.userId == userId) = none := by
        rw [List.find?_eq_none]
        intro x hx
        simp [hpre x hx]
      rw [hnone]
      simp [List.find?, hid, huser]
    have herase : s.investments.eraseP (fun x => x.id == id) = pre ++ post := by
      rw [hl, List.eraseP_append_right _ (by
        intro x hx
        simpa using hpre x hx)]
      simp [hid]
    refine ⟨pre, post, hl, ?_, ?_, ?_, ?_, ?_⟩
    · simp [deleteInvestmentRoute, hfind, herase]
    · simp only [deleteInvestmentRoute, hfind, herase]
      intro hin
      rcases List.mem_append.mp hin with hin | hin
      · exact hpre inv hin hid
      · exact hpost inv hin hid
    · simp [deleteInvestmentRoute, hfind]
    · simp [deleteInvestmentRoute, hfind]
    · simp [deleteInvestmentRoute, hfind]
  · intro hno
    have hnone : s.investments.find? (fun x => x.id == id && x.userId == userId) = none := by
      rw [List.find?_eq_none]
      intro x hx
      simpa using hno x hx
    simp [deleteInvestmentRoute, hnone]

/-- C22 at `storeExample`: user 1 deletes the holding 1, which has two dividends and one
divestment; all four documents go and everything else stays.  User 2 asking for the same id
gets "not found" and nothing is deleted. -/
theorem deleteInvestmentRoute_cascade_witness :
    (storeExample.investments.map (fun inv => inv.id)).Nodup ∧
    deleteInvestmentRoute storeExample 1 1 = (storeAfterDelete, DeleteResponse.deleted) ∧
    (∀ inv ∈ storeExample.investments, ¬ (inv.id = 1 ∧ inv.userId = 2)) ∧
    deleteInvestmentRoute storeExample 2 1 = (storeExample, DeleteResponse.notFound) :=
  have huniq : (storeExample.investments.map (fun inv => inv.id)).Nodup := by
    simp [storeExample]
  have hno : ∀ inv ∈ storeExample.investments, ¬ (inv.id = 1 ∧ inv.userId = 2) := by
    simp [storeExample]
  ⟨huniq, by simp [deleteInvestmentRoute, storeExample, storeAfterDelete, List.eraseP],
    hno, (deleteInvestmentRoute_cascade storeExample 2 1 huniq).2 hno⟩

/-! ## The backend: portfolio summary -/

/-- Adding `undefined` gives `NaN`, and `NaN` stays: over a non-empty list the `reduce` on
`inv.initialAmount` is `NaN`. -/
theorem foldl_initialAmount (l : List InvestmentDoc) (z : JSNum) :
    l.foldl (fun sum inv => addMaybe sum inv.initialAmount) z =
      if l = [] then z else JSNum.nan := by
  induction l generalizing z with
  | nil => rfl
  | cons x xs ih =>
    rw [List.foldl_cons, ih]
    by_cases hxs : xs = []
    · simp [hxs, addMaybe, InvestmentDoc.initialAmount]
    · simp [hxs]

/-- For every user with at least one holding the summary route reports `totalInvested = NaN`
and `taxOnGains = 0`, whatever the amounts and the current values. -/
theorem summaryRoute_nan (s : Store) (userId : Nat)
    (hne : s.investments.filter (fun inv => inv.userId == userId) ≠ []) :
    (summaryRoute s userId).totalInvested = JSNum.nan ∧
    (summaryRoute s userId).taxOnGains = JSNum.fin 0 := by
  have hsum : (s.investments.filter (fun inv => inv.userId == userId)).foldl
      (fun sum inv => addMaybe sum inv.initialAmount) (JSNum.fin 0) = JSNum.nan := by
    rw [foldl_initialAmount, if_neg hne]
  constructor
  · simp only [summaryRoute, hsum]
  · simp only [summaryRoute, hsum]
    have hg : ∀ x : JSNum, JSNum.gt (JSNum.sub x JSNum.nan) (JSNum.fin 0) = false := by
      intro x
      cases x <;> rfl
    rw [hg]
    rfl

/-- C24, the code at the failing input: user 1 of `storeExample` holds two documents with
amounts 1000 and 500 and current values 1500 and 400.  The sum of the amounts is 1500 and
the tax on the unrealised gain `0.26 * (1900 - 1500)` is 104, but the route, which reads
`initialAmount`, reports `totalInvested = NaN`, `currentValue = 1900` and `taxOnGains = 0`. -/
theorem summaryRoute_reads_initialAmount :
    jsSum ((storeExample.investments.filter (fun inv => inv.userId == 1)).map
      (fun inv => inv.amount)) = JSNum.fin 1500 ∧
    JSNum.mul (JSNum.fin (26 / 100)) (JSNum.sub (JSNum.fin 1900) (JSNum.fin 1500)) =
      JSNum.fin 104 ∧
    (summaryRoute storeExample 1).totalInvested = JSNum.nan ∧
    (summaryRoute storeExample 1).currentValue = JSNum.fin 1900 ∧
    (summaryRoute storeExample 1).taxOnGains = JSNum.fin 0 := by
  have hne : storeExample.investments.filter (fun inv => inv.userId == 1) ≠ [] := by
    simp [storeExample]
  refine ⟨?_, ?_, (summaryRoute_nan storeExample 1 hne).1, ?_,
    (summaryRoute_nan storeExample 1 hne).2⟩
  · simp [jsSum, storeExample]
    norm_num
  · simp
    norm_num
  · simp [summaryRoute, storeExample]
    norm_num

/-! ## The backend: grouped statistics -/

/-- C26, the code at the failing input: the only divestment of user 1 has the reason
`constructor` and belongs to a holding named `toString`, as does the only dividend.  The
totals count one record each, but the groupings by reason and by holding are empty: the
record is in no group, and the group counts sum to 0.  The grouping by year has its one
entry. -/
theorem statsRoutes_inherited_keys :
    (divestmentStatsRoute storeInherited 1).totalCount = 1 ∧
    (divestmentStatsRoute storeInherited 1).totalAmount = JSNum.fin 200 ∧
    (divestmentStatsRoute storeInherited 1).byReason = [] ∧
    (divestmentStatsRoute storeInherited 1).byInvestment = [] ∧
    (divestmentStatsRoute storeInherited 1).byYear =
      [(some 2024, { count := 1, totalAmount := JSNum.fin 200 })] ∧
    (dividendStatsRoute storeInherited 1).totalCount = 1 ∧
    (dividendStatsRoute storeInherited 1).byInvestment = [] := by
  refine ⟨?_, ?_, ?_, ?_, ?_, ?_, ?_⟩ <;>
    simp [divestmentStatsRoute, dividendStatsRoute, storeInherited, groupBy, groupStep,
      inheritedName, inheritedYear, objectPrototypeKeys, bumpAmount, List.lookup]

/-! ### What the grouping does for keys that are not inherited names -/

/-- Bumping the entries of key `k`: the entry read under another key is unchanged, the one
read under `k` is bumped. -/
theorem lookup_map_bump {κ ρ γ : Type} [BEq κ] [LawfulBEq κ] (bump : γ → ρ → γ) (r : ρ)
    (k k2 : κ) (acc : List (κ × γ)) :
    (acc.map (fun e => if e.1 == k then (e.1, bump e.2 r) else e)).lookup k2 =
      if k2 == k then (acc.lookup k2).map (fun g => bump g r) else acc.lookup k2 := by
  have hf : (fun e : κ × γ => if e.1 == k then (e.1, bump e.2 r) else e) =
      fun e => (e.1, if e.1 == k then bump e.2 r else e.2) := by
    funext e
    split <;> rfl
  rw [hf]
  induction acc with
  | nil => simp
  | cons e es ih =>
    obtain ⟨ke, ge⟩ := e
    simp only [List.map_cons, List.lookup_cons]
    by_cases h3 : k2 = ke
    · subst h3
      by_cases h : k2 = k
      · simp [h]
      · simp [h]
    · have h4 : (k2 == ke) = false := by simpa using h3
      simp only [h4]
      exact ih

/-- The entry read under `k2` after one step of the grouping, for a key that is not an
inherited name. -/
theorem lookup_groupStep {κ ρ γ : Type} [BEq κ] [LawfulBEq κ] (inherited : κ → Bool)
    (key : ρ → κ) (init : γ) (bump : γ → ρ → γ) (acc : List (κ × γ)) (r : ρ) (k2 : κ)
    (hinh : inherited (key r) = false) :
    (groupStep inherited key init bump acc r).lookup k2 =
      if k2 == key r then some (bump ((acc.lookup k2).getD init) r) else acc.lookup k2 := by
  unfold groupStep
  simp only [hinh, Bool.false_eq_true, if_false]
  cases hl : acc.lookup (key r) with
  | none =>
    simp only [List.lookup_append]
    by_cases h : k2 = key r
    · subst h
      simp [hl, List.lookup]
    · have h2 : (k2 == key r) = false := by simpa using h
      simp only [h2, Bool.false_eq_true, if_false, List.lookup]
      cases acc.lookup k2 <;> simp
  | some g =>
    simp only []
    rw [lookup_map_bump]
    by_cases h : k2 = key r
    · subst h
      simp [hl]
    · have h2 : (k2 == key r) = false := by simpa using h
      simp [h2]

/-- The entry read under `k2` after the grouping of a list without inherited keys, started
from `acc`: the entry of `acc` (or a fresh one) bumped by the records of key `k2`, in order. -/
theorem lookup_foldl_groupStep {κ ρ γ : Type} [BEq κ] [LawfulBEq κ] (inherited : κ → Bool)
    (key : ρ → κ) (init : γ) (bump : γ → ρ → γ) (l : List ρ) (acc : List (κ × γ)) (k2 : κ)
    (hinh : ∀ r ∈ l, inherited (key r) = false) :
    (l.foldl (groupStep inherited key init bump) acc).lookup k2 =
      match acc.lookup k2 with
      | some g => some ((l.filter (fun r => k2 == key r)).foldl bump g)
      | none =>
        if (l.filter (fun r => k2 == key r)).isEmpty then none
        else some ((l.filter (fun r => k2 == key r)).foldl bump init) := by
  induction l generalizing acc with
  | nil =>
    simp only [List.foldl_nil]
    cases acc.lookup k2 <;> simp
  | cons r rs ih =>
    have hr := hinh r (List.mem_cons_self r rs)
    have hrs : ∀ x ∈ rs, inherited (key x) = false :=
      fun x hx => hinh x (List.mem_cons_of_mem r hx)
    rw [List.foldl_cons, ih _ hrs, lookup_groupStep inherited key init bump acc r k2 hr]
    by_cases hk : k2 = key r
    · subst hk
      cases hacc : acc.lookup (key r) <;> simp [List.filter]
    · have hk2 : (k2 == key r) = false := by simpa using hk
      simp only [hk2, Bool.false_eq_true, if_false, List.filter]

/-- The entry of a key in the result of `groupBy`, for a list without inherited keys. -/
theorem lookup_groupBy {κ ρ γ : Type} [BEq κ] [LawfulBEq κ] (inherited : κ → Bool)
    (key : ρ → κ) (init : γ) (bump : γ → ρ → γ) (l : List ρ) (k2 : κ)
    (hinh : ∀ r ∈ l, inherited (key r) = false) :
    (groupBy inherited key init bump l).lookup k2 =
      if (l.filter (fun r => k2 == key r)).isEmpty then none
      else some ((l.filter (fun r => k2 == key r)).foldl bump init) := by
  rw [groupBy, lookup_foldl_groupStep inherited key init bump l [] k2 hinh]
  rfl

/-- One step of the grouping keeps the keys, or appends a new one. -/
theorem keys_groupStep {κ ρ γ : Type} [BEq κ] [LawfulBEq κ] (inherited : κ → Bool)
    (key : ρ → κ) (init : γ) (bump : γ → ρ → γ) (acc : List (κ × γ)) (r : ρ) :
    (groupStep inherited key init bump acc r).map Prod.fst = acc.map Prod.fst ∨
    ((groupStep inherited key init bump acc r).map Prod.fst = acc.map Prod.fst ++ [key r] ∧
      key r ∉ acc.map Prod.fst) := by
  unfold groupStep
  by_cases hinh : inherited (key r) = true
  · left
    simp [hinh]
  · have hinh2 : inherited (key r) = false := Bool.eq_false_iff.mpr hinh
    simp only [hinh2, Bool.false_eq_true, if_false]
    cases hl : acc.lookup (key r) with
    | none =>
      right
      refine ⟨by simp, ?_⟩
      intro hmem
      obtain ⟨e, he, hke⟩ := List.mem_map.mp hmem
      have := List.lookup_eq_none_iff.mp hl e he
      simp [hke] at this
    | some g =>
      left
      simp only []
      rw [List.map_map]
      apply List.map_congr_left
      intro e _
      simp only [Function.comp]
      split <;> rfl

/-- The grouping keeps the keys distinct. -/
theorem nodup_keys_foldl {κ ρ γ : Type} [BEq κ] [LawfulBEq κ] (inherited : κ → Bool)
    (key : ρ → κ) (init : γ) (bump : γ → ρ → γ) (l : List ρ) (acc : List (κ × γ))
    (hnd : (acc.map Prod.fst).Nodup) :
    ((l.foldl (groupStep inherited key init bump) acc).map Prod.fst).Nodup := by
  induction l generalizing acc with
  | nil => exact hnd
  | cons r rs ih =>
    rw [List.foldl_cons]
    apply ih
    rcases keys_groupStep inherited key init bump acc r with h | ⟨h, hnot⟩
    · rw [h]
      exact hnd
    · rw [h]
      exact List.nodup_append.mpr ⟨hnd, List.nodup_singleton _, by
        intro x hx hx2
        rw [List.mem_singleton.mp hx2] at hx
        exact hnot hx⟩

/-- Bumping the entries of key `k` in a list with distinct keys, one of which is `k`, adds the
weight of the record once to the sum of a measure that each bump increases by that weight. -/
theorem sum_map_bump {κ ρ γ M : Type} [BEq κ] [LawfulBEq κ] [AddCommMonoid M]
    (bump : γ → ρ → γ) (r : ρ) (k : κ) (μ : γ → M) (w : M) (P : γ → Prop)
    (hb : ∀ g, P g → P (bump g r) ∧ μ (bump g r) = μ g + w)
    (acc : List (κ × γ)) (hnd : (acc.map Prod.fst).Nodup) (hP : ∀ e ∈ acc, P e.2) :
    (k ∉ acc.map Prod.fst →
      acc.map (fun e => if e.1 == k then (e.1, bump e.2 r) else e) = acc) ∧
    (k ∈ acc.map Prod.fst →
      ((acc.map (fun e => if e.1 == k then (e.1, bump e.2 r) else e)).map
        (fun e => μ e.2)).sum = (acc.map (fun e => μ e.2)).sum + w) ∧
    (∀ e ∈ acc.map (fun e => if e.1 == k then (e.1, bump e.2 r) else e), P e.2) := by
  induction acc with
  | nil => simp
  | cons e es ih =>
    obtain ⟨ke, ge⟩ := e
    simp only [List.map_cons, List.nodup_cons] at hnd
    obtain ⟨hke, hnd2⟩ := hnd
    have hPes : ∀ e ∈ es, P e.2 := fun e he => hP e (List.mem_cons_of_mem _ he)
    have hPge : P ge := hP (ke, ge) (List.mem_cons_self _ _)
    obtain ⟨ih1, ih2, ih3⟩ := ih hnd2 hPes
    by_cases hk : ke = k
    · subst hk
      have hrest := ih1 hke
      refine ⟨?_, ?_, ?_⟩
      · intro hnot
        exact absurd (List.mem_cons_self _ _) hnot
      · intro _
        simp only [List.map_cons, beq_self_eq_true, if_true, List.sum_cons, hrest,
          (hb ge hPge).2]
        rw [add_assoc, add_comm w, ← add_assoc]
      · intro e he
        simp only [List.map_cons, beq_self_eq_true, if_true, hrest] at he
        rcases List.mem_cons.mp he with he | he
        · rw [he]
          exact (hb ge hPge).1
        · exact hPes e he
    · have hk2 : (ke == k) = false := by simpa using hk
      refine ⟨?_, ?_, ?_⟩
      · intro hnot
        have hnot2 : k ∉ es.map Prod.fst := fun h => hnot (List.mem_cons_of_mem _ h)
        simp only [List.map_cons, hk2, Bool.false_eq_true, if_false, ih1 hnot2]
      · intro hin
        have hin2 : k ∈ es.map Prod.fst := by
          rcases List.mem_cons.mp hin with h | h
          · exact absurd h.symm hk
          · exact h
        simp only [List.map_cons, hk2, Bool.false_eq_true, if_false, List.sum_cons, ih2 hin2]
        rw [add_assoc]
      · intro e he
        simp only [List.map_cons, hk2, Bool.false_eq_true, if_false] at he
        rcases List.mem_cons.mp he with he | he
        · rw [he]
          exact hPge
        · exact ih3 e he

/-- The grouping of a list without inherited keys adds the weight of every record once to
the sum of the measure over the groups. -/
theorem sum_foldl_groupStep {κ ρ γ M : Type} [BEq κ] [LawfulBEq κ] [AddCommMonoid M]
    (inherited : κ → Bool) (key : ρ → κ) (init : γ) (bump : γ → ρ → γ)
    (μ : γ → M) (w : ρ → M) (P : γ → Prop) (hinit : P init) (hμ0 : μ init = 0)
    (l : List ρ) (acc : List (κ × γ))
    (hinh : ∀ r ∈ l, inherited (key r) = false)
    (hb : ∀ r ∈ l, ∀ g, P g → P (bump g r) ∧ μ (bump g r) = μ g + w r)
    (hnd : (acc.map Prod.fst).Nodup) (hP : ∀ e ∈ acc, P e.2) :
    ((l.foldl (groupStep inherited key init bump) acc).map (fun e => μ e.2)).sum =
      (acc.map (fun e => μ e.2)).sum + (l.map w).sum := by
  induction l generalizing acc with
  | nil => simp
  | cons r rs ih =>
    have hr := hinh r (List.mem_cons_self r rs)
    have hbr := hb r (List.mem_cons_self r rs)
    obtain ⟨s1, s2, s3⟩ := sum_map_bump bump r (key r) μ (w r) P hbr acc hnd hP
    have hstep : ((groupStep inherited key init bump acc r).map (fun e => μ e.2)).sum =
        (acc.map (fun e => μ e.2)).sum + w r ∧
        ∀ e ∈ groupStep inherited key init bump acc r, P e.2 := by
      unfold groupStep
      simp only [hr, Bool.false_eq_true, if_false]
      cases hl : acc.lookup (key r) with
      | none =>
        simp only []
        constructor
        · simp [(hbr init hinit).2, hμ0]
        · intro e he
          rcases List.mem_append.mp he with he | he
          · exact hP e he
          · rw [List.mem_singleton.mp he]
            exact (hbr init hinit).1
      | some g =>
        simp only []
        have hin : key r ∈ acc.map Prod.fst := by
          by_contra hnot
          have hnone : acc.lookup (key r) = none := by
            rw [List.lookup_eq_none_iff]
            intro e he
            have : key r ≠ e.1 := fun h => hnot (List.mem_map.mpr ⟨e, he, h.symm⟩)
            simpa using this
          rw [hnone] at hl
          cases hl
        exact ⟨s2 hin, s3⟩
    have hnd2 : ((groupStep inherited key init bump acc r).map Prod.fst).Nodup :=
      nodup_keys_foldl inherited key init bump [r] acc hnd
    rw [List.foldl_cons, ih _ (fun x hx => hinh x (List.mem_cons_of_mem r hx))
      (fun x hx => hb x (List.mem_cons_of_mem r hx)) hnd2 hstep.2, hstep.1, List.map_cons,
      List.sum_cons, add_assoc]

/-- Bumping an entry by a list of divestments: the count grows by their number and the total
by their amounts, added in order. -/
theorem foldl_bumpAmount (xs : List DivestmentDoc) (g : AmountGroup) :
    xs.foldl bumpAmount g =
      { count := g.count + xs.length
        totalAmount := xs.foldl (fun sum div => JSNum.add sum div.amount) g.totalAmount } := by
  induction xs generalizing g with
  | nil => rfl
  | cons x xs ih =>
    rw [List.foldl_cons, ih]
    simp only [bumpAmount, List.length_cons, List.foldl_cons]
    congr 1
    omega

/-- Any grouping of divestments by keys that are not inherited names: the entry of a key
counts the records of that key and totals their amounts; the keys are distinct, so a record
is in exactly one group; the counts add up to the number of records and, for finite
amounts, the totals add up to the total amount. -/
theorem groupBy_amount_sound {κ : Type} [BEq κ] [LawfulBEq κ] (inherited : κ → Bool)
    (key : DivestmentDoc → κ) (ds : List DivestmentDoc)
    (hinh : ∀ d ∈ ds, inherited (key d) = false) :
    (∀ k : κ, (groupBy inherited key { count := 0, totalAmount := JSNum.fin 0 } bumpAmount
        ds).lookup k =
      if (ds.filter (fun d => k == key d)).isEmpty then none
      else some { count := (ds.filter (fun d => k == key d)).length
                  totalAmount := jsSum ((ds.filter (fun d => k == key d)).map
                    (fun d => d.amount)) }) ∧
    ((groupBy inherited key { count := 0, totalAmount := JSNum.fin 0 } bumpAmount ds).map
      Prod.fst).Nodup ∧
    ((groupBy inherited key { count := 0, totalAmount := JSNum.fin 0 } bumpAmount ds).map
      (fun e => e.2.count)).sum = ds.length ∧
    ((∀ d ∈ ds, d.amount.isFinite = true) →
      ((groupBy inherited key { count := 0, totalAmount := JSNum.fin 0 } bumpAmount ds).map
        (fun e => e.2.totalAmount.toRat)).sum = ratSum (fun d => d.amount) ds ∧
      ds.foldl (fun sum div => JSNum.add sum div.amount) (JSNum.fin 0) =
        JSNum.fin (ratSum (fun d => d.amount) ds)) := by
  refine ⟨?_, ?_, ?_, ?_⟩
  · intro k
    rw [lookup_groupBy inherited key _ bumpAmount ds k hinh, foldl_bumpAmount]
    simp only [Nat.zero_add, foldl_add_eq_jsSum]
  · exact nodup_keys_foldl inherited key _ bumpAmount ds [] List.nodup_nil
  · have h := sum_foldl_groupStep inherited key
      ({ count := 0, totalAmount := JSNum.fin 0 } : AmountGroup) bumpAmount
      (fun g => g.count) (fun _ => 1) (fun _ => True) trivial rfl ds [] hinh
      (fun r _ g _ => ⟨trivial, rfl⟩) List.nodup_nil (fun e he => by cases he)
    rw [groupBy, h]
    simp
  · intro hfin
    have h := sum_foldl_groupStep inherited key
      ({ count := 0, totalAmount := JSNum.fin 0 } : AmountGroup) bumpAmount
      (fun g => g.totalAmount.toRat) (fun d => d.amount.toRat)
      (fun g => g.totalAmount.isFinite = true) rfl rfl ds [] hinh
      (fun r hr g hg => by
        have hr2 := JSNum.eq_fin_of_isFinite _ (hfin r hr)
        have hg2 := JSNum.eq_fin_of_isFinite _ hg
        simp only [bumpAmount]
        rw [hr2, hg2, JSNum.add_fin]
        exact ⟨rfl, rfl⟩)
      List.nodup_nil (fun e he => by cases he)
    refine ⟨?_, foldl_add_fin_zero (fun d : DivestmentDoc => d.amount) ds hfin⟩
    rw [groupBy, h]
    simp [ratSum]

end MyInvestments
